import Mathlib

/-!
# PIRQ routing table dumper (`IRQ/PirqDump.c`, `IRQ/PirqDump.h`)

A shallow embedding of the `$PIR` table scanner and slot decoder.

* Machine integers are natural numbers; a reduction modulo `2 ^ w` is written
  wherever the C expression is evaluated in a `w`-bit unsigned type and the
  value could leave its range.  The target is X64: `UINTN` and
  `EFI_PHYSICAL_ADDRESS` are 64 bits wide and data is little-endian.
* Firmware services are parameters (`Platform`): the result of
  `gBS->LocateProtocol`, the behaviour of `RbIo->Mem.Read` and of
  `AllocatePool`.  Each may depend on how many calls were made before, so a
  reader may fail at one moment and answer at the next, or return different
  bytes for the same address.
* Effects are recorded in an explicit `World`: the memory reads issued, the
  pool allocations and releases, and what was sent to the console.
-/

namespace PirqDump

/-! ## Base definitions of the firmware environment (X64) -/

/-- Status word `EFI_STATUS`, a `UINTN`. -/
abbrev EFI_STATUS := Nat

/-- Highest bit of a `UINTN`. -/
def MAX_BIT : Nat := 0x8000000000000000

/-- Error status codes have the highest bit set. -/
def ENCODE_ERROR (StatusCode : Nat) : EFI_STATUS := MAX_BIT ||| StatusCode

def EFI_SUCCESS : EFI_STATUS := 0
def EFI_INVALID_PARAMETER : EFI_STATUS := ENCODE_ERROR 2
def EFI_OUT_OF_RESOURCES : EFI_STATUS := ENCODE_ERROR 9
def EFI_NOT_FOUND : EFI_STATUS := ENCODE_ERROR 14
def EFI_COMPROMISED_DATA : EFI_STATUS := ENCODE_ERROR 33

/-- The test `EFI_ERROR (Status)`: the status read as a signed word is negative. -/
def EFI_ERROR (Status : EFI_STATUS) : Bool := decide (MAX_BIT ≤ Status % 2 ^ 64)

def SIGNATURE_16 (A B : Nat) : Nat := A ||| (B <<< 8)

def SIGNATURE_32 (A B C D : Nat) : Nat := SIGNATURE_16 A B ||| (SIGNATURE_16 C D <<< 16)

/-- The tag `PIR_SIGNATURE`, built from the characters `$`, `P`, `I`, `R`. -/
def PIR_SIGNATURE : Nat := SIGNATURE_32 0x24 0x50 0x49 0x52

def SCAN_LEFT : Nat := 0x0004
def SCAN_RIGHT : Nat := 0x0003
def SCAN_ESC : Nat := 0x0017

/-! ## Packed structures -/

/-- Little-endian load of `width` bytes at offset `off` of a byte buffer. -/
def readLE (buf : List Nat) (off : Nat) : Nat → Nat
  | 0 => 0
  | width + 1 => buf.getD off 0 + 256 * readLE buf (off + 1) width

/-- Fields of `PIR_TABLE_HEADER`, in declaration order. -/
inductive HdrField
  | Signature | Version | TableSize | RouterBus | RouterDevFunc | PciExclusiveIrqs
  | CompatibleRouter | MiniportData | Reserved | Checksum
  deriving DecidableEq, Repr

/-- Declared size in bytes of each header field
(`UINT32`, `UINT16`, `UINT8`, `UINT8 [11]`). -/
def HdrField.size : HdrField → Nat
  | .Signature => 4
  | .Version => 2
  | .TableSize => 2
  | .RouterBus => 1
  | .RouterDevFunc => 1
  | .PciExclusiveIrqs => 2
  | .CompatibleRouter => 4
  | .MiniportData => 4
  | .Reserved => 11
  | .Checksum => 1

def HdrField.declared : List HdrField :=
  [.Signature, .Version, .TableSize, .RouterBus, .RouterDevFunc, .PciExclusiveIrqs,
   .CompatibleRouter, .MiniportData, .Reserved, .Checksum]

/-- Offset of a field under `#pragma pack(1)`: the sizes of the fields declared
before it, with no padding. -/
def HdrField.offset (f : HdrField) : Nat :=
  ((HdrField.declared.takeWhile (fun g => decide (g ≠ f))).map HdrField.size).sum

/-- The value `sizeof (PIR_TABLE_HEADER)`. -/
def sizeof_PIR_TABLE_HEADER : Nat := (HdrField.declared.map HdrField.size).sum

/-- Fields of `PIR_SLOT_ENTRY`, in declaration order. -/
inductive SlotField
  | PciBusNumber | PciDeviceNumber
  | LinkValueIntA | IrqBitmapIntA | LinkValueIntB | IrqBitmapIntB
  | LinkValueIntC | IrqBitmapIntC | LinkValueIntD | IrqBitmapIntD
  | SlotNumber | Reserved
  deriving DecidableEq, Repr

def SlotField.size : SlotField → Nat
  | .PciBusNumber => 1
  | .PciDeviceNumber => 1
  | .LinkValueIntA => 1
  | .IrqBitmapIntA => 2
  | .LinkValueIntB => 1
  | .IrqBitmapIntB => 2
  | .LinkValueIntC => 1
  | .IrqBitmapIntC => 2
  | .LinkValueIntD => 1
  | .IrqBitmapIntD => 2
  | .SlotNumber => 1
  | .Reserved => 1

def SlotField.declared : List SlotField :=
  [.PciBusNumber, .PciDeviceNumber, .LinkValueIntA, .IrqBitmapIntA, .LinkValueIntB,
   .IrqBitmapIntB, .LinkValueIntC, .IrqBitmapIntC, .LinkValueIntD, .IrqBitmapIntD,
   .SlotNumber, .Reserved]

def SlotField.offset (f : SlotField) : Nat :=
  ((SlotField.declared.takeWhile (fun g => decide (g ≠ f))).map SlotField.size).sum

/-- The value `sizeof (PIR_SLOT_ENTRY)`. -/
def sizeof_PIR_SLOT_ENTRY : Nat := (SlotField.declared.map SlotField.size).sum

/-- The structure `PIR_TABLE_HEADER`, field values as unsigned integers. -/
structure PIR_TABLE_HEADER where
  Signature : Nat
  Version : Nat
  TableSize : Nat
  RouterBus : Nat
  RouterDevFunc : Nat
  PciExclusiveIrqs : Nat
  CompatibleRouter : Nat
  MiniportData : Nat
  Reserved : List Nat
  Checksum : Nat
  deriving DecidableEq, Repr

/-- Scalar field of a header object whose bytes are `buf`. -/
def HdrField.load (buf : List Nat) (f : HdrField) : Nat := readLE buf f.offset f.size

/-- The header object whose `sizeof (PIR_TABLE_HEADER)` bytes of storage are `buf`. -/
def PIR_TABLE_HEADER.ofBytes (buf : List Nat) : PIR_TABLE_HEADER where
  Signature := HdrField.Signature.load buf
  Version := HdrField.Version.load buf
  TableSize := HdrField.TableSize.load buf
  RouterBus := HdrField.RouterBus.load buf
  RouterDevFunc := HdrField.RouterDevFunc.load buf
  PciExclusiveIrqs := HdrField.PciExclusiveIrqs.load buf
  CompatibleRouter := HdrField.CompatibleRouter.load buf
  MiniportData := HdrField.MiniportData.load buf
  Reserved := (List.range HdrField.Reserved.size).map
    (fun i => buf.getD (HdrField.Reserved.offset + i) 0)
  Checksum := HdrField.Checksum.load buf

/-- The structure `PIR_SLOT_ENTRY`. -/
structure PIR_SLOT_ENTRY where
  PciBusNumber : Nat
  PciDeviceNumber : Nat
  LinkValueIntA : Nat
  IrqBitmapIntA : Nat
  LinkValueIntB : Nat
  IrqBitmapIntB : Nat
  LinkValueIntC : Nat
  IrqBitmapIntC : Nat
  LinkValueIntD : Nat
  IrqBitmapIntD : Nat
  SlotNumber : Nat
  Reserved : Nat
  deriving DecidableEq, Repr

def SlotField.load (buf : List Nat) (f : SlotField) : Nat := readLE buf f.offset f.size

/-- The slot object whose `sizeof (PIR_SLOT_ENTRY)` bytes of storage are `buf`. -/
def PIR_SLOT_ENTRY.ofBytes (buf : List Nat) : PIR_SLOT_ENTRY where
  PciBusNumber := SlotField.PciBusNumber.load buf
  PciDeviceNumber := SlotField.PciDeviceNumber.load buf
  LinkValueIntA := SlotField.LinkValueIntA.load buf
  IrqBitmapIntA := SlotField.IrqBitmapIntA.load buf
  LinkValueIntB := SlotField.LinkValueIntB.load buf
  IrqBitmapIntB := SlotField.IrqBitmapIntB.load buf
  LinkValueIntC := SlotField.LinkValueIntC.load buf
  IrqBitmapIntC := SlotField.IrqBitmapIntC.load buf
  LinkValueIntD := SlotField.LinkValueIntD.load buf
  IrqBitmapIntD := SlotField.IrqBitmapIntD.load buf
  SlotNumber := SlotField.SlotNumber.load buf
  Reserved := SlotField.Reserved.load buf

/-! ## Firmware services and recorded effects -/

/-- One call of `RbIo->Mem.Read` as it happened: the address and byte count
requested, the status returned and the bytes left in the buffer. -/
structure MemReadEvent where
  Address : Nat
  Count : Nat
  Status : EFI_STATUS
  Data : List Nat
  deriving DecidableEq, Repr

/-- Console activity: `ClearScreen`, or one `Print` with its format string and
the values of its arguments. -/
inductive ConEvent
  | ClearScreen
  | Print (Format : String) (Args : List Nat)
  deriving DecidableEq, Repr

/-- Effects accumulated so far, oldest first. -/
structure World where
  memReads : List MemReadEvent
  allocs : Nat
  frees : Nat
  console : List ConEvent
  deriving DecidableEq, Repr

/-- A world in which nothing has happened yet. -/
def World.fresh : World := ⟨[], 0, 0, []⟩

/-- Behaviour of the firmware services the program calls.

* `LocateProtocol`: the status of `gBS->LocateProtocol` for the PCI root bridge
  I/O protocol and the pointer it leaves in `RbIo` (`none` is `NULL`).
* `MemRead n Address Count`: what the `n`-th call (counting from 0) of
  `RbIo->Mem.Read` with width `EfiPciWidthUint8` does: its status and, for each
  offset below `Count`, the value stored at that offset of the buffer.
* `AllocatePool n Size`: whether the `n`-th call of `AllocatePool` returns a
  buffer (`true`) or `NULL` (`false`). -/
structure Platform where
  LocateProtocol : EFI_STATUS × Option Nat
  MemRead : Nat → Nat → Nat → EFI_STATUS × (Nat → Nat)
  AllocatePool : Nat → Nat → Bool

/-- Bytes left in a buffer of `Size` bytes by a read that stores `data i` at
offset `i`. -/
def bufferOf (data : Nat → Nat) (Size : Nat) : List Nat :=
  (List.range Size).map (fun i => data i % 256)

def ClearScreen (w : World) : World :=
  { w with console := w.console ++ [ConEvent.ClearScreen] }

def Print (w : World) (Format : String) (Args : List Nat) : World :=
  { w with console := w.console ++ [ConEvent.Print Format Args] }

/-- Pool allocation: whether a buffer was obtained, and the world afterwards. -/
def AllocatePool (P : Platform) (w : World) (Size : Nat) : Bool × World :=
  (P.AllocatePool w.allocs Size, { w with allocs := w.allocs + 1 })

def FreePool (w : World) : World := { w with frees := w.frees + 1 }

/-! ## `PirqDump.c` -/

/-- `Checksum8`: the bytes `Data[0 .. Size-1]` added up in a `UINT8`. -/
def Checksum8 (Data : List Nat) (Size : Nat) : Nat :=
  (List.range Size).foldl (fun Sum i => (Sum + Data.getD i 0) % 256) 0

/-- `RbMemRead`: rejects a `NULL` protocol, a `NULL` buffer or a zero size
without touching memory; otherwise issues one byte-wide `Mem.Read`.  Returns
the status, the buffer contents after the call and the world afterwards. -/
def RbMemRead (P : Platform) (w : World) (RbIo : Option Nat) (Address : Nat)
    (BufferNonNull : Bool) (Size : Nat) : EFI_STATUS × List Nat × World :=
  if RbIo = none ∨ BufferNonNull = false ∨ Size = 0 then
    (EFI_INVALID_PARAMETER, [], w)
  else
    let r := P.MemRead w.memReads.length Address Size
    let buf := bufferOf r.2 Size
    (r.1, buf, { w with memReads := w.memReads ++ [⟨Address, Size, r.1, buf⟩] })

/-- What `FindPirqTable` leaves behind: its status, the three output cells
(`none` when the caller passed `NULL` for that pointer, otherwise the value now
stored there) and the world. -/
structure FindOut where
  Status : EFI_STATUS
  OutRbIo : Option (Option Nat)
  OutTableAddr : Option Nat
  OutHeaderCopy : Option PIR_TABLE_HEADER
  world : World
  deriving DecidableEq, Repr

/-- Outcome of one pass through the body of the scan loop. -/
inductive Step
  | Continue (w : World)
  | Return (r : FindOut)
  deriving DecidableEq, Repr

/-- Body of the scan loop of `FindPirqTable` for the candidate `Addr`. -/
def FindPirqTable.body (P : Platform) (RbIo : Option Nat) (OutRbIo : Option (Option Nat))
    (OutTableAddr : Option Nat) (OutHeaderCopy : Option PIR_TABLE_HEADER)
    (Addr : Nat) (w : World) : Step :=
  let (Status, SigBuf, w) := RbMemRead P w RbIo Addr true 4
  if EFI_ERROR Status then Step.Continue w else
  let Sig := readLE SigBuf 0 4
  if Sig ≠ PIR_SIGNATURE then Step.Continue w else
  let (Status, HdrBuf, w) := RbMemRead P w RbIo Addr true sizeof_PIR_TABLE_HEADER
  if EFI_ERROR Status then Step.Continue w else
  let Hdr := PIR_TABLE_HEADER.ofBytes HdrBuf
  if Hdr.Version ≠ 0x0100 then Step.Continue w else
  if Hdr.TableSize ≤ sizeof_PIR_TABLE_HEADER % 2 ^ 16 then Step.Continue w else
  if Hdr.TableSize % 16 ≠ 0 then Step.Continue w else
  let (Tmp, w) := AllocatePool P w Hdr.TableSize
  if Tmp = false then Step.Return ⟨EFI_OUT_OF_RESOURCES, OutRbIo, OutTableAddr, OutHeaderCopy, w⟩ else
  let (Status, TmpBuf, w) := RbMemRead P w RbIo Addr true Hdr.TableSize
  if EFI_ERROR Status = false ∧ Checksum8 TmpBuf Hdr.TableSize = 0 then
    Step.Return ⟨EFI_SUCCESS, OutRbIo.map (fun _ => RbIo), OutTableAddr.map (fun _ => Addr),
      OutHeaderCopy.map (fun _ => Hdr), FreePool w⟩
  else
    Step.Continue (FreePool w)

/-- The scan loop `for (Addr = 0xF0000; Addr <= 0xFFFF0; Addr += 0x10)`, entered
with the current value of `Addr`. -/
def FindPirqTable.loop (P : Platform) (RbIo : Option Nat) (OutRbIo : Option (Option Nat))
    (OutTableAddr : Option Nat) (OutHeaderCopy : Option PIR_TABLE_HEADER)
    (Addr : Nat) (w : World) : FindOut :=
  if Addr ≤ 0xFFFF0 then
    match FindPirqTable.body P RbIo OutRbIo OutTableAddr OutHeaderCopy Addr w with
    | Step.Return r => r
    | Step.Continue w => FindPirqTable.loop P RbIo OutRbIo OutTableAddr OutHeaderCopy (Addr + 0x10) w
  else
    ⟨EFI_NOT_FOUND, OutRbIo, OutTableAddr, OutHeaderCopy, w⟩
termination_by 0xFFFF0 + 0x10 - Addr
decreasing_by omega

/-- `FindPirqTable`. -/
def FindPirqTable (P : Platform) (w : World) (OutRbIo : Option (Option Nat))
    (OutTableAddr : Option Nat) (OutHeaderCopy : Option PIR_TABLE_HEADER) : FindOut :=
  if OutRbIo = none ∨ OutTableAddr = none ∨ OutHeaderCopy = none then
    ⟨EFI_INVALID_PARAMETER, OutRbIo, OutTableAddr, OutHeaderCopy, w⟩
  else
    let (Status, RbIo) := P.LocateProtocol
    if EFI_ERROR Status = true ∨ RbIo = none then
      ⟨EFI_NOT_FOUND, OutRbIo, OutTableAddr, OutHeaderCopy, w⟩
    else
      FindPirqTable.loop P RbIo OutRbIo OutTableAddr OutHeaderCopy 0xF0000 w

/-- `PrintIrqBitmap`: the bitmap in hexadecimal, then the numbers of its set
bits among 0..15, separated by commas, in parentheses. -/
def PrintIrqBitmap (w : World) (Bitmap : Nat) : World :=
  let w := Print w "0x%04x (" [Bitmap]
  let r := (List.range 16).foldl
    (fun (s : World × Bool) Irq =>
      if Bitmap &&& (1 <<< Irq) ≠ 0 then
        let w := if s.2 = false then Print s.1 "," [] else s.1
        (Print w "%u" [Irq], false)
      else s)
    (w, true)
  Print r.1 ")" []

/-- The slot count as `DumpSlotPage` computes it (evaluated in `UINTN`):
`(Hdr->TableSize - sizeof (PIR_TABLE_HEADER)) / sizeof (PIR_SLOT_ENTRY)`. -/
def DumpSlotPage.SlotCount (Hdr : PIR_TABLE_HEADER) : Nat :=
  ((Hdr.TableSize + 2 ^ 64 - sizeof_PIR_TABLE_HEADER) % 2 ^ 64) / sizeof_PIR_SLOT_ENTRY

/-- `DumpSlotPage`: `Hdr = none` stands for a `NULL` header pointer. -/
def DumpSlotPage (P : Platform) (w : World) (RbIo : Option Nat) (TableAddr : Nat)
    (Hdr : Option PIR_TABLE_HEADER) (SlotIndex : Nat) : EFI_STATUS × World :=
  match Hdr with
  | none => (EFI_INVALID_PARAMETER, w)
  | some Hdr =>
    if RbIo = none then (EFI_INVALID_PARAMETER, w) else
    if Hdr.TableSize < sizeof_PIR_TABLE_HEADER then (EFI_COMPROMISED_DATA, w) else
    let SlotCount := DumpSlotPage.SlotCount Hdr
    if SlotCount = 0 then (EFI_NOT_FOUND, w) else
    if SlotIndex ≥ SlotCount then (EFI_INVALID_PARAMETER, w) else
    let SlotAddr :=
      (TableAddr + sizeof_PIR_TABLE_HEADER + (SlotIndex * sizeof_PIR_SLOT_ENTRY) % 2 ^ 64) % 2 ^ 64
    let (Status, SlotBuf, w) := RbMemRead P w RbIo SlotAddr true sizeof_PIR_SLOT_ENTRY
    if EFI_ERROR Status then (Status, w) else
    let Slot := PIR_SLOT_ENTRY.ofBytes SlotBuf
    let Dev := (Slot.PciDeviceNumber >>> 3) % 256
    let w := ClearScreen w
    let w := Print w "%02uth Slot IRQ Routing\n\n" [(SlotIndex + 1) % 2 ^ 64]
    let w := Print w "PCI Bus Number          = 0x%02x\n" [Slot.PciBusNumber]
    let w := Print w "PCI Device Number       = 0x%02x\n" [Dev]
    let w := Print w "Link Value for INTA#     = 0x%02x\n" [Slot.LinkValueIntA]
    let w := Print w "IRQ Bitmap for INTA#     = " []
    let w := PrintIrqBitmap w Slot.IrqBitmapIntA
    let w := Print w "\n" []
    let w := Print w "Link Value for INTB#     = 0x%02x\n" [Slot.LinkValueIntB]
    let w := Print w "IRQ Bitmap for INTB#     = " []
    let w := PrintIrqBitmap w Slot.IrqBitmapIntB
    let w := Print w "\n" []
    let w := Print w "Link Value for INTC#     = 0x%02x\n" [Slot.LinkValueIntC]
    let w := Print w "IRQ Bitmap for INTC#     = " []
    let w := PrintIrqBitmap w Slot.IrqBitmapIntC
    let w := Print w "\n" []
    let w := Print w "Link Value for INTD#     = 0x%02x\n" [Slot.LinkValueIntD]
    let w := Print w "IRQ Bitmap for INTD#     = " []
    let w := PrintIrqBitmap w Slot.IrqBitmapIntD
    let w := Print w "\n" []
    let w := Print w "Slot Number              = 0x%02x\n" [Slot.SlotNumber]
    let w := Print w "Reserved                 = 0x%02x\n" [Slot.Reserved]
    let w := Print w "\nPress [Right][Left] to control slot page...\n" []
    let w := Print w "Press [ESC] to quit...\n" []
    let w := Print w "\n(%u / %u)  TableAddr=0x%05lx  SlotAddr=0x%05lx\n"
      [(SlotIndex + 1) % 2 ^ 64, SlotCount, TableAddr, SlotAddr]
    (EFI_SUCCESS, w)

/-- The slot count as `UefiMain` computes it for menu entry 2 (evaluated in
`UINTN`): `(Hdr.TableSize - sizeof (PIR_TABLE_HEADER)) / sizeof (PIR_SLOT_ENTRY)`. -/
def UefiMain.SlotCount (Hdr : PIR_TABLE_HEADER) : Nat :=
  ((Hdr.TableSize + 2 ^ 64 - sizeof_PIR_TABLE_HEADER) % 2 ^ 64) / sizeof_PIR_SLOT_ENTRY

/-- The structure `EFI_INPUT_KEY`. -/
structure EFI_INPUT_KEY where
  ScanCode : Nat
  UnicodeChar : Nat
  deriving DecidableEq, Repr

/-- `IsEsc`: `Key = none` stands for a `NULL` pointer. -/
def IsEsc (Key : Option EFI_INPUT_KEY) : Bool :=
  match Key with
  | none => false
  | some Key => decide (Key.ScanCode = SCAN_ESC)

/-- `IsLeft`. -/
def IsLeft (Key : Option EFI_INPUT_KEY) : Bool :=
  match Key with
  | none => false
  | some Key => decide (Key.ScanCode = SCAN_LEFT)

/-- `IsRight`. -/
def IsRight (Key : Option EFI_INPUT_KEY) : Bool :=
  match Key with
  | none => false
  | some Key => decide (Key.ScanCode = SCAN_RIGHT)

/-- `WaitAnyKey`, up to the point where it waits for a key. -/
def WaitAnyKey.prompt (w : World) : World :=
  Print w "\nPress any key to continuous.." []

/-- `WaitAnyKey`, from the point where the key has been read. -/
def WaitAnyKey.resume (w : World) : World :=
  Print w "\n" []

/-- `ShowMainMenu`. -/
def ShowMainMenu (w : World) : World :=
  let w := ClearScreen w
  let w := Print w "PIRQ Routing Table\n\n" []
  let w := Print w "1. Get PIRQ Routing Table Header.\n" []
  let w := Print w "2. Dump Slot IRQ Routing.\n\n" []
  let w := Print w "Press [ESC] to Quit.\n" []
  Print w "-> " []

/-- The router device number as `DumpHeaderScreen` computes it:
`(UINT8)(Hdr->RouterDevFunc >> 3)`. -/
def DumpHeaderScreen.RouterDev (Hdr : PIR_TABLE_HEADER) : Nat :=
  (Hdr.RouterDevFunc >>> 3) % 256

/-- The router function number as `DumpHeaderScreen` computes it:
`(UINT8)(Hdr->RouterDevFunc & 0x07)`. -/
def DumpHeaderScreen.RouterFunc (Hdr : PIR_TABLE_HEADER) : Nat :=
  (Hdr.RouterDevFunc &&& 0x07) % 256

/-- `DumpHeaderScreen`: `Hdr = none` stands for a `NULL` header pointer. -/
def DumpHeaderScreen (w : World) (TableAddr : Nat) (Hdr : Option PIR_TABLE_HEADER) : World :=
  match Hdr with
  | none => w
  | some Hdr =>
    let Major := (Hdr.Version >>> 8) % 256
    let Minor := (Hdr.Version &&& 0xFF) % 256
    let RouterDev := DumpHeaderScreen.RouterDev Hdr
    let RouterFunc := DumpHeaderScreen.RouterFunc Hdr
    let CompVendor := (Hdr.CompatibleRouter &&& 0xFFFF) % 2 ^ 16
    let CompDevId := ((Hdr.CompatibleRouter >>> 16) &&& 0xFFFF) % 2 ^ 16
    let w := ClearScreen w
    let w := Print w "PIRQ Routing Table Header\n\n" []
    let w := Print w "Signature                           = %c%c%c%c\n"
      [(Hdr.Signature &&& 0xFF) % 2 ^ 16, ((Hdr.Signature >>> 8) &&& 0xFF) % 2 ^ 16,
       ((Hdr.Signature >>> 16) &&& 0xFF) % 2 ^ 16, ((Hdr.Signature >>> 24) &&& 0xFF) % 2 ^ 16]
    let w := Print w "Minor Version                       = 0x%02x\n" [Minor]
    let w := Print w "Major Version                       = 0x%02x\n" [Major]
    let w := Print w "Table Size                          = %u Byte\n" [Hdr.TableSize]
    let w := Print w "PCI Interrupt Router\x27s Bus          = 0x%02x\n" [Hdr.RouterBus]
    let w := Print w "PCI Interrupt Router\x27s Device Number= 0x%02x\n" [RouterDev]
    let w := Print w "PCI Interrupt Router\x27s Function Number= 0x%02x\n" [RouterFunc]
    let w := Print w "PCI Exclusive IRQs                  = 0x%04x\n" [Hdr.PciExclusiveIrqs]
    let w := Print w "Compatible PCI Interrupt Router Vendor ID = 0x%04x\n" [CompVendor]
    let w := Print w "Compatible PCI Interrupt Router Device ID = 0x%04x\n" [CompDevId]
    let w := Print w "Miniport Data                       = 0x%08x\n" [Hdr.MiniportData]
    let w := Print w "Reserved                            =" []
    let w := (List.range 11).foldl (fun w i => Print w " %02x" [Hdr.Reserved.getD i 0]) w
    let w := Print w "\n" []
    let w := Print w "Checksum                            = 0x%02x\n" [Hdr.Checksum]
    Print w "\nTable Address                        = 0x%05lx\n" [TableAddr]

/-- Where `UefiMain` is waiting for a key, with the local variables that are
live there, or the status it has returned.

* `MainMenu`: in the outer loop, after `ShowMainMenu`.
* `HeaderView`: in `WaitAnyKey`, after `DumpHeaderScreen`.
* `NoSlotNotice`: in `WaitAnyKey`, after the notice that there is no slot entry.
* `SlotBrowsing SlotCount Cur`: in the inner loop of menu entry 2.
* `Terminated Status`: `UefiMain` has returned `Status`. -/
inductive NavState
  | MainMenu
  | HeaderView
  | NoSlotNotice
  | SlotBrowsing (SlotCount Cur : Nat)
  | Terminated (Status : EFI_STATUS)
  deriving DecidableEq, Repr

/-- One call of `DumpSlotPage` made by `UefiMain`: the index passed and the
status returned. -/
structure SlotCall where
  SlotIndex : Nat
  Status : EFI_STATUS
  deriving DecidableEq, Repr

/-- A configuration of `UefiMain`: where it is, the effects so far, and the
calls of `DumpSlotPage` it has made, oldest first. -/
structure Nav where
  state : NavState
  world : World
  calls : List SlotCall
  deriving DecidableEq, Repr

/-- What `UefiMain` does from one wait for a key to the next (or to its return),
given the key that `ReadKeyStroke` delivers.  `RbIo`, `TableAddr` and `Hdr` are
the values `FindPirqTable` left in the local variables. -/
def UefiMain.step (P : Platform) (RbIo : Option Nat) (TableAddr : Nat) (Hdr : PIR_TABLE_HEADER)
    (c : Nav) (Key : EFI_INPUT_KEY) : Nav :=
  match c.state with
  | NavState.Terminated _ => c
  | NavState.MainMenu =>
    if IsEsc (some Key) then
      { c with state := NavState.Terminated EFI_SUCCESS, world := ClearScreen c.world }
    else if Key.UnicodeChar = 0x31 then
      let w := DumpHeaderScreen c.world TableAddr (some Hdr)
      { c with state := NavState.HeaderView, world := WaitAnyKey.prompt w }
    else if Key.UnicodeChar = 0x32 then
      let SlotCount := UefiMain.SlotCount Hdr
      let Cur := 0
      if SlotCount = 0 then
        let w := Print c.world "\nNo slot entry found.\n" []
        { c with state := NavState.NoSlotNotice, world := WaitAnyKey.prompt w }
      else
        let r := DumpSlotPage P c.world RbIo TableAddr (some Hdr) Cur
        { state := NavState.SlotBrowsing SlotCount Cur, world := r.2,
          calls := c.calls ++ [⟨Cur, r.1⟩] }
    else
      { c with world := ShowMainMenu c.world }
  | NavState.HeaderView =>
    { c with state := NavState.MainMenu, world := ShowMainMenu (WaitAnyKey.resume c.world) }
  | NavState.NoSlotNotice =>
    { c with state := NavState.MainMenu, world := ShowMainMenu (WaitAnyKey.resume c.world) }
  | NavState.SlotBrowsing SlotCount Cur =>
    if IsEsc (some Key) then
      { c with state := NavState.MainMenu, world := ShowMainMenu c.world }
    else if IsRight (some Key) then
      let Cur := if (Cur + 1) % 2 ^ 64 < SlotCount then (Cur + 1) % 2 ^ 64 else Cur
      let r := DumpSlotPage P c.world RbIo TableAddr (some Hdr) Cur
      { state := NavState.SlotBrowsing SlotCount Cur, world := r.2,
        calls := c.calls ++ [⟨Cur, r.1⟩] }
    else if IsLeft (some Key) then
      let Cur := if Cur > 0 then Cur - 1 else Cur
      let r := DumpSlotPage P c.world RbIo TableAddr (some Hdr) Cur
      { state := NavState.SlotBrowsing SlotCount Cur, world := r.2,
        calls := c.calls ++ [⟨Cur, r.1⟩] }
    else c

/-- The menu loop of `UefiMain` fed with the keys `keys`, one per wait. -/
def UefiMain.run (P : Platform) (RbIo : Option Nat) (TableAddr : Nat) (Hdr : PIR_TABLE_HEADER)
    (c : Nav) (keys : List EFI_INPUT_KEY) : Nav :=
  keys.foldl (UefiMain.step P RbIo TableAddr Hdr) c

/-- `UefiMain`, fed with the keys `keys`: the configuration it is in when the
keys are used up.  `Hdr0` is the content of the local `Hdr` before
`FindPirqTable` is called (the variable is not given a value before). -/
def UefiMain (P : Platform) (w : World) (Hdr0 : PIR_TABLE_HEADER)
    (keys : List EFI_INPUT_KEY) : Nav :=
  let r := FindPirqTable P w (some none) (some 0) (some Hdr0)
  if EFI_ERROR r.Status then
    let w := Print r.world
      "ERROR: Cannot find valid $PIR table in 0xF0000~0xFFFFF (Status=%r)\n" [r.Status]
    let w := Print w "Tip: Some pure-UEFI/APIC platforms may not provide legacy $PIR.\n" []
    ⟨NavState.Terminated r.Status, w, []⟩
  else
    UefiMain.run P (r.OutRbIo.getD none) (r.OutTableAddr.getD 0) (r.OutHeaderCopy.getD Hdr0)
      ⟨NavState.MainMenu, ShowMainMenu r.world, []⟩ keys

/-! ## Notions used to state the properties -/

/-- The event recorded by a read issued as call number `n`. -/
def evAt (P : Platform) (n A Size : Nat) : MemReadEvent :=
  ⟨A, Size, (P.MemRead n A Size).1, bufferOf (P.MemRead n A Size).2 Size⟩

/-- The header object filled by a 32-byte read issued as call number `n`. -/
def hdrAt (P : Platform) (n A : Nat) : PIR_TABLE_HEADER :=
  PIR_TABLE_HEADER.ofBytes (evAt P n A 32).Data

/-- The checks made on the signature and header reads of candidate `A`, when the
signature read is call number `n`. -/
def HeaderStageOK (P : Platform) (n A : Nat) : Prop :=
  EFI_ERROR (evAt P n A 4).Status = false ∧ readLE (evAt P n A 4).Data 0 4 = PIR_SIGNATURE
    ∧ EFI_ERROR (evAt P (n + 1) A 32).Status = false
    ∧ (hdrAt P (n + 1) A).Version = 0x0100
    ∧ 32 < (hdrAt P (n + 1) A).TableSize
    ∧ (hdrAt P (n + 1) A).TableSize % 16 = 0

/-- The checks made on the full-table read of candidate `A`, when the signature
read is call number `n`. -/
def ChecksumStageOK (P : Platform) (n A : Nat) : Prop :=
  EFI_ERROR (evAt P (n + 2) A (hdrAt P (n + 1) A).TableSize).Status = false
    ∧ Checksum8 (evAt P (n + 2) A (hdrAt P (n + 1) A).TableSize).Data
        (hdrAt P (n + 1) A).TableSize = 0

instance (P : Platform) (n A : Nat) : Decidable (HeaderStageOK P n A) :=
  inferInstanceAs (Decidable (_ ∧ _))

instance (P : Platform) (n A : Nat) : Decidable (ChecksumStageOK P n A) :=
  inferInstanceAs (Decidable (_ ∧ _))

/-- Candidate `A`, examined in world `w`, is accepted: all checks pass, the
buffer is obtained, and `r` is what `FindPirqTable` then returns. -/
def AcceptedAt (P : Platform) (h : Nat) (o1 : Option (Option Nat)) (o2 : Option Nat)
    (o3 : Option PIR_TABLE_HEADER) (A : Nat) (w : World) (r : FindOut) : Prop :=
  HeaderStageOK P w.memReads.length A
    ∧ P.AllocatePool w.allocs (hdrAt P (w.memReads.length + 1) A).TableSize = true
    ∧ ChecksumStageOK P w.memReads.length A
    ∧ r = ⟨EFI_SUCCESS, o1.map (fun _ => some h), o2.map (fun _ => A),
        o3.map (fun _ => hdrAt P (w.memReads.length + 1) A),
        ⟨w.memReads ++ [evAt P w.memReads.length A 4, evAt P (w.memReads.length + 1) A 32,
          evAt P (w.memReads.length + 2) A (hdrAt P (w.memReads.length + 1) A).TableSize],
          w.allocs + 1, w.frees + 1, w.console⟩⟩

/-- Candidate `A`, examined in world `w`, is passed over: some check fails, and
if the header checks passed the buffer was obtained. -/
def SkippedAt (P : Platform) (A : Nat) (w : World) : Prop :=
  ¬ (HeaderStageOK P w.memReads.length A ∧ ChecksumStageOK P w.memReads.length A)
    ∧ (HeaderStageOK P w.memReads.length A →
        P.AllocatePool w.allocs (hdrAt P (w.memReads.length + 1) A).TableSize = true)

/-- The world a loop step leaves behind. -/
def Step.world : Step → World
  | Step.Continue w => w
  | Step.Return r => r.world

/-- The candidate addresses `0xF0000 + 16 * k`, `0 ≤ k ≤ 4095`. -/
def IsCandidate (A : Nat) : Prop := ∃ k, k ≤ 4095 ∧ A = 0xF0000 + 16 * k

/-- The byte a memory image holds at an address. -/
def byteAt (mem : Nat → Nat) (a : Nat) : Nat := mem a % 256

/-- The `table_size` field of a table that starts at `A` in a memory image. -/
def tableSizeAt (mem : Nat → Nat) (A : Nat) : Nat :=
  byteAt mem (A + 6) + 256 * byteAt mem (A + 7)

/-- Signature check on a memory image: the four bytes at `A` spell `$PIR`. -/
def SignatureAt (mem : Nat → Nat) (A : Nat) : Prop :=
  byteAt mem A = 0x24 ∧ byteAt mem (A + 1) = 0x50 ∧ byteAt mem (A + 2) = 0x49
    ∧ byteAt mem (A + 3) = 0x52

/-- Version check on a memory image: the 16-bit value at `A + 4` is `0x0100`. -/
def VersionAt (mem : Nat → Nat) (A : Nat) : Prop :=
  byteAt mem (A + 4) + 256 * byteAt mem (A + 5) = 0x0100

/-- Size check on a memory image: `table_size > 32` and `table_size % 16 = 0`. -/
def SizeAt (mem : Nat → Nat) (A : Nat) : Prop :=
  32 < tableSizeAt mem A ∧ tableSizeAt mem A % 16 = 0

/-- Checksum check on a memory image: the `table_size` bytes from `A` add up to
a multiple of 256. -/
def ChecksumAt (mem : Nat → Nat) (A : Nat) : Prop :=
  ((List.range (tableSizeAt mem A)).map (fun i => byteAt mem (A + i))).sum % 256 = 0

/-- A valid table as the specification words it: signature, version, size and
checksum checks all pass for the bytes of the image at `A`. -/
def ValidTableAt (mem : Nat → Nat) (A : Nat) : Prop :=
  SignatureAt mem A ∧ VersionAt mem A ∧ SizeAt mem A ∧ ChecksumAt mem A

instance (mem : Nat → Nat) (A : Nat) : Decidable (SignatureAt mem A) :=
  inferInstanceAs (Decidable (_ ∧ _))

instance (mem : Nat → Nat) (A : Nat) : Decidable (VersionAt mem A) :=
  inferInstanceAs (Decidable (_ = _))

instance (mem : Nat → Nat) (A : Nat) : Decidable (SizeAt mem A) :=
  inferInstanceAs (Decidable (_ ∧ _))

instance (mem : Nat → Nat) (A : Nat) : Decidable (ChecksumAt mem A) :=
  inferInstanceAs (Decidable (_ = _))

instance (mem : Nat → Nat) (A : Nat) : Decidable (ValidTableAt mem A) :=
  inferInstanceAs (Decidable (_ ∧ _))

/-- The reader of `P` may fail, but whether it does depends only on the address
and the count (`fault`), and a read that does not fail returns the bytes of the
memory image `mem`. -/
def ReadsImageWithFaults (P : Platform) (mem : Nat → Nat) (fault : Nat → Nat → Bool) : Prop :=
  ∀ n a s, EFI_ERROR (P.MemRead n a s).1 = fault a s ∧
    (fault a s = false → ∀ i, (P.MemRead n a s).2 i % 256 = byteAt mem (a + i))

/-- The reader of `P` never fails and returns the bytes of the memory image `mem`. -/
def ReadsImage (P : Platform) (mem : Nat → Nat) : Prop :=
  ∀ n a s, EFI_ERROR (P.MemRead n a s).1 = false ∧
    ∀ i, (P.MemRead n a s).2 i % 256 = byteAt mem (a + i)

/-- None of the three reads the scanner may issue at candidate `A` fails. -/
def FaultFreeAt (mem : Nat → Nat) (fault : Nat → Nat → Bool) (A : Nat) : Prop :=
  fault A 4 = false ∧ fault A 32 = false ∧ fault A (tableSizeAt mem A) = false

instance (mem : Nat → Nat) (fault : Nat → Nat → Bool) (A : Nat) :
    Decidable (FaultFreeAt mem fault A) :=
  inferInstanceAs (Decidable (_ ∧ _))

/-- The memory-read protocol is available: `LocateProtocol` succeeds and leaves
a pointer that is not `NULL`. -/
def ProtocolAvailable (P : Platform) : Prop :=
  EFI_ERROR P.LocateProtocol.1 = false ∧ P.LocateProtocol.2 ≠ none

/-- Every pool allocation returns a buffer. -/
def AllocationSucceeds (P : Platform) : Prop := ∀ n s, P.AllocatePool n s = true

/-- The platform that serves the memory image `mem`: the protocol is located,
reads never fail and allocation always succeeds. -/
def imagePlatform (mem : Nat → Nat) : Platform where
  LocateProtocol := (EFI_SUCCESS, some 1)
  MemRead := fun _ a _ => (EFI_SUCCESS, fun i => mem (a + i))
  AllocatePool := fun _ _ => true

/-- The memory image that holds the bytes `tbl` from address `base` on and zero
everywhere else. -/
def imageOf (base : Nat) (tbl : List Nat) : Nat → Nat :=
  fun a => if base ≤ a then tbl.getD (a - base) 0 else 0

/-- The slot count as the specification words it: `(table_size - 32) / 16`,
with the subtraction stopping at 0. -/
def specSlotCount (Hdr : PIR_TABLE_HEADER) : Nat := (Hdr.TableSize - 32) / 16

/-- Packing of a device number and a function number into one byte, as the
specification words it: `(device << 3) | function`. -/
def packDevFunc (device function : Nat) : Nat := (device <<< 3) ||| function

/-- The device number as `DumpSlotPage` computes it for the screen:
`(UINT8)(Slot.PciDeviceNumber >> 3)`. -/
def DumpSlotPage.Dev (Slot : PIR_SLOT_ENTRY) : Nat := (Slot.PciDeviceNumber >>> 3) % 256

/-- What `PrintIrqBitmap` sends to the console for a bitmap. -/
def bitmapEvents (Bitmap : Nat) : List ConEvent :=
  (PrintIrqBitmap World.fresh Bitmap).console

/-- What `DumpSlotPage` sends to the console for a decoded slot. -/
def slotScreen (Slot : PIR_SLOT_ENTRY) (SlotIndex SlotCount TableAddr SlotAddr : Nat) :
    List ConEvent :=
  [ConEvent.ClearScreen,
   ConEvent.Print "%02uth Slot IRQ Routing\n\n" [(SlotIndex + 1) % 2 ^ 64],
   ConEvent.Print "PCI Bus Number          = 0x%02x\n" [Slot.PciBusNumber],
   ConEvent.Print "PCI Device Number       = 0x%02x\n" [DumpSlotPage.Dev Slot],
   ConEvent.Print "Link Value for INTA#     = 0x%02x\n" [Slot.LinkValueIntA],
   ConEvent.Print "IRQ Bitmap for INTA#     = " []]
  ++ bitmapEvents Slot.IrqBitmapIntA ++
  [ConEvent.Print "\n" [],
   ConEvent.Print "Link Value for INTB#     = 0x%02x\n" [Slot.LinkValueIntB],
   ConEvent.Print "IRQ Bitmap for INTB#     = " []]
  ++ bitmapEvents Slot.IrqBitmapIntB ++
  [ConEvent.Print "\n" [],
   ConEvent.Print "Link Value for INTC#     = 0x%02x\n" [Slot.LinkValueIntC],
   ConEvent.Print "IRQ Bitmap for INTC#     = " []]
  ++ bitmapEvents Slot.IrqBitmapIntC ++
  [ConEvent.Print "\n" [],
   ConEvent.Print "Link Value for INTD#     = 0x%02x\n" [Slot.LinkValueIntD],
   ConEvent.Print "IRQ Bitmap for INTD#     = " []]
  ++ bitmapEvents Slot.IrqBitmapIntD ++
  [ConEvent.Print "\n" [],
   ConEvent.Print "Slot Number              = 0x%02x\n" [Slot.SlotNumber],
   ConEvent.Print "Reserved                 = 0x%02x\n" [Slot.Reserved],
   ConEvent.Print "\nPress [Right][Left] to control slot page...\n" [],
   ConEvent.Print "Press [ESC] to quit...\n" [],
   ConEvent.Print "\n(%u / %u)  TableAddr=0x%05lx  SlotAddr=0x%05lx\n"
     [(SlotIndex + 1) % 2 ^ 64, SlotCount, TableAddr, SlotAddr]]

/-- The address of slot `SlotIndex` of the table at `TableAddr`, as
`DumpSlotPage` computes it (in `UINT64`). -/
def slotAddr (TableAddr SlotIndex : Nat) : Nat :=
  (TableAddr + 32 + (SlotIndex * 16) % 2 ^ 64) % 2 ^ 64

/-- The IRQ numbers listed in a piece of console output: the arguments of the
`"%u"` prints, in the order they were printed. -/
def listedIrqs (evs : List ConEvent) : List Nat :=
  evs.filterMap (fun e =>
    match e with
    | ConEvent.Print Format [Irq] => if Format = "%u" then some Irq else none
    | _ => none)

/-! ## Concrete inputs -/

/-- A valid table of 48 bytes: header with version 1.0, `table_size = 48`, and
one slot record whose `pci_device_number` byte is `0x18`; byte 31 makes the
bytes add up to a multiple of 256. -/
def exampleTable : List Nat :=
  [0x24, 0x50, 0x49, 0x52, 0x00, 0x01, 0x30, 0x00, 0x00, 0xF8, 0x00, 0x0C, 0x86, 0x80, 0x10, 0x71,
   0x00, 0x00, 0x00, 0x00, 0x00, 0x00, 0x00, 0x00, 0x00, 0x00, 0x00, 0x00, 0x00, 0x00, 0x00, 0x3E,
   0x00, 0x18, 0x60, 0xB8, 0xDE, 0x61, 0xB8, 0xDE, 0x62, 0xB8, 0xDE, 0x63, 0xB8, 0xDE, 0x01, 0x00]

/-- The example table with its checksum byte (byte 31) changed to `0x3F`. -/
def badSumTable : List Nat := exampleTable.set 31 0x3F

/-- The example table with version `0x0200` (and the checksum byte adjusted so
that the bytes still add up to a multiple of 256). -/
def version2Table : List Nat := (exampleTable.set 5 0x02).set 31 0x3D

/-- Memory with the example table at `0xF0000`. -/
def imageA : Nat → Nat := imageOf 0xF0000 exampleTable

/-- Memory with the bad-checksum table at `0xF0000` and the example table at
`0xF0040`. -/
def imageB : Nat → Nat :=
  imageOf 0xF0000 (badSumTable ++ List.replicate 16 0 ++ exampleTable)

/-- Memory whose only `$PIR` signature belongs to the version `0x0200` table at
`0xF0000`. -/
def imageC : Nat → Nat := imageOf 0xF0000 version2Table

/-- Memory with the example table at `0xF0000` and again at `0xF0040`. -/
def imageD : Nat → Nat :=
  imageOf 0xF0000 (exampleTable ++ List.replicate 16 0 ++ exampleTable)

/-- The platform serving `imageD` whose 32-byte read at `0xF0000` fails with a
device error. -/
def faultyPlatform : Platform where
  LocateProtocol := (EFI_SUCCESS, some 1)
  MemRead := fun _ a s =>
    if a = 0xF0000 ∧ s = 32 then (ENCODE_ERROR 7, fun _ => 0)
    else (EFI_SUCCESS, fun i => imageD (a + i))
  AllocatePool := fun _ _ => true

/-- The platform serving `imageA` on which every pool allocation fails. -/
def noPoolPlatform : Platform where
  LocateProtocol := (EFI_SUCCESS, some 1)
  MemRead := fun _ a _ => (EFI_SUCCESS, fun i => imageA (a + i))
  AllocatePool := fun _ _ => false

/-- A header with every field zero. -/
def zeroHeader : PIR_TABLE_HEADER := ⟨0, 0, 0, 0, 0, 0, 0, 0, [], 0⟩

/-- A header whose `TableSize` is 16, less than the size of the header itself. -/
def shortHeader : PIR_TABLE_HEADER := { zeroHeader with TableSize := 16 }

/-- A header whose `TableSize` is 32: a header and no slot. -/
def emptyTableHeader : PIR_TABLE_HEADER := { zeroHeader with TableSize := 32 }

/-- The header of the example table, `TableSize = 48`. -/
def oneSlotHeader : PIR_TABLE_HEADER := PIR_TABLE_HEADER.ofBytes (exampleTable.take 32)

/-- The Right arrow key. -/
def keyRight : EFI_INPUT_KEY := ⟨SCAN_RIGHT, 0⟩

/-- The Left arrow key. -/
def keyLeft : EFI_INPUT_KEY := ⟨SCAN_LEFT, 0⟩

/-- The ESC key. -/
def keyEsc : EFI_INPUT_KEY := ⟨SCAN_ESC, 0⟩

/-- The key `1`. -/
def keyOne : EFI_INPUT_KEY := ⟨0, 0x31⟩

/-- The key `2`. -/
def keyTwo : EFI_INPUT_KEY := ⟨0, 0x32⟩

/-- The header of the example table with `TableSize` raised to 64: two slots. -/
def twoSlotHeader : PIR_TABLE_HEADER := { oneSlotHeader with TableSize := 64 }

/-- The platform serving `imageA` on which every 16-byte read fails with a
device error. -/
def slotFaultPlatform : Platform where
  LocateProtocol := (EFI_SUCCESS, some 1)
  MemRead := fun _ a s =>
    if s = 16 then (ENCODE_ERROR 7, fun _ => 0)
    else (EFI_SUCCESS, fun i => imageA (a + i))
  AllocatePool := fun _ _ => true

/-- A key that is neither an arrow nor ESC nor a menu choice. -/
def keyOther : EFI_INPUT_KEY := ⟨0, 0x41⟩

/-- A valid table of 64 bytes: the header of the example table with
`table_size = 64`, its slot record, and a second slot record whose bytes add up
to `0xF0` modulo 256. -/
def wideTable : List Nat :=
  exampleTable.set 6 0x40 ++
    [0x00, 0x20, 0x60, 0x48, 0x00, 0x61, 0x00, 0x00, 0x62, 0x00, 0x00, 0x63, 0x00, 0x00, 0x02, 0x00]

/-- The table `wideTable` with the low byte of its `table_size` (byte 6) changed
from `0x40` to `0x30`. -/
def cutTable : List Nat := wideTable.set 6 0x30

/-! ## Auxiliary lemmas -/

theorem sizeof_header_eq : sizeof_PIR_TABLE_HEADER = 32 := by decide
theorem sizeof_slot_eq : sizeof_PIR_SLOT_ENTRY = 16 := by decide
theorem PIR_SIGNATURE_eq : PIR_SIGNATURE = 0x52495024 := by decide
theorem EFI_ERROR_SUCCESS : EFI_ERROR EFI_SUCCESS = false := by decide
theorem EFI_ERROR_NOT_FOUND : EFI_ERROR EFI_NOT_FOUND = true := by decide
theorem EFI_ERROR_OUT_OF_RESOURCES : EFI_ERROR EFI_OUT_OF_RESOURCES = true := by decide

theorem NOT_FOUND_ne_SUCCESS : EFI_NOT_FOUND ≠ EFI_SUCCESS := by decide
theorem OUT_OF_RESOURCES_ne_SUCCESS : EFI_OUT_OF_RESOURCES ≠ EFI_SUCCESS := by decide
theorem INVALID_PARAMETER_ne_SUCCESS : EFI_INVALID_PARAMETER ≠ EFI_SUCCESS := by decide

theorem bufferOf_length (data : Nat → Nat) (n : Nat) : (bufferOf data n).length = n := by
  simp [bufferOf]

theorem RbMemRead_some (P : Platform) (w : World) (h A Size : Nat) (hS : Size ≠ 0) :
    RbMemRead P w (some h) A true Size =
      ((P.MemRead w.memReads.length A Size).1,
       bufferOf (P.MemRead w.memReads.length A Size).2 Size,
       { w with memReads := w.memReads ++
          [⟨A, Size, (P.MemRead w.memReads.length A Size).1,
            bufferOf (P.MemRead w.memReads.length A Size).2 Size⟩] }) := by
  simp [RbMemRead, hS]

theorem body_sig_fail (P : Platform) (h : Nat) (o1 : Option (Option Nat)) (o2 : Option Nat)
    (o3 : Option PIR_TABLE_HEADER) (A : Nat) (w : World)
    (c : EFI_ERROR (evAt P w.memReads.length A 4).Status = true
          ∨ readLE (evAt P w.memReads.length A 4).Data 0 4 ≠ PIR_SIGNATURE) :
    FindPirqTable.body P (some h) o1 o2 o3 A w =
      Step.Continue ⟨w.memReads ++ [evAt P w.memReads.length A 4], w.allocs, w.frees, w.console⟩ := by
  unfold FindPirqTable.body
  rw [RbMemRead_some P w h A 4 (by decide)]
  simp only [evAt] at c
  rcases c with c | c
  · simp [c, evAt]
  · by_cases c1 : EFI_ERROR (P.MemRead w.memReads.length A 4).1 = true
    · simp [c1, evAt]
    · simp [c1, c, evAt]

theorem body_hdr_fail (P : Platform) (h : Nat) (o1 : Option (Option Nat)) (o2 : Option Nat)
    (o3 : Option PIR_TABLE_HEADER) (A : Nat) (w : World)
    (c1 : EFI_ERROR (evAt P w.memReads.length A 4).Status = false)
    (c2 : readLE (evAt P w.memReads.length A 4).Data 0 4 = PIR_SIGNATURE)
    (c : EFI_ERROR (evAt P (w.memReads.length + 1) A 32).Status = true
          ∨ (hdrAt P (w.memReads.length + 1) A).Version ≠ 0x0100
          ∨ (hdrAt P (w.memReads.length + 1) A).TableSize ≤ 32
          ∨ (hdrAt P (w.memReads.length + 1) A).TableSize % 16 ≠ 0) :
    FindPirqTable.body P (some h) o1 o2 o3 A w =
      Step.Continue ⟨w.memReads ++ [evAt P w.memReads.length A 4,
          evAt P (w.memReads.length + 1) A 32], w.allocs, w.frees, w.console⟩ := by
  unfold FindPirqTable.body
  rw [RbMemRead_some P w h A 4 (by decide)]
  simp only [evAt, hdrAt] at c c1 c2
  simp only [c1, c2, sizeof_header_eq]
  rw [RbMemRead_some P _ h A 32 (by decide)]
  simp only [List.length_append, List.length_singleton, List.append_assoc, List.singleton_append]
  by_cases d1 : EFI_ERROR (P.MemRead (w.memReads.length + 1) A 32).1 = true
  · simp [d1, evAt]
  by_cases d2 : (PIR_TABLE_HEADER.ofBytes (bufferOf (P.MemRead (w.memReads.length + 1) A 32).2 32)).Version ≠ 0x0100
  · simp [d1, d2, evAt]
  by_cases d3 : (PIR_TABLE_HEADER.ofBytes (bufferOf (P.MemRead (w.memReads.length + 1) A 32).2 32)).TableSize ≤ 32
  · simp [d1, d2, d3, evAt]
  have d4 : (PIR_TABLE_HEADER.ofBytes (bufferOf (P.MemRead (w.memReads.length + 1) A 32).2 32)).TableSize % 16 ≠ 0 := by
    tauto
  simp [d1, d2, d3, d4, evAt]

theorem body_of_not_header (P : Platform) (h : Nat) (o1 : Option (Option Nat)) (o2 : Option Nat)
    (o3 : Option PIR_TABLE_HEADER) (A : Nat) (w : World)
    (c : ¬ HeaderStageOK P w.memReads.length A) :
    ∃ evs, FindPirqTable.body P (some h) o1 o2 o3 A w =
      Step.Continue ⟨w.memReads ++ evs, w.allocs, w.frees, w.console⟩ := by
  by_cases c1 : EFI_ERROR (evAt P w.memReads.length A 4).Status = true
      ∨ readLE (evAt P w.memReads.length A 4).Data 0 4 ≠ PIR_SIGNATURE
  · exact ⟨_, body_sig_fail P h o1 o2 o3 A w c1⟩
  · refine ⟨_, body_hdr_fail P h o1 o2 o3 A w ?_ ?_ ?_⟩
    · simpa using fun hh => c1 (Or.inl hh)
    · by_contra hh; exact c1 (Or.inr hh)
    · unfold HeaderStageOK at c
      by_contra hh
      push_neg at hh c1
      apply c
      refine ⟨by simpa using c1.1, c1.2, by simpa using hh.1, hh.2.1, hh.2.2.1, hh.2.2.2⟩

theorem body_after_header (P : Platform) (h : Nat) (o1 : Option (Option Nat)) (o2 : Option Nat)
    (o3 : Option PIR_TABLE_HEADER) (A : Nat) (w : World)
    (c : HeaderStageOK P w.memReads.length A) :
    FindPirqTable.body P (some h) o1 o2 o3 A w =
      if P.AllocatePool w.allocs (hdrAt P (w.memReads.length + 1) A).TableSize = false then
        Step.Return ⟨EFI_OUT_OF_RESOURCES, o1, o2, o3,
          ⟨w.memReads ++ [evAt P w.memReads.length A 4, evAt P (w.memReads.length + 1) A 32],
            w.allocs + 1, w.frees, w.console⟩⟩
      else if ChecksumStageOK P w.memReads.length A then
        Step.Return ⟨EFI_SUCCESS, o1.map (fun _ => some h), o2.map (fun _ => A),
          o3.map (fun _ => hdrAt P (w.memReads.length + 1) A),
          ⟨w.memReads ++ [evAt P w.memReads.length A 4, evAt P (w.memReads.length + 1) A 32,
            evAt P (w.memReads.length + 2) A (hdrAt P (w.memReads.length + 1) A).TableSize],
            w.allocs + 1, w.frees + 1, w.console⟩⟩
      else
        Step.Continue ⟨w.memReads ++ [evAt P w.memReads.length A 4,
            evAt P (w.memReads.length + 1) A 32,
            evAt P (w.memReads.length + 2) A (hdrAt P (w.memReads.length + 1) A).TableSize],
            w.allocs + 1, w.frees + 1, w.console⟩ := by
  obtain ⟨c1, c2, c3, c4, c5, c6⟩ := c
  have c5' : ¬ (hdrAt P (w.memReads.length + 1) A).TableSize ≤ 32 := by omega
  have c7 : (hdrAt P (w.memReads.length + 1) A).TableSize ≠ 0 := by omega
  unfold FindPirqTable.body
  rw [RbMemRead_some P w h A 4 (by decide)]
  simp only [evAt, hdrAt] at c1 c2 c3 c4 c5' c6 c7
  simp only [c1, c2, sizeof_header_eq]
  rw [RbMemRead_some P _ h A 32 (by decide)]
  simp only [List.length_append, List.length_singleton, List.append_assoc, List.singleton_append]
  simp only [c3, c4, c6, AllocatePool]
  by_cases d : P.AllocatePool w.allocs
      (PIR_TABLE_HEADER.ofBytes (bufferOf (P.MemRead (w.memReads.length + 1) A 32).2 32)).TableSize = false
  · simp [d, c5', evAt, hdrAt]
  · rw [RbMemRead_some P _ h A _ c7]
    simp [d, c5', evAt, hdrAt, ChecksumStageOK, FreePool]

theorem loop_exit (P : Platform) (RbIo : Option Nat) (o1 : Option (Option Nat)) (o2 : Option Nat)
    (o3 : Option PIR_TABLE_HEADER) (A : Nat) (w : World) (hA : ¬ A ≤ 0xFFFF0) :
    FindPirqTable.loop P RbIo o1 o2 o3 A w = ⟨EFI_NOT_FOUND, o1, o2, o3, w⟩ := by
  rw [FindPirqTable.loop, if_neg hA]

theorem loop_return (P : Platform) (RbIo : Option Nat) (o1 : Option (Option Nat)) (o2 : Option Nat)
    (o3 : Option PIR_TABLE_HEADER) (A : Nat) (w : World) (r : FindOut) (hA : A ≤ 0xFFFF0)
    (hb : FindPirqTable.body P RbIo o1 o2 o3 A w = Step.Return r) :
    FindPirqTable.loop P RbIo o1 o2 o3 A w = r := by
  rw [FindPirqTable.loop, if_pos hA, hb]

theorem loop_continue (P : Platform) (RbIo : Option Nat) (o1 : Option (Option Nat))
    (o2 : Option Nat) (o3 : Option PIR_TABLE_HEADER) (A : Nat) (w w1 : World) (hA : A ≤ 0xFFFF0)
    (hb : FindPirqTable.body P RbIo o1 o2 o3 A w = Step.Continue w1) :
    FindPirqTable.loop P RbIo o1 o2 o3 A w
      = FindPirqTable.loop P RbIo o1 o2 o3 (A + 0x10) w1 := by
  rw [FindPirqTable.loop, if_pos hA, hb]

/-- The three ways one pass through the loop body can end. -/
theorem body_trichotomy (P : Platform) (h : Nat) (o1 : Option (Option Nat)) (o2 : Option Nat)
    (o3 : Option PIR_TABLE_HEADER) (A : Nat) (w : World) :
    (∃ evs a f, FindPirqTable.body P (some h) o1 o2 o3 A w
        = Step.Continue ⟨w.memReads ++ evs, a, f, w.console⟩
        ∧ ¬ (HeaderStageOK P w.memReads.length A
              ∧ P.AllocatePool w.allocs (hdrAt P (w.memReads.length + 1) A).TableSize = true
              ∧ ChecksumStageOK P w.memReads.length A)
        ∧ (HeaderStageOK P w.memReads.length A →
              P.AllocatePool w.allocs (hdrAt P (w.memReads.length + 1) A).TableSize = true))
    ∨ (FindPirqTable.body P (some h) o1 o2 o3 A w
        = Step.Return ⟨EFI_OUT_OF_RESOURCES, o1, o2, o3,
          ⟨w.memReads ++ [evAt P w.memReads.length A 4, evAt P (w.memReads.length + 1) A 32],
            w.allocs + 1, w.frees, w.console⟩⟩
        ∧ HeaderStageOK P w.memReads.length A
        ∧ P.AllocatePool w.allocs (hdrAt P (w.memReads.length + 1) A).TableSize = false)
    ∨ (FindPirqTable.body P (some h) o1 o2 o3 A w
        = Step.Return ⟨EFI_SUCCESS, o1.map (fun _ => some h), o2.map (fun _ => A),
          o3.map (fun _ => hdrAt P (w.memReads.length + 1) A),
          ⟨w.memReads ++ [evAt P w.memReads.length A 4, evAt P (w.memReads.length + 1) A 32,
            evAt P (w.memReads.length + 2) A (hdrAt P (w.memReads.length + 1) A).TableSize],
            w.allocs + 1, w.frees + 1, w.console⟩⟩
        ∧ HeaderStageOK P w.memReads.length A
        ∧ P.AllocatePool w.allocs (hdrAt P (w.memReads.length + 1) A).TableSize = true
        ∧ ChecksumStageOK P w.memReads.length A) := by
  by_cases c : HeaderStageOK P w.memReads.length A
  · have hb := body_after_header P h o1 o2 o3 A w c
    by_cases d : P.AllocatePool w.allocs (hdrAt P (w.memReads.length + 1) A).TableSize = false
    · rw [if_pos d] at hb
      exact Or.inr (Or.inl ⟨hb, c, d⟩)
    · rw [if_neg d] at hb
      have d' : P.AllocatePool w.allocs (hdrAt P (w.memReads.length + 1) A).TableSize = true := by
        simpa using d
      by_cases e : ChecksumStageOK P w.memReads.length A
      · rw [if_pos e] at hb
        exact Or.inr (Or.inr ⟨hb, c, d', e⟩)
      · rw [if_neg e] at hb
        exact Or.inl ⟨_, _, _, hb, fun hh => e hh.2.2, fun _ => d'⟩
  · obtain ⟨evs, hb⟩ := body_of_not_header P h o1 o2 o3 A w c
    exact Or.inl ⟨evs, _, _, hb, fun hh => c hh.1, fun hh => absurd hh c⟩

theorem loop_success_aux (P : Platform) (h : Nat) (o1 : Option (Option Nat)) (o2 : Option Nat)
    (o3 : Option PIR_TABLE_HEADER) :
    ∀ (d A0 : Nat) (w : World), 0xFFFF0 + 0x10 - A0 = d →
      (FindPirqTable.loop P (some h) o1 o2 o3 A0 w).Status = EFI_SUCCESS →
      ∃ A w1, A0 ≤ A ∧ A ≤ 0xFFFF0 ∧ 16 ∣ (A - A0)
        ∧ (∃ pre, w1.memReads = w.memReads ++ pre)
        ∧ AcceptedAt P h o1 o2 o3 A w1 (FindPirqTable.loop P (some h) o1 o2 o3 A0 w)
        ∧ ∀ C, A0 ≤ C → C < A → 16 ∣ (C - A0) → ∃ wC, SkippedAt P C wC := by
  intro d
  induction d using Nat.strong_induction_on with
  | _ d ih =>
    intro A0 w hd hS
    by_cases hA : A0 ≤ 0xFFFF0
    swap
    · rw [loop_exit P _ o1 o2 o3 A0 w hA] at hS
      exact absurd hS NOT_FOUND_ne_SUCCESS
    rcases body_trichotomy P h o1 o2 o3 A0 w with
      ⟨evs, a, f, hb, hn, ha⟩ | ⟨hb, _, _⟩ | ⟨hb, c1, c2, c3⟩
    · rw [loop_continue P _ o1 o2 o3 A0 w _ hA hb] at hS ⊢
      obtain ⟨A, w1, h1, h2, h3, ⟨pre, h4⟩, h5, h6⟩ :=
        ih (0xFFFF0 + 0x10 - (A0 + 0x10)) (by omega) (A0 + 0x10) _ rfl hS
      refine ⟨A, w1, by omega, h2, ?_, ⟨evs ++ pre, by simp [h4]⟩, h5, ?_⟩
      · obtain ⟨k, hk⟩ := h3
        exact ⟨k + 1, by omega⟩
      · intro C hC1 hC2 hC3
        by_cases hC : C = A0
        · subst hC
          exact ⟨w, fun hh => hn ⟨hh.1, ha hh.1, hh.2⟩, ha⟩
        · obtain ⟨k, hk⟩ := hC3
          have hk0 : k ≠ 0 := by
            rintro rfl
            omega
          exact h6 C (by omega) hC2 ⟨k - 1, by omega⟩
    · rw [loop_return P _ o1 o2 o3 A0 w _ hA hb] at hS
      exact absurd hS OUT_OF_RESOURCES_ne_SUCCESS
    · rw [loop_return P _ o1 o2 o3 A0 w _ hA hb]
      refine ⟨A0, w, le_refl _, hA, by simp, ⟨[], by simp⟩, ⟨c1, c2, c3, rfl⟩, ?_⟩
      intro C hC1 hC2
      omega

theorem byteAt_lt (mem : Nat → Nat) (a : Nat) : byteAt mem a < 256 :=
  Nat.mod_lt _ (by decide)

theorem getD_map_range (f : Nat → Nat) (s i : Nat) :
    ((List.range s).map f).getD i 0 = if i < s then f i else 0 := by
  by_cases hi : i < s
  · simp [List.getD, hi]
  · have : (List.range s)[i]? = none := by
      rw [List.getElem?_eq_none_iff]
      simpa using hi
    simp [List.getD, hi, this]

theorem bufferOf_getD (data : Nat → Nat) (s i : Nat) :
    (bufferOf data s).getD i 0 = if i < s then data i % 256 else 0 := by
  unfold bufferOf
  exact getD_map_range _ s i

theorem ofBytes_Version (buf : List Nat) :
    (PIR_TABLE_HEADER.ofBytes buf).Version = buf.getD 4 0 + 256 * buf.getD 5 0 := by
  have : HdrField.Version.offset = 4 := by decide
  simp [PIR_TABLE_HEADER.ofBytes, HdrField.load, HdrField.size, readLE, this]

theorem ofBytes_TableSize (buf : List Nat) :
    (PIR_TABLE_HEADER.ofBytes buf).TableSize = buf.getD 6 0 + 256 * buf.getD 7 0 := by
  have : HdrField.TableSize.offset = 6 := by decide
  simp [PIR_TABLE_HEADER.ofBytes, HdrField.load, HdrField.size, readLE, this]

theorem readLE_four (buf : List Nat) :
    readLE buf 0 4 = buf.getD 0 0 + 256 * (buf.getD 1 0 + 256 * (buf.getD 2 0
      + 256 * buf.getD 3 0)) := by
  simp [readLE]

/-- The signature test on four bytes is the test that they spell `$PIR`. -/
theorem signature_iff (b0 b1 b2 b3 : Nat) (h0 : b0 < 256) (h1 : b1 < 256) (h2 : b2 < 256) :
    b0 + 256 * (b1 + 256 * (b2 + 256 * b3)) = PIR_SIGNATURE
      ↔ b0 = 0x24 ∧ b1 = 0x50 ∧ b2 = 0x49 ∧ b3 = 0x52 := by
  rw [PIR_SIGNATURE_eq]
  omega

/-- The `UINT8` accumulation of `Checksum8` is the sum of the bytes modulo 256. -/
theorem Checksum8_eq_sum (Data : List Nat) (Size : Nat) :
    Checksum8 Data Size = ((List.range Size).map (fun i => Data.getD i 0)).sum % 256 := by
  unfold Checksum8
  induction Size with
  | zero => simp
  | succ n ih =>
    rw [List.range_succ, List.foldl_append, ih]
    simp [List.sum_append, Nat.add_mod]

theorem map_getD_range_self (l : List Nat) :
    (List.range l.length).map (fun i => l.getD i 0) = l := by
  apply List.ext_getElem
  · simp
  · intro i h1 h2
    simp [List.getD, h2]

theorem Checksum8_buffer (data : Nat → Nat) (s : Nat) :
    Checksum8 (bufferOf data s) s = (bufferOf data s).sum % 256 := by
  rw [Checksum8_eq_sum]
  have h := map_getD_range_self (bufferOf data s)
  rw [bufferOf_length] at h
  rw [h]

theorem bufferOf_image (P : Platform) (mem : Nat → Nat) (fault : Nat → Nat → Bool)
    (hR : ReadsImageWithFaults P mem fault) (n a s : Nat) (hf : fault a s = false) :
    bufferOf (P.MemRead n a s).2 s = (List.range s).map (fun i => byteAt mem (a + i)) := by
  unfold bufferOf
  apply List.map_congr_left
  intro i _
  exact (hR n a s).2 hf i

theorem image_getD (mem : Nat → Nat) (a s i : Nat) (hi : i < s) :
    ((List.range s).map (fun i => byteAt mem (a + i))).getD i 0 = byteAt mem (a + i) := by
  rw [getD_map_range, if_pos hi]

/-- On a platform that serves a memory image, possibly with faults, the checks
the code makes at candidate `A` are the checks of the specification on the
image, together with the absence of faults in the three reads. -/
theorem stage_iff (P : Platform) (mem : Nat → Nat) (fault : Nat → Nat → Bool)
    (hR : ReadsImageWithFaults P mem fault) (n A : Nat) :
    (HeaderStageOK P n A ∧ ChecksumStageOK P n A)
      ↔ (ValidTableAt mem A ∧ FaultFreeAt mem fault A) := by
  unfold HeaderStageOK ChecksumStageOK ValidTableAt FaultFreeAt
  simp only [evAt, hdrAt, (hR _ _ _).1]
  by_cases f4 : fault A 4 = false
  swap
  · simp [f4]
  by_cases f32 : fault A 32 = false
  swap
  · simp [f32]
  have hs : (PIR_TABLE_HEADER.ofBytes (bufferOf (P.MemRead (n + 1) A 32).2 32)).TableSize
      = tableSizeAt mem A := by
    rw [ofBytes_TableSize, bufferOf_image P mem fault hR _ _ _ f32,
      image_getD _ _ _ _ (by decide), image_getD _ _ _ _ (by decide)]
    rfl
  have hv : (PIR_TABLE_HEADER.ofBytes (bufferOf (P.MemRead (n + 1) A 32).2 32)).Version
      = byteAt mem (A + 4) + 256 * byteAt mem (A + 5) := by
    rw [ofBytes_Version, bufferOf_image P mem fault hR _ _ _ f32,
      image_getD _ _ _ _ (by decide), image_getD _ _ _ _ (by decide)]
  have hsig : readLE (bufferOf (P.MemRead n A 4).2 4) 0 4 = PIR_SIGNATURE ↔ SignatureAt mem A := by
    rw [readLE_four, bufferOf_image P mem fault hR _ _ _ f4,
      image_getD _ _ _ _ (by decide), image_getD _ _ _ _ (by decide),
      image_getD _ _ _ _ (by decide), image_getD _ _ _ _ (by decide)]
    exact signature_iff _ _ _ _ (byteAt_lt _ _) (byteAt_lt _ _) (byteAt_lt _ _)
  rw [hs, hv, hsig]
  by_cases fT : fault A (tableSizeAt mem A) = false
  swap
  · simp [fT]
  have hc : Checksum8 (bufferOf (P.MemRead (n + 2) A (tableSizeAt mem A)).2 (tableSizeAt mem A))
      (tableSizeAt mem A) = 0 ↔ ChecksumAt mem A := by
    rw [Checksum8_buffer, bufferOf_image P mem fault hR _ _ _ fT]
    rfl
  rw [hc]
  simp only [f4, f32, fT, VersionAt, SizeAt]
  tauto

/-- With a reader that serves an image and an allocator that never fails, a
candidate that does not pass is skipped. -/
theorem body_skip_of_invalid (P : Platform) (mem : Nat → Nat) (fault : Nat → Nat → Bool)
    (hR : ReadsImageWithFaults P mem fault) (hAl : AllocationSucceeds P)
    (h : Nat) (o1 : Option (Option Nat)) (o2 : Option Nat) (o3 : Option PIR_TABLE_HEADER)
    (A : Nat) (w : World) (hQ : ¬ (ValidTableAt mem A ∧ FaultFreeAt mem fault A)) :
    ∃ w1, FindPirqTable.body P (some h) o1 o2 o3 A w = Step.Continue w1 := by
  rcases body_trichotomy P h o1 o2 o3 A w with
    ⟨evs, a, f, hb, _, _⟩ | ⟨_, _, c2⟩ | ⟨_, c1, _, c3⟩
  · exact ⟨_, hb⟩
  · rw [hAl] at c2
    exact absurd c2 (by decide)
  · exact absurd ((stage_iff P mem fault hR _ A).1 ⟨c1, c3⟩) hQ

/-- With a reader that serves an image and an allocator that never fails, a
candidate that passes is accepted. -/
theorem body_accept_of_valid (P : Platform) (mem : Nat → Nat) (fault : Nat → Nat → Bool)
    (hR : ReadsImageWithFaults P mem fault) (hAl : AllocationSucceeds P)
    (h : Nat) (o1 : Option (Option Nat)) (o2 : Option Nat) (o3 : Option PIR_TABLE_HEADER)
    (A : Nat) (w : World) (hQ : ValidTableAt mem A ∧ FaultFreeAt mem fault A) :
    ∃ r, FindPirqTable.body P (some h) o1 o2 o3 A w = Step.Return r
      ∧ AcceptedAt P h o1 o2 o3 A w r := by
  have hc := (stage_iff P mem fault hR w.memReads.length A).2 hQ
  rcases body_trichotomy P h o1 o2 o3 A w with
    ⟨evs, a, f, _, hn, _⟩ | ⟨_, _, c2⟩ | ⟨hb, c1, c2, c3⟩
  · exact absurd ⟨hc.1, hAl _ _, hc.2⟩ hn
  · rw [hAl] at c2
    exact absurd c2 (by decide)
  · exact ⟨_, hb, c1, c2, c3, rfl⟩

theorem loop_first_match (P : Platform) (mem : Nat → Nat) (fault : Nat → Nat → Bool)
    (hR : ReadsImageWithFaults P mem fault) (hAl : AllocationSucceeds P)
    (h : Nat) (o1 : Option (Option Nat)) (o2 : Option Nat) (o3 : Option PIR_TABLE_HEADER)
    (B : Nat) (hB : B ≤ 0xFFFF0) (hQ : ValidTableAt mem B ∧ FaultFreeAt mem fault B) :
    ∀ (k A0 : Nat) (w : World), B = A0 + 16 * k →
      (∀ j, j < k → ¬ (ValidTableAt mem (A0 + 16 * j) ∧ FaultFreeAt mem fault (A0 + 16 * j))) →
      ∃ w1, AcceptedAt P h o1 o2 o3 B w1 (FindPirqTable.loop P (some h) o1 o2 o3 A0 w) := by
  intro k
  induction k with
  | zero =>
    intro A0 w hk _
    have hBA : B = A0 := by omega
    subst hBA
    obtain ⟨r, hb, hacc⟩ := body_accept_of_valid P mem fault hR hAl h o1 o2 o3 B w hQ
    rw [loop_return P _ o1 o2 o3 B w r hB hb]
    exact ⟨w, hacc⟩
  | succ k ih =>
    intro A0 w hk hlow
    have h0 := hlow 0 (by omega)
    obtain ⟨w1, hb⟩ := body_skip_of_invalid P mem fault hR hAl h o1 o2 o3 A0 w
      (by simpa using h0)
    rw [loop_continue P _ o1 o2 o3 A0 w w1 (by omega) hb]
    apply ih (A0 + 0x10) w1 (by omega)
    intro j hj
    have := hlow (j + 1) (by omega)
    have e : A0 + 0x10 + 16 * j = A0 + 16 * (j + 1) := by omega
    rw [e]
    exact this

theorem loop_not_found (P : Platform) (mem : Nat → Nat) (fault : Nat → Nat → Bool)
    (hR : ReadsImageWithFaults P mem fault) (hAl : AllocationSucceeds P)
    (h : Nat) (o1 : Option (Option Nat)) (o2 : Option Nat) (o3 : Option PIR_TABLE_HEADER) :
    ∀ (d A0 : Nat) (w : World), 0xFFFF0 + 0x10 - A0 = d →
      (∀ C, A0 ≤ C → C ≤ 0xFFFF0 → 16 ∣ (C - A0) →
        ¬ (ValidTableAt mem C ∧ FaultFreeAt mem fault C)) →
      ∃ w1, FindPirqTable.loop P (some h) o1 o2 o3 A0 w = ⟨EFI_NOT_FOUND, o1, o2, o3, w1⟩ := by
  intro d
  induction d using Nat.strong_induction_on with
  | _ d ih =>
    intro A0 w hd hno
    by_cases hA : A0 ≤ 0xFFFF0
    swap
    · exact ⟨w, loop_exit P _ o1 o2 o3 A0 w hA⟩
    obtain ⟨w1, hb⟩ := body_skip_of_invalid P mem fault hR hAl h o1 o2 o3 A0 w
      (hno A0 (le_refl _) hA (by simp))
    rw [loop_continue P _ o1 o2 o3 A0 w w1 hA hb]
    apply ih (0xFFFF0 + 0x10 - (A0 + 0x10)) (by omega) (A0 + 0x10) w1 rfl
    intro C hC1 hC2 hC3
    obtain ⟨k, hk⟩ := hC3
    exact hno C (by omega) hC2 ⟨k + 1, by omega⟩

theorem isCandidate_iff (A : Nat) :
    IsCandidate A ↔ 0xF0000 ≤ A ∧ A ≤ 0xFFFF0 ∧ 16 ∣ (A - 0xF0000) := by
  constructor
  · rintro ⟨k, hk, rfl⟩
    exact ⟨by omega, by omega, ⟨k, by omega⟩⟩
  · rintro ⟨h1, h2, k, hk⟩
    exact ⟨k, by omega, by omega⟩

theorem FindPirqTable_eq_loop (P : Platform) (w : World) (a1 : Option Nat) (a2 : Nat)
    (a3 : PIR_TABLE_HEADER) (hP : ProtocolAvailable P) :
    ∃ h, P.LocateProtocol.2 = some h ∧
      FindPirqTable P w (some a1) (some a2) (some a3)
        = FindPirqTable.loop P (some h) (some a1) (some a2) (some a3) 0xF0000 w := by
  obtain ⟨hP1, hP2⟩ := hP
  obtain ⟨h, hh⟩ := Option.ne_none_iff_exists'.1 hP2
  refine ⟨h, hh, ?_⟩
  unfold FindPirqTable
  simp [hP1, hh]

/-- What a successful call looks like, for any platform: the output pointers
were not `NULL`, the protocol was located, and some candidate was accepted after
every lower candidate had been passed over. -/
theorem FindPirqTable_success_inv (P : Platform) (w : World) (o1 : Option (Option Nat))
    (o2 : Option Nat) (o3 : Option PIR_TABLE_HEADER)
    (hS : (FindPirqTable P w o1 o2 o3).Status = EFI_SUCCESS) :
    ∃ h a1 a2 a3 A w1, o1 = some a1 ∧ o2 = some a2 ∧ o3 = some a3
      ∧ P.LocateProtocol.2 = some h ∧ EFI_ERROR P.LocateProtocol.1 = false
      ∧ IsCandidate A ∧ (∃ pre, w1.memReads = w.memReads ++ pre)
      ∧ AcceptedAt P h o1 o2 o3 A w1 (FindPirqTable P w o1 o2 o3)
      ∧ ∀ C, IsCandidate C → C < A → ∃ wC, SkippedAt P C wC := by
  unfold FindPirqTable at hS ⊢
  by_cases hn : o1 = none ∨ o2 = none ∨ o3 = none
  · rw [if_pos hn] at hS
    exact absurd hS INVALID_PARAMETER_ne_SUCCESS
  rw [if_neg hn] at hS ⊢
  simp only [] at hS ⊢
  by_cases hl : EFI_ERROR P.LocateProtocol.1 = true ∨ P.LocateProtocol.2 = none
  · rw [if_pos hl] at hS
    exact absurd hS NOT_FOUND_ne_SUCCESS
  rw [if_neg hl] at hS ⊢
  push_neg at hn hl
  obtain ⟨a1, ha1⟩ := Option.ne_none_iff_exists'.1 hn.1
  obtain ⟨a2, ha2⟩ := Option.ne_none_iff_exists'.1 hn.2.1
  obtain ⟨a3, ha3⟩ := Option.ne_none_iff_exists'.1 hn.2.2
  obtain ⟨h, hh⟩ := Option.ne_none_iff_exists'.1 hl.2
  rw [hh] at hS ⊢
  obtain ⟨A, w1, h1, h2, h3, h4, h5, h6⟩ :=
    loop_success_aux P h o1 o2 o3 _ 0xF0000 w rfl hS
  refine ⟨h, a1, a2, a3, A, w1, ha1, ha2, ha3, rfl, by simpa using hl.1,
    (isCandidate_iff A).2 ⟨h1, h2, h3⟩, h4, h5, ?_⟩
  intro C hC hCA
  obtain ⟨c1, c2, c3⟩ := (isCandidate_iff C).1 hC
  exact h6 C c1 hCA c3

/-- With the protocol available, an allocator that never fails and a reader
that serves an image (possibly with faults), the lowest candidate that passes
is returned together with the header decoded from its first 32 bytes. -/
theorem FindPirqTable_returns_lowest (P : Platform) (w : World) (a1 : Option Nat) (a2 : Nat)
    (a3 : PIR_TABLE_HEADER) (mem : Nat → Nat) (fault : Nat → Nat → Bool) (B : Nat)
    (hP : ProtocolAvailable P) (hAl : AllocationSucceeds P)
    (hR : ReadsImageWithFaults P mem fault) (hB : IsCandidate B)
    (hQ : ValidTableAt mem B ∧ FaultFreeAt mem fault B)
    (hlow : ∀ C, IsCandidate C → C < B → ¬ (ValidTableAt mem C ∧ FaultFreeAt mem fault C)) :
    (FindPirqTable P w (some a1) (some a2) (some a3)).Status = EFI_SUCCESS
      ∧ (FindPirqTable P w (some a1) (some a2) (some a3)).OutTableAddr = some B
      ∧ (FindPirqTable P w (some a1) (some a2) (some a3)).OutHeaderCopy
          = some (PIR_TABLE_HEADER.ofBytes ((List.range 32).map (fun i => byteAt mem (B + i))))
      ∧ (FindPirqTable P w (some a1) (some a2) (some a3)).OutRbIo = some P.LocateProtocol.2 := by
  obtain ⟨h, hh, he⟩ := FindPirqTable_eq_loop P w a1 a2 a3 hP
  obtain ⟨k, hk, rfl⟩ := hB
  obtain ⟨w1, _, _, _, hr⟩ := loop_first_match P mem fault hR hAl h (some a1) (some a2)
    (some a3) (0xF0000 + 16 * k) (by omega) hQ k 0xF0000 w rfl
    (fun j hj => hlow _ ⟨j, by omega, rfl⟩ (by omega))
  rw [he, hr, hh]
  refine ⟨rfl, rfl, ?_, rfl⟩
  simp only [Option.map_some', hdrAt, evAt]
  rw [bufferOf_image P mem fault hR _ _ _ hQ.2.2.1]

theorem imagePlatform_available (mem : Nat → Nat) : ProtocolAvailable (imagePlatform mem) :=
  ⟨rfl, Option.some_ne_none 1⟩

theorem imagePlatform_alloc (mem : Nat → Nat) : AllocationSucceeds (imagePlatform mem) :=
  fun _ _ => rfl

theorem imagePlatform_reads (mem : Nat → Nat) : ReadsImage (imagePlatform mem) mem :=
  fun _ _ _ => ⟨rfl, fun _ => rfl⟩

theorem ReadsImage.withFaults {P : Platform} {mem : Nat → Nat} (hR : ReadsImage P mem) :
    ReadsImageWithFaults P mem (fun _ _ => false) :=
  fun n a s => ⟨(hR n a s).1, fun _ => (hR n a s).2⟩

theorem faultFree_never (mem : Nat → Nat) (A : Nat) : FaultFreeAt mem (fun _ _ => false) A :=
  ⟨rfl, rfl, rfl⟩

/-- The scan of an image that holds a valid table at the first candidate. -/
theorem run_image_first (mem : Nat → Nat) (hv : ValidTableAt mem 0xF0000) :
    (FindPirqTable (imagePlatform mem) World.fresh (some none) (some 0)
        (some zeroHeader)).Status = EFI_SUCCESS
    ∧ (FindPirqTable (imagePlatform mem) World.fresh (some none) (some 0)
        (some zeroHeader)).OutTableAddr = some 0xF0000
    ∧ (FindPirqTable (imagePlatform mem) World.fresh (some none) (some 0)
        (some zeroHeader)).OutHeaderCopy
        = some (PIR_TABLE_HEADER.ofBytes ((List.range 32).map (fun i => byteAt mem (0xF0000 + i)))) := by
  have hrun := FindPirqTable_returns_lowest (imagePlatform mem) World.fresh none 0 zeroHeader
    mem (fun _ _ => false) 0xF0000 (imagePlatform_available _) (imagePlatform_alloc _)
    (imagePlatform_reads _).withFaults ⟨0, by decide, rfl⟩ ⟨hv, faultFree_never _ _⟩
    (fun C hC hlt => by
      obtain ⟨k, _, rfl⟩ := hC
      omega)
  exact ⟨hrun.1, hrun.2.1, hrun.2.2.1⟩

/-- The scan of the image that holds the example table at `0xF0000`. -/
theorem run_imageA :
    (FindPirqTable (imagePlatform imageA) World.fresh (some none) (some 0)
        (some zeroHeader)).Status = EFI_SUCCESS
    ∧ (FindPirqTable (imagePlatform imageA) World.fresh (some none) (some 0)
        (some zeroHeader)).OutTableAddr = some 0xF0000
    ∧ (FindPirqTable (imagePlatform imageA) World.fresh (some none) (some 0)
        (some zeroHeader)).OutHeaderCopy = some (PIR_TABLE_HEADER.ofBytes (exampleTable.take 32)) := by
  have hrun := run_image_first imageA (by decide)
  refine ⟨hrun.1, hrun.2.1, ?_⟩
  rw [hrun.2.2]
  decide

theorem bufferOf_four (d : Nat → Nat) :
    bufferOf d 4 = [d 0 % 256, d 1 % 256, d 2 % 256, d 3 % 256] := by
  simp [bufferOf, List.range, List.range.loop]

theorem ofBytes_Signature (buf : List Nat) :
    (PIR_TABLE_HEADER.ofBytes buf).Signature = readLE buf 0 4 := by
  have : HdrField.Signature.offset = 0 := by decide
  simp [PIR_TABLE_HEADER.ofBytes, HdrField.load, HdrField.size, this]

/-- A memory image built from a list of bytes holds zero beyond the list. -/
theorem imageOf_beyond (base : Nat) (tbl : List Nat) (a : Nat) (h : base + tbl.length ≤ a) :
    byteAt (imageOf base tbl) a = 0 := by
  unfold byteAt imageOf
  rw [if_pos (by omega)]
  have : tbl.getD (a - base) 0 = 0 := by
    rw [List.getD_eq_default]
    omega
  rw [this]

/-- Success shape of a call, as produced by the code: the accepted candidate and
the candidates passed over before it. -/
theorem success_least (P : Platform) (w : World) (o1 : Option (Option Nat)) (o2 : Option Nat)
    (o3 : Option PIR_TABLE_HEADER) (mem : Nat → Nat) (fault : Nat → Nat → Bool) (A : Nat)
    (hR : ReadsImageWithFaults P mem fault)
    (hS : (FindPirqTable P w o1 o2 o3).Status = EFI_SUCCESS)
    (hA : (FindPirqTable P w o1 o2 o3).OutTableAddr = some A) :
    IsCandidate A ∧ (ValidTableAt mem A ∧ FaultFreeAt mem fault A)
      ∧ ∀ C, IsCandidate C → C < A → ¬ (ValidTableAt mem C ∧ FaultFreeAt mem fault C) := by
  obtain ⟨h, a1, a2, a3, A1, w1, e1, e2, e3, _, _, hc, _, ⟨c1, _, c3, hr⟩, hsk⟩ :=
    FindPirqTable_success_inv P w o1 o2 o3 hS
  rw [hr] at hA
  subst e1 e2 e3
  simp only [Option.map_some', Option.some.injEq] at hA
  subst hA
  refine ⟨hc, (stage_iff P mem fault hR _ _).1 ⟨c1, c3⟩, ?_⟩
  intro C hC hlt hv
  obtain ⟨wC, hn, _⟩ := hsk C hC hlt
  exact hn ((stage_iff P mem fault hR _ _).2 hv)

/-! ## Properties of the table locator -/

/-- Shape of the read log after a successful call: it ends with the signature,
header and full-table reads of the accepted candidate. -/
theorem success_log (P : Platform) (w : World) (o1 : Option (Option Nat)) (o2 : Option Nat)
    (o3 : Option PIR_TABLE_HEADER) (A : Nat) (H : PIR_TABLE_HEADER)
    (hS : (FindPirqTable P w o1 o2 o3).Status = EFI_SUCCESS)
    (hA : (FindPirqTable P w o1 o2 o3).OutTableAddr = some A)
    (hH : (FindPirqTable P w o1 o2 o3).OutHeaderCopy = some H) :
    ∃ pre n, IsCandidate A ∧ H = hdrAt P (n + 1) A ∧ HeaderStageOK P n A ∧ ChecksumStageOK P n A
      ∧ (FindPirqTable P w o1 o2 o3).world.memReads
          = pre ++ [evAt P n A 4, evAt P (n + 1) A 32, evAt P (n + 2) A H.TableSize] := by
  obtain ⟨h, a1, a2, a3, A1, w1, e1, e2, e3, _, _, hc, _, ⟨c1, _, c3, hr⟩, _⟩ :=
    FindPirqTable_success_inv P w o1 o2 o3 hS
  rw [hr] at hA hH ⊢
  subst e1 e2 e3
  simp only [Option.map_some', Option.some.injEq] at hA hH
  subst hA hH
  exact ⟨w1.memReads, w1.memReads.length, hc, rfl, c1, c3, rfl⟩

/-- C1. Whenever `FindPirqTable` returns success with address `A` and header
`H`, the last memory read it issued is the read of `H.TableSize` bytes at `A`,
that read did not fail, and the bytes it returned add up to 0 modulo 256, which
is the value `Checksum8` computes for them. -/
theorem C1_accepted_table_sums_to_zero (P : Platform) (w : World)
    (o1 : Option (Option Nat)) (o2 : Option Nat) (o3 : Option PIR_TABLE_HEADER)
    (A : Nat) (H : PIR_TABLE_HEADER)
    (hS : (FindPirqTable P w o1 o2 o3).Status = EFI_SUCCESS)
    (hA : (FindPirqTable P w o1 o2 o3).OutTableAddr = some A)
    (hH : (FindPirqTable P w o1 o2 o3).OutHeaderCopy = some H) :
    ∃ ev, (FindPirqTable P w o1 o2 o3).world.memReads.getLast? = some ev
      ∧ ev.Address = A ∧ ev.Count = H.TableSize ∧ EFI_ERROR ev.Status = false
      ∧ ev.Data.length = H.TableSize
      ∧ Checksum8 ev.Data H.TableSize = 0
      ∧ ev.Data.sum % 256 = 0 := by
  obtain ⟨pre, n, _, hH', _, hc, hlog⟩ := success_log P w o1 o2 o3 A H hS hA hH
  refine ⟨evAt P (n + 2) A H.TableSize, ?_, rfl, rfl, ?_, ?_, ?_, ?_⟩
  · rw [hlog]
    simp [List.getLast?_append]
  · rw [hH']; exact hc.1
  · simp [evAt, bufferOf_length]
  · rw [hH']; exact hc.2
  · have h2 := hc.2
    rw [← hH'] at h2
    simp only [evAt] at h2 ⊢
    rw [Checksum8_buffer] at h2
    exact h2

/-- C1 at a concrete input: the image with the example table at `0xF0000`. -/
theorem C1_accepted_table_sums_to_zero_witness :
    (FindPirqTable (imagePlatform imageA) World.fresh (some none) (some 0)
        (some zeroHeader)).Status = EFI_SUCCESS
    ∧ (FindPirqTable (imagePlatform imageA) World.fresh (some none) (some 0)
        (some zeroHeader)).OutTableAddr = some 0xF0000
    ∧ ∃ ev, (FindPirqTable (imagePlatform imageA) World.fresh (some none) (some 0)
          (some zeroHeader)).world.memReads.getLast? = some ev
      ∧ ev.Address = 0xF0000 ∧ ev.Count = 48 ∧ EFI_ERROR ev.Status = false
      ∧ ev.Data.length = 48 ∧ Checksum8 ev.Data 48 = 0 ∧ ev.Data.sum % 256 = 0 := by
  refine ⟨run_imageA.1, run_imageA.2.1, ?_⟩
  exact C1_accepted_table_sums_to_zero (imagePlatform imageA) World.fresh (some none) (some 0)
    (some zeroHeader) 0xF0000 (PIR_TABLE_HEADER.ofBytes (exampleTable.take 32))
    run_imageA.1 run_imageA.2.1 run_imageA.2.2

/-- C2. Whenever `FindPirqTable` returns success with address `A` and header
`H`, its last three reads are the signature, header and table reads at `A`; the
signature read returned the bytes `0x24 0x50 0x49 0x52`, `H` is the header
decoded from the header read, `H.Version = 0x0100`, `H.TableSize > 32` and
`H.TableSize % 16 = 0`.  When the reader serves a memory image, the four bytes
of the image at `A` are `$PIR` and `H.Signature` is the `$PIR` tag too. -/
theorem C2_accepted_header_passes_checks (P : Platform) (w : World)
    (o1 : Option (Option Nat)) (o2 : Option Nat) (o3 : Option PIR_TABLE_HEADER)
    (A : Nat) (H : PIR_TABLE_HEADER)
    (hS : (FindPirqTable P w o1 o2 o3).Status = EFI_SUCCESS)
    (hA : (FindPirqTable P w o1 o2 o3).OutTableAddr = some A)
    (hH : (FindPirqTable P w o1 o2 o3).OutHeaderCopy = some H) :
    (∃ pre sigEv hdrEv tblEv,
      (FindPirqTable P w o1 o2 o3).world.memReads = pre ++ [sigEv, hdrEv, tblEv]
      ∧ sigEv.Address = A ∧ sigEv.Count = 4 ∧ EFI_ERROR sigEv.Status = false
      ∧ sigEv.Data = [0x24, 0x50, 0x49, 0x52]
      ∧ hdrEv.Address = A ∧ hdrEv.Count = 32 ∧ EFI_ERROR hdrEv.Status = false
      ∧ H = PIR_TABLE_HEADER.ofBytes hdrEv.Data)
    ∧ H.Version = 0x0100 ∧ 32 < H.TableSize ∧ H.TableSize % 16 = 0
    ∧ (∀ mem fault, ReadsImageWithFaults P mem fault →
        SignatureAt mem A ∧ H.Signature = PIR_SIGNATURE
          ∧ VersionAt mem A ∧ SizeAt mem A ∧ H.TableSize = tableSizeAt mem A) := by
  obtain ⟨pre, n, _, hH', hh, hc, hlog⟩ := success_log P w o1 o2 o3 A H hS hA hH
  obtain ⟨c1, c2, c3, c4, c5, c6⟩ := hh
  rw [← hH'] at c4 c5 c6
  refine ⟨⟨pre, _, _, _, hlog, rfl, rfl, c1, ?_, rfl, rfl, c3, hH'⟩, c4, c5, c6, ?_⟩
  · simp only [evAt] at c2 ⊢
    rw [bufferOf_four] at c2 ⊢
    rw [readLE_four] at c2
    simp only [List.getD_cons_zero, List.getD_cons_succ] at c2
    have := (signature_iff _ _ _ _ (Nat.mod_lt _ (by decide)) (Nat.mod_lt _ (by decide))
      (Nat.mod_lt _ (by decide))).1 c2
    simp [this.1, this.2.1, this.2.2.1, this.2.2.2]
  · intro mem fault hR
    have hv := (stage_iff P mem fault hR n A).1 ⟨⟨c1, c2, c3, hH' ▸ c4, hH' ▸ c5, hH' ▸ c6⟩, hc⟩
    obtain ⟨⟨hsig, hver, hsz, _⟩, f4, f32, _⟩ := hv
    refine ⟨hsig, ?_, hver, hsz, ?_⟩
    · rw [hH', hdrAt, ofBytes_Signature]
      simp only [evAt]
      rw [readLE_four, bufferOf_image P mem fault hR _ _ _ f32,
        image_getD _ _ _ _ (by decide), image_getD _ _ _ _ (by decide),
        image_getD _ _ _ _ (by decide), image_getD _ _ _ _ (by decide)]
      exact (signature_iff _ _ _ _ (byteAt_lt _ _) (byteAt_lt _ _) (byteAt_lt _ _)).2 hsig
    · rw [hH', hdrAt, ofBytes_TableSize]
      simp only [evAt]
      rw [bufferOf_image P mem fault hR _ _ _ f32,
        image_getD _ _ _ _ (by decide), image_getD _ _ _ _ (by decide)]
      rfl

/-- C2 at a concrete input: the image with the example table at `0xF0000`. -/
theorem C2_accepted_header_passes_checks_witness :
    (PIR_TABLE_HEADER.ofBytes (exampleTable.take 32)).Version = 0x0100
    ∧ 32 < (PIR_TABLE_HEADER.ofBytes (exampleTable.take 32)).TableSize
    ∧ (PIR_TABLE_HEADER.ofBytes (exampleTable.take 32)).TableSize % 16 = 0
    ∧ SignatureAt imageA 0xF0000 :=
  have h := C2_accepted_header_passes_checks (imagePlatform imageA) World.fresh (some none)
    (some 0) (some zeroHeader) 0xF0000 (PIR_TABLE_HEADER.ofBytes (exampleTable.take 32))
    run_imageA.1 run_imageA.2.1 run_imageA.2.2
  ⟨h.2.1, h.2.2.1, h.2.2.2.1,
    (h.2.2.2.2 imageA (fun _ _ => false) (imagePlatform_reads imageA).withFaults).1⟩

/-- C3. First match wins: for every memory image, when `FindPirqTable` succeeds
the returned address is a candidate `0xF0000 + 16 * k`, `k ≤ 4095`, at which
the signature, version, size and checksum checks all pass, and it is the least
such candidate; so of two valid tables at different candidate addresses the
higher one is never returned. -/
theorem C3_first_match_wins (P : Platform) (w : World) (o1 : Option (Option Nat))
    (o2 : Option Nat) (o3 : Option PIR_TABLE_HEADER) (mem : Nat → Nat) (A : Nat)
    (hR : ReadsImage P mem)
    (hS : (FindPirqTable P w o1 o2 o3).Status = EFI_SUCCESS)
    (hA : (FindPirqTable P w o1 o2 o3).OutTableAddr = some A) :
    IsCandidate A ∧ ValidTableAt mem A
      ∧ (∀ B, IsCandidate B → ValidTableAt mem B → A ≤ B)
      ∧ (∀ B1 B2, IsCandidate B1 → IsCandidate B2 → ValidTableAt mem B1 → ValidTableAt mem B2 →
          B1 < B2 → A ≤ B1 ∧ A ≠ B2) := by
  obtain ⟨hc, hv, hlow⟩ := success_least P w o1 o2 o3 mem _ A hR.withFaults hS hA
  have hmin : ∀ B, IsCandidate B → ValidTableAt mem B → A ≤ B := by
    intro B hB hvB
    by_contra hlt
    exact hlow B hB (by omega) ⟨hvB, faultFree_never _ _⟩
  refine ⟨hc, hv.1, hmin, ?_⟩
  intro B1 B2 hB1 _ hv1 _ hlt
  have := hmin B1 hB1 hv1
  exact ⟨this, by omega⟩

/-- C3 at a concrete input: the image with valid tables at `0xF0000` and at
`0xF0040`; the scan returns `0xF0000`. -/
theorem C3_first_match_wins_witness :
    (FindPirqTable (imagePlatform imageD) World.fresh (some none) (some 0)
        (some zeroHeader)).OutTableAddr = some 0xF0000
    ∧ ValidTableAt imageD 0xF0000 ∧ ValidTableAt imageD 0xF0040
    ∧ (0xF0000 ≤ 0xF0000 ∧ 0xF0000 ≠ 0xF0040) :=
  have hrun := run_image_first imageD (by decide)
  have h := C3_first_match_wins (imagePlatform imageD) World.fresh (some none) (some 0)
    (some zeroHeader) imageD 0xF0000 (imagePlatform_reads imageD) hrun.1 hrun.2.1
  ⟨hrun.2.1, by decide, by decide,
    h.2.2.2 0xF0000 0xF0040 ⟨0, by decide, rfl⟩ ⟨4, by decide, rfl⟩ (by decide) (by decide)
      (by decide)⟩

/-- The header-stage checks of the code, on a platform that serves a memory
image, are the signature, version and size checks on the image. -/
theorem header_stage_iff (P : Platform) (mem : Nat → Nat) (fault : Nat → Nat → Bool)
    (hR : ReadsImageWithFaults P mem fault) (n A : Nat) :
    HeaderStageOK P n A
      ↔ (fault A 4 = false ∧ fault A 32 = false
          ∧ SignatureAt mem A ∧ VersionAt mem A ∧ SizeAt mem A) := by
  unfold HeaderStageOK
  simp only [evAt, hdrAt, (hR _ _ _).1]
  by_cases f4 : fault A 4 = false
  swap
  · simp [f4]
  by_cases f32 : fault A 32 = false
  swap
  · simp [f32]
  have hs : (PIR_TABLE_HEADER.ofBytes (bufferOf (P.MemRead (n + 1) A 32).2 32)).TableSize
      = tableSizeAt mem A := by
    rw [ofBytes_TableSize, bufferOf_image P mem fault hR _ _ _ f32,
      image_getD _ _ _ _ (by decide), image_getD _ _ _ _ (by decide)]
    rfl
  have hv : (PIR_TABLE_HEADER.ofBytes (bufferOf (P.MemRead (n + 1) A 32).2 32)).Version
      = byteAt mem (A + 4) + 256 * byteAt mem (A + 5) := by
    rw [ofBytes_Version, bufferOf_image P mem fault hR _ _ _ f32,
      image_getD _ _ _ _ (by decide), image_getD _ _ _ _ (by decide)]
  have hsig : readLE (bufferOf (P.MemRead n A 4).2 4) 0 4 = PIR_SIGNATURE ↔ SignatureAt mem A := by
    rw [readLE_four, bufferOf_image P mem fault hR _ _ _ f4,
      image_getD _ _ _ _ (by decide), image_getD _ _ _ _ (by decide),
      image_getD _ _ _ _ (by decide), image_getD _ _ _ _ (by decide)]
    exact signature_iff _ _ _ _ (byteAt_lt _ _) (byteAt_lt _ _) (byteAt_lt _ _)
  rw [hs, hv, hsig]
  simp only [f4, f32, VersionAt, SizeAt]
  tauto

theorem loop_status (P : Platform) (h : Nat) (o1 : Option (Option Nat)) (o2 : Option Nat)
    (o3 : Option PIR_TABLE_HEADER) :
    ∀ (d A0 : Nat) (w : World), 0xFFFF0 + 0x10 - A0 = d →
      (FindPirqTable.loop P (some h) o1 o2 o3 A0 w).Status = EFI_SUCCESS
      ∨ (FindPirqTable.loop P (some h) o1 o2 o3 A0 w).Status = EFI_NOT_FOUND
      ∨ ((FindPirqTable.loop P (some h) o1 o2 o3 A0 w).Status = EFI_OUT_OF_RESOURCES
          ∧ ∃ n s, P.AllocatePool n s = false) := by
  intro d
  induction d using Nat.strong_induction_on with
  | _ d ih =>
    intro A0 w hd
    by_cases hA : A0 ≤ 0xFFFF0
    swap
    · rw [loop_exit P _ o1 o2 o3 A0 w hA]
      exact Or.inr (Or.inl rfl)
    rcases body_trichotomy P h o1 o2 o3 A0 w with
      ⟨evs, a, f, hb, _, _⟩ | ⟨hb, _, c⟩ | ⟨hb, _, _, _⟩
    · rw [loop_continue P _ o1 o2 o3 A0 w _ hA hb]
      exact ih (0xFFFF0 + 0x10 - (A0 + 0x10)) (by omega) (A0 + 0x10) _ rfl
    · rw [loop_return P _ o1 o2 o3 A0 w _ hA hb]
      exact Or.inr (Or.inr ⟨rfl, _, _, c⟩)
    · rw [loop_return P _ o1 o2 o3 A0 w _ hA hb]
      exact Or.inl rfl

/-- C4. With the memory-read protocol available, an allocator that never fails
and a reader that serves a memory image, `FindPirqTable` (called with valid
output pointers) returns `EFI_NOT_FOUND` if and only if no candidate address
passes all of the signature, version, size and checksum checks; in particular
it does when every candidate that carries the `$PIR` signature has version
`0x0200`. -/
theorem C4_not_found_iff_no_valid_candidate (P : Platform) (w : World) (a1 : Option Nat)
    (a2 : Nat) (a3 : PIR_TABLE_HEADER) (mem : Nat → Nat)
    (hP : ProtocolAvailable P) (hAl : AllocationSucceeds P) (hR : ReadsImage P mem) :
    ((FindPirqTable P w (some a1) (some a2) (some a3)).Status = EFI_NOT_FOUND
        ↔ ∀ A, IsCandidate A → ¬ ValidTableAt mem A)
    ∧ ((∀ A, IsCandidate A → SignatureAt mem A →
          byteAt mem (A + 4) + 256 * byteAt mem (A + 5) = 0x0200) →
        (FindPirqTable P w (some a1) (some a2) (some a3)).Status = EFI_NOT_FOUND) := by
  have hback : (∀ A, IsCandidate A → ¬ ValidTableAt mem A) →
      (FindPirqTable P w (some a1) (some a2) (some a3)).Status = EFI_NOT_FOUND := by
    intro hno
    obtain ⟨h, _, he⟩ := FindPirqTable_eq_loop P w a1 a2 a3 hP
    obtain ⟨w1, hl⟩ := loop_not_found P mem _ hR.withFaults hAl h (some a1) (some a2) (some a3)
      _ 0xF0000 w rfl
      (fun C c1 c2 c3 hv => hno C ((isCandidate_iff C).2 ⟨c1, c2, c3⟩) hv.1)
    rw [he, hl]
  refine ⟨⟨?_, hback⟩, ?_⟩
  · intro hS A hA hv
    have hex : ∃ k, k ≤ 4095 ∧ ValidTableAt mem (0xF0000 + 16 * k) := by
      obtain ⟨k, hk, rfl⟩ := hA
      exact ⟨k, hk, hv⟩
    classical
    have hmin := Nat.find_spec hex
    have hrun := FindPirqTable_returns_lowest P w a1 a2 a3 mem _ (0xF0000 + 16 * Nat.find hex)
      hP hAl hR.withFaults ⟨_, hmin.1, rfl⟩ ⟨hmin.2, faultFree_never _ _⟩
      (fun C hC hlt hvC => by
        obtain ⟨j, hj, rfl⟩ := hC
        exact Nat.find_min hex (show j < Nat.find hex by omega) ⟨hj, hvC.1⟩)
    rw [hrun.1] at hS
    exact NOT_FOUND_ne_SUCCESS hS.symm
  · intro hver
    apply hback
    intro A hA hv
    have h2 := hver A hA hv.1
    have h1 : byteAt mem (A + 4) + 256 * byteAt mem (A + 5) = 0x0100 := hv.2.1
    omega

/-- C4 at a concrete input: the only `$PIR` signature of the image belongs to a
table of version `0x0200`; the scan reports `EFI_NOT_FOUND`. -/
theorem C4_not_found_iff_no_valid_candidate_witness :
    SignatureAt imageC 0xF0000
    ∧ byteAt imageC (0xF0000 + 4) + 256 * byteAt imageC (0xF0000 + 5) = 0x0200
    ∧ (FindPirqTable (imagePlatform imageC) World.fresh (some none) (some 0)
        (some zeroHeader)).Status = EFI_NOT_FOUND :=
  ⟨by decide, by decide,
    (C4_not_found_iff_no_valid_candidate (imagePlatform imageC) World.fresh none 0 zeroHeader
      imageC (imagePlatform_available _) (imagePlatform_alloc _) (imagePlatform_reads _)).2
      (fun A hA hsig => by
        obtain ⟨k, hk, rfl⟩ := hA
        by_cases h0 : k = 0
        · subst h0; decide
        · exfalso
          by_cases h3 : k < 3
          · have : k = 1 ∨ k = 2 := by omega
            rcases this with rfl | rfl
            · exact absurd hsig (by decide)
            · exact absurd hsig (by decide)
          · have hz : byteAt imageC (0xF0000 + 16 * k) = 0 :=
              imageOf_beyond 0xF0000 version2Table _ (by
                have : version2Table.length = 48 := by decide
                omega)
            have h24 := hsig.1
            omega)⟩

/-- C5. A candidate `A` with valid signature, version and size but a non-zero
byte sum is rejected without ending the scan: on a platform that serves a
memory image (protocol available, allocation succeeding), the loop body at `A`
issues its three reads, releases the buffer and continues with candidate
`A + 16`; and when the lowest fully valid table lies at a candidate `B`, such
as one above `A`, `FindPirqTable` returns success with address `B` and the
header found at `B`. -/
theorem C5_bad_checksum_continues_scan (P : Platform) (w : World) (a1 : Option Nat) (a2 : Nat)
    (a3 : PIR_TABLE_HEADER) (mem : Nat → Nat) (A B : Nat)
    (hP : ProtocolAvailable P) (hAl : AllocationSucceeds P) (hR : ReadsImage P mem)
    (hA : IsCandidate A) (hB : IsCandidate B)
    (hsig : SignatureAt mem A) (hver : VersionAt mem A) (hsz : SizeAt mem A)
    (hsum : ¬ ChecksumAt mem A)
    (hvB : ValidTableAt mem B) (hlow : ∀ C, IsCandidate C → ValidTableAt mem C → B ≤ C) :
    (∀ h o1 o2 o3 w0, ∃ w1,
        FindPirqTable.body P (some h) o1 o2 o3 A w0 = Step.Continue w1
        ∧ w1.memReads.length = w0.memReads.length + 3
        ∧ w1.allocs = w0.allocs + 1 ∧ w1.frees = w0.frees + 1
        ∧ FindPirqTable.loop P (some h) o1 o2 o3 A w0
            = FindPirqTable.loop P (some h) o1 o2 o3 (A + 0x10) w1)
    ∧ (FindPirqTable P w (some a1) (some a2) (some a3)).Status = EFI_SUCCESS
    ∧ (FindPirqTable P w (some a1) (some a2) (some a3)).OutTableAddr = some B
    ∧ (FindPirqTable P w (some a1) (some a2) (some a3)).OutHeaderCopy
        = some (PIR_TABLE_HEADER.ofBytes ((List.range 32).map (fun i => byteAt mem (B + i)))) := by
  constructor
  · intro h o1 o2 o3 w0
    have hh : HeaderStageOK P w0.memReads.length A :=
      (header_stage_iff P mem _ hR.withFaults _ A).2 ⟨rfl, rfl, hsig, hver, hsz⟩
    have hnc : ¬ ChecksumStageOK P w0.memReads.length A := fun hc =>
      hsum ((stage_iff P mem _ hR.withFaults _ A).1 ⟨hh, hc⟩).1.2.2.2
    have hb := body_after_header P h o1 o2 o3 A w0 hh
    rw [if_neg (by simp [hAl _ _]), if_neg hnc] at hb
    refine ⟨_, hb, by simp, rfl, rfl, ?_⟩
    exact loop_continue P _ o1 o2 o3 A w0 _ ((isCandidate_iff A).1 hA).2.1 hb
  · have hrun := FindPirqTable_returns_lowest P w a1 a2 a3 mem _ B hP hAl hR.withFaults hB
      ⟨hvB, faultFree_never _ _⟩
      (fun C hC hlt hvC => by
        have := hlow C hC hvC.1
        omega)
    exact ⟨hrun.1, hrun.2.1, hrun.2.2.1⟩

/-- C5 at a concrete input: a table with a wrong checksum byte at `0xF0000` and
the example table at `0xF0040`; the scan returns `0xF0040`. -/
theorem C5_bad_checksum_continues_scan_witness :
    (SignatureAt imageB 0xF0000 ∧ VersionAt imageB 0xF0000 ∧ SizeAt imageB 0xF0000
      ∧ ¬ ChecksumAt imageB 0xF0000)
    ∧ (FindPirqTable (imagePlatform imageB) World.fresh (some none) (some 0)
        (some zeroHeader)).Status = EFI_SUCCESS
    ∧ (FindPirqTable (imagePlatform imageB) World.fresh (some none) (some 0)
        (some zeroHeader)).OutTableAddr = some 0xF0040 :=
  have h := C5_bad_checksum_continues_scan (imagePlatform imageB) World.fresh none 0 zeroHeader
    imageB 0xF0000 0xF0040 (imagePlatform_available _) (imagePlatform_alloc _)
    (imagePlatform_reads _) ⟨0, by decide, rfl⟩ ⟨4, by decide, rfl⟩
    (by decide) (by decide) (by decide) (by decide) (by decide)
    (fun C hC hv => by
      obtain ⟨k, hk, rfl⟩ := hC
      by_contra hlt
      have : k = 0 ∨ k = 1 ∨ k = 2 ∨ k = 3 := by omega
      rcases this with rfl | rfl | rfl | rfl
      · exact absurd hv (by decide)
      · exact absurd hv (by decide)
      · exact absurd hv (by decide)
      · exact absurd hv (by decide))
  ⟨by decide, h.2.1, h.2.2.1⟩

/-- The fault pattern of `faultyPlatform`: only the 32-byte read at `0xF0000`
fails. -/
theorem faultyPlatform_reads :
    ReadsImageWithFaults faultyPlatform imageD (fun a s => decide (a = 0xF0000 ∧ s = 32)) := by
  intro n a s
  by_cases h : a = 0xF0000 ∧ s = 32
  · have e : EFI_ERROR (ENCODE_ERROR 7) = true := by decide
    simp [faultyPlatform, h, e]
  · simp only [faultyPlatform, if_neg h, decide_eq_false h]
    exact ⟨by decide, fun _ _ => rfl⟩

/-- C6. A memory-read error during discovery only disqualifies the candidate
being examined.  For any platform: if one of the reads issued while candidate
`A` is examined fails, the loop body does not return but continues, so the scan
goes on with candidate `A + 16`.  End to end, on a platform that serves a
memory image with faults (protocol available, allocation succeeding): if one of
the reads at candidate `A` fails and `B > A` is a fully valid table read without
faults, every other candidate below `B` being rejected, then `FindPirqTable`
returns success with address `B`. -/
theorem C6_read_error_skips_candidate (P : Platform) (A : Nat) :
    (∀ h o1 o2 o3 w,
        (∃ ev ∈ (FindPirqTable.body P (some h) o1 o2 o3 A w).world.memReads.drop
            w.memReads.length, EFI_ERROR ev.Status = true) →
        ∃ w1, FindPirqTable.body P (some h) o1 o2 o3 A w = Step.Continue w1
          ∧ (A ≤ 0xFFFF0 → FindPirqTable.loop P (some h) o1 o2 o3 A w
              = FindPirqTable.loop P (some h) o1 o2 o3 (A + 0x10) w1))
    ∧ (∀ w a1 a2 a3 mem fault B,
        ProtocolAvailable P → AllocationSucceeds P → ReadsImageWithFaults P mem fault →
        IsCandidate A → IsCandidate B → A < B →
        (fault A 4 = true ∨ fault A 32 = true ∨ fault A (tableSizeAt mem A) = true) →
        ValidTableAt mem B → FaultFreeAt mem fault B →
        (∀ C, IsCandidate C → C < B → C ≠ A →
          ¬ (ValidTableAt mem C ∧ FaultFreeAt mem fault C)) →
        (FindPirqTable P w (some a1) (some a2) (some a3)).Status = EFI_SUCCESS
        ∧ (FindPirqTable P w (some a1) (some a2) (some a3)).OutTableAddr = some B
        ∧ (FindPirqTable P w (some a1) (some a2) (some a3)).OutHeaderCopy
            = some (PIR_TABLE_HEADER.ofBytes
                ((List.range 32).map (fun i => byteAt mem (B + i))))) := by
  constructor
  · intro h o1 o2 o3 w hev
    rcases body_trichotomy P h o1 o2 o3 A w with
      ⟨evs, a, f, hb, _, _⟩ | ⟨hb, c, _⟩ | ⟨hb, c, _, c3⟩
    · exact ⟨_, hb, fun hA => loop_continue P _ o1 o2 o3 A w _ hA hb⟩
    · exfalso
      rw [hb] at hev
      obtain ⟨ev, hmem, herr⟩ := hev
      simp only [Step.world, List.drop_left] at hmem
      obtain ⟨c1, _, c2, _⟩ := c
      simp only [List.mem_cons, List.mem_singleton, List.not_mem_nil, or_false] at hmem
      rcases hmem with rfl | rfl
      · rw [c1] at herr; exact absurd herr (by decide)
      · rw [c2] at herr; exact absurd herr (by decide)
    · exfalso
      rw [hb] at hev
      obtain ⟨ev, hmem, herr⟩ := hev
      simp only [Step.world, List.drop_left] at hmem
      obtain ⟨c1, _, c2, _⟩ := c
      simp only [List.mem_cons, List.mem_singleton, List.not_mem_nil, or_false] at hmem
      rcases hmem with rfl | rfl | rfl
      · rw [c1] at herr; exact absurd herr (by decide)
      · rw [c2] at herr; exact absurd herr (by decide)
      · rw [c3.1] at herr; exact absurd herr (by decide)
  · intro w a1 a2 a3 mem fault B hP hAl hR _ hB _ hf hvB hfB hlow
    have hrun := FindPirqTable_returns_lowest P w a1 a2 a3 mem fault B hP hAl hR hB
      ⟨hvB, hfB⟩
      (fun C hC hlt hvC => by
        by_cases hCA : C = A
        · subst hCA
          obtain ⟨f4, f32, fT⟩ := hvC.2
          rcases hf with hf | hf | hf
          · rw [f4] at hf; exact absurd hf (by decide)
          · rw [f32] at hf; exact absurd hf (by decide)
          · rw [fT] at hf; exact absurd hf (by decide)
        · exact hlow C hC hlt hCA hvC)
    exact ⟨hrun.1, hrun.2.1, hrun.2.2.1⟩

/-- C6 at a concrete input: valid tables at `0xF0000` and `0xF0040`, and a
reader whose 32-byte read at `0xF0000` fails; the body at `0xF0000` continues
and the scan returns `0xF0040`. -/
theorem C6_read_error_skips_candidate_witness :
    (∃ w1, FindPirqTable.body faultyPlatform (some 1) (some none) (some 0) (some zeroHeader)
        0xF0000 World.fresh = Step.Continue w1)
    ∧ ValidTableAt imageD 0xF0000
    ∧ (FindPirqTable faultyPlatform World.fresh (some none) (some 0)
        (some zeroHeader)).Status = EFI_SUCCESS
    ∧ (FindPirqTable faultyPlatform World.fresh (some none) (some 0)
        (some zeroHeader)).OutTableAddr = some 0xF0040 :=
  have h := C6_read_error_skips_candidate faultyPlatform 0xF0000
  have ha := h.1 1 (some none) (some 0) (some zeroHeader) World.fresh (by decide)
  have hb := h.2 World.fresh none 0 zeroHeader imageD
    (fun a s => decide (a = 0xF0000 ∧ s = 32)) 0xF0040
    ⟨by decide, by decide⟩ (fun _ _ => rfl) faultyPlatform_reads
    ⟨0, by decide, rfl⟩ ⟨4, by decide, rfl⟩ (by decide) (by decide) (by decide) (by decide)
    (fun C hC hlt hne => by
      obtain ⟨k, hk, rfl⟩ := hC
      have : k = 1 ∨ k = 2 ∨ k = 3 := by omega
      rcases this with rfl | rfl | rfl <;> decide)
  ⟨⟨ha.choose, ha.choose_spec.1⟩, by decide, hb.1, hb.2.1⟩

/-- C7, counterexample. `FindPirqTable` has failure statuses other than
`EFI_NOT_FOUND`: when the pool allocation for the first plausible candidate
fails it returns `EFI_OUT_OF_RESOURCES`, and when an output pointer is `NULL`
it returns `EFI_INVALID_PARAMETER`. -/
theorem C7_not_found_single_failure_counterexample :
    ¬ ((FindPirqTable noPoolPlatform World.fresh (some none) (some 0)
          (some zeroHeader)).Status = EFI_SUCCESS
        ∨ (FindPirqTable noPoolPlatform World.fresh (some none) (some 0)
          (some zeroHeader)).Status = EFI_NOT_FOUND)
    ∧ (FindPirqTable noPoolPlatform World.fresh (some none) (some 0)
          (some zeroHeader)).Status = EFI_OUT_OF_RESOURCES
    ∧ (FindPirqTable (imagePlatform imageA) World.fresh none (some 0)
          (some zeroHeader)).Status = EFI_INVALID_PARAMETER := by
  have hb : FindPirqTable.body noPoolPlatform (some 1) (some none) (some 0) (some zeroHeader)
      0xF0000 World.fresh
      = Step.Return ⟨EFI_OUT_OF_RESOURCES, some none, some 0, some zeroHeader,
          ⟨[evAt noPoolPlatform 0 0xF0000 4, evAt noPoolPlatform 1 0xF0000 32], 1, 0, []⟩⟩ := by
    decide
  have hrun : FindPirqTable noPoolPlatform World.fresh (some none) (some 0) (some zeroHeader)
      = ⟨EFI_OUT_OF_RESOURCES, some none, some 0, some zeroHeader,
          ⟨[evAt noPoolPlatform 0 0xF0000 4, evAt noPoolPlatform 1 0xF0000 32], 1, 0, []⟩⟩ := by
    obtain ⟨h, hh, he⟩ := FindPirqTable_eq_loop noPoolPlatform World.fresh none 0 zeroHeader
      ⟨by decide, by decide⟩
    have h1 : h = 1 := by
      have : noPoolPlatform.LocateProtocol.2 = some 1 := rfl
      rw [this] at hh
      exact (Option.some.inj hh).symm
    subst h1
    rw [he]
    exact loop_return _ _ _ _ _ _ _ _ (by decide) hb
  refine ⟨?_, ?_, ?_⟩
  · rw [hrun]
    decide
  · rw [hrun]
  · simp [FindPirqTable]

/-- C7, amended. `FindPirqTable` returns one of `EFI_SUCCESS`, `EFI_NOT_FOUND`,
`EFI_INVALID_PARAMETER` and `EFI_OUT_OF_RESOURCES`.  It returns
`EFI_INVALID_PARAMETER` exactly when an output pointer is `NULL`, and
`EFI_OUT_OF_RESOURCES` only when a pool allocation fails; so when called with
valid output pointers on a platform whose allocations succeed it returns
success or `EFI_NOT_FOUND` and nothing else. -/
theorem C7_possible_statuses (P : Platform) (w : World) (o1 : Option (Option Nat))
    (o2 : Option Nat) (o3 : Option PIR_TABLE_HEADER) :
    ((FindPirqTable P w o1 o2 o3).Status = EFI_SUCCESS
      ∨ (FindPirqTable P w o1 o2 o3).Status = EFI_NOT_FOUND
      ∨ (FindPirqTable P w o1 o2 o3).Status = EFI_INVALID_PARAMETER
      ∨ (FindPirqTable P w o1 o2 o3).Status = EFI_OUT_OF_RESOURCES)
    ∧ ((FindPirqTable P w o1 o2 o3).Status = EFI_INVALID_PARAMETER
        ↔ (o1 = none ∨ o2 = none ∨ o3 = none))
    ∧ ((FindPirqTable P w o1 o2 o3).Status = EFI_OUT_OF_RESOURCES →
        ∃ n s, P.AllocatePool n s = false)
    ∧ (o1 ≠ none → o2 ≠ none → o3 ≠ none → AllocationSucceeds P →
        (FindPirqTable P w o1 o2 o3).Status = EFI_SUCCESS
        ∨ (FindPirqTable P w o1 o2 o3).Status = EFI_NOT_FOUND) := by
  have key : (o1 = none ∨ o2 = none ∨ o3 = none)
        ∧ (FindPirqTable P w o1 o2 o3).Status = EFI_INVALID_PARAMETER
      ∨ ¬ (o1 = none ∨ o2 = none ∨ o3 = none)
        ∧ ((FindPirqTable P w o1 o2 o3).Status = EFI_SUCCESS
          ∨ (FindPirqTable P w o1 o2 o3).Status = EFI_NOT_FOUND
          ∨ ((FindPirqTable P w o1 o2 o3).Status = EFI_OUT_OF_RESOURCES
              ∧ ∃ n s, P.AllocatePool n s = false)) := by
    unfold FindPirqTable
    by_cases hn : o1 = none ∨ o2 = none ∨ o3 = none
    · rw [if_pos hn]
      exact Or.inl ⟨hn, rfl⟩
    rw [if_neg hn]
    refine Or.inr ⟨hn, ?_⟩
    simp only []
    by_cases hl : EFI_ERROR P.LocateProtocol.1 = true ∨ P.LocateProtocol.2 = none
    · rw [if_pos hl]
      exact Or.inr (Or.inl rfl)
    rw [if_neg hl]
    push_neg at hl
    obtain ⟨h, hh⟩ := Option.ne_none_iff_exists'.1 hl.2
    rw [hh]
    exact loop_status P h o1 o2 o3 _ 0xF0000 w rfl
  have e1 : EFI_SUCCESS ≠ EFI_INVALID_PARAMETER := by decide
  have e2 : EFI_NOT_FOUND ≠ EFI_INVALID_PARAMETER := by decide
  have e3 : EFI_OUT_OF_RESOURCES ≠ EFI_INVALID_PARAMETER := by decide
  have e4 : EFI_SUCCESS ≠ EFI_OUT_OF_RESOURCES := by decide
  have e5 : EFI_NOT_FOUND ≠ EFI_OUT_OF_RESOURCES := by decide
  refine ⟨?_, ⟨?_, ?_⟩, ?_, ?_⟩
  · rcases key with ⟨_, h⟩ | ⟨_, h | h | h⟩
    · exact Or.inr (Or.inr (Or.inl h))
    · exact Or.inl h
    · exact Or.inr (Or.inl h)
    · exact Or.inr (Or.inr (Or.inr h.1))
  · intro hS
    rcases key with ⟨hn, _⟩ | ⟨_, h | h | h⟩
    · exact hn
    · rw [h] at hS; exact absurd hS e1
    · rw [h] at hS; exact absurd hS e2
    · rw [h.1] at hS; exact absurd hS e3
  · intro hn
    rcases key with ⟨_, h⟩ | ⟨hnn, _⟩
    · exact h
    · exact absurd hn hnn
  · intro hS
    rcases key with ⟨_, h⟩ | ⟨_, h | h | h⟩
    · rw [h] at hS; exact absurd hS.symm e3
    · rw [h] at hS; exact absurd hS e4
    · rw [h] at hS; exact absurd hS e5
    · exact h.2
  · intro h1 h2 h3 hAl
    rcases key with ⟨hn, _⟩ | ⟨_, h | h | h⟩
    · rcases hn with hn | hn | hn
      · exact absurd hn h1
      · exact absurd hn h2
      · exact absurd hn h3
    · exact Or.inl h
    · exact Or.inr h
    · obtain ⟨n, s, hf⟩ := h.2
      rw [hAl] at hf
      exact absurd hf (by decide)

/-- C7 (amended) at a concrete input: valid output pointers and the platform
that serves the example image. -/
theorem C7_possible_statuses_witness :
    AllocationSucceeds (imagePlatform imageA)
    ∧ ((FindPirqTable (imagePlatform imageA) World.fresh (some none) (some 0)
          (some zeroHeader)).Status = EFI_SUCCESS
      ∨ (FindPirqTable (imagePlatform imageA) World.fresh (some none) (some 0)
          (some zeroHeader)).Status = EFI_NOT_FOUND) :=
  ⟨imagePlatform_alloc imageA,
    (C7_possible_statuses (imagePlatform imageA) World.fresh (some none) (some 0)
      (some zeroHeader)).2.2.2 (Option.some_ne_none _) (Option.some_ne_none _)
      (Option.some_ne_none _) (imagePlatform_alloc imageA)⟩

/-- Field layout of a header object: each field as the little-endian value of
its bytes. -/
theorem ofBytes_layout (buf : List Nat) :
    (PIR_TABLE_HEADER.ofBytes buf).Signature
        = buf.getD 0 0 + 256 * buf.getD 1 0 + 256 ^ 2 * buf.getD 2 0 + 256 ^ 3 * buf.getD 3 0
    ∧ (PIR_TABLE_HEADER.ofBytes buf).Version = buf.getD 4 0 + 256 * buf.getD 5 0
    ∧ (PIR_TABLE_HEADER.ofBytes buf).TableSize = buf.getD 6 0 + 256 * buf.getD 7 0
    ∧ (PIR_TABLE_HEADER.ofBytes buf).RouterBus = buf.getD 8 0
    ∧ (PIR_TABLE_HEADER.ofBytes buf).RouterDevFunc = buf.getD 9 0
    ∧ (PIR_TABLE_HEADER.ofBytes buf).PciExclusiveIrqs = buf.getD 10 0 + 256 * buf.getD 11 0
    ∧ (PIR_TABLE_HEADER.ofBytes buf).CompatibleRouter
        = buf.getD 12 0 + 256 * buf.getD 13 0 + 256 ^ 2 * buf.getD 14 0 + 256 ^ 3 * buf.getD 15 0
    ∧ (PIR_TABLE_HEADER.ofBytes buf).MiniportData
        = buf.getD 16 0 + 256 * buf.getD 17 0 + 256 ^ 2 * buf.getD 18 0 + 256 ^ 3 * buf.getD 19 0
    ∧ (PIR_TABLE_HEADER.ofBytes buf).Reserved
        = [buf.getD 20 0, buf.getD 21 0, buf.getD 22 0, buf.getD 23 0, buf.getD 24 0,
           buf.getD 25 0, buf.getD 26 0, buf.getD 27 0, buf.getD 28 0, buf.getD 29 0,
           buf.getD 30 0]
    ∧ (PIR_TABLE_HEADER.ofBytes buf).Checksum = buf.getD 31 0 := by
  have o0 : HdrField.Signature.offset = 0 := by decide
  have o1 : HdrField.Version.offset = 4 := by decide
  have o2 : HdrField.TableSize.offset = 6 := by decide
  have o3 : HdrField.RouterBus.offset = 8 := by decide
  have o4 : HdrField.RouterDevFunc.offset = 9 := by decide
  have o5 : HdrField.PciExclusiveIrqs.offset = 10 := by decide
  have o6 : HdrField.CompatibleRouter.offset = 12 := by decide
  have o7 : HdrField.MiniportData.offset = 16 := by decide
  have o8 : HdrField.Reserved.offset = 20 := by decide
  have o9 : HdrField.Checksum.offset = 31 := by decide
  simp only [PIR_TABLE_HEADER.ofBytes, HdrField.load, HdrField.size, readLE, o0, o1, o2, o3, o4,
    o5, o6, o7, o8, o9]
  refine ⟨by ring, by ring, by ring, by ring, by ring, by ring, by ring, by ring, ?_, by ring⟩
  simp [List.range, List.range.loop]

/-- C8. The header returned by `FindPirqTable` is the little-endian decoding of
the 32 bytes returned by the header read at the returned address, under the
packed layout: signature = bytes 0-3, version = bytes 4-5, table_size = bytes
6-7, router_bus = byte 8, router_dev_func = byte 9, pci_exclusive_irqs = bytes
10-11, compatible_router = bytes 12-15, miniport_data = bytes 16-19, reserved =
bytes 20-30, checksum = byte 31.  For a reader that returns the same bytes on
every read, these 32 bytes are the first 32 bytes of the buffer whose checksum
was verified. -/
theorem C8_header_is_decoded_bytes (P : Platform) (w : World)
    (o1 : Option (Option Nat)) (o2 : Option Nat) (o3 : Option PIR_TABLE_HEADER)
    (A : Nat) (H : PIR_TABLE_HEADER)
    (hS : (FindPirqTable P w o1 o2 o3).Status = EFI_SUCCESS)
    (hA : (FindPirqTable P w o1 o2 o3).OutTableAddr = some A)
    (hH : (FindPirqTable P w o1 o2 o3).OutHeaderCopy = some H) :
    ∃ pre sigEv hdrEv tblEv,
      (FindPirqTable P w o1 o2 o3).world.memReads = pre ++ [sigEv, hdrEv, tblEv]
      ∧ hdrEv.Address = A ∧ hdrEv.Count = 32 ∧ hdrEv.Data.length = 32
      ∧ (∀ x ∈ hdrEv.Data, x < 256)
      ∧ H.Signature = hdrEv.Data.getD 0 0 + 256 * hdrEv.Data.getD 1 0
          + 256 ^ 2 * hdrEv.Data.getD 2 0 + 256 ^ 3 * hdrEv.Data.getD 3 0
      ∧ H.Version = hdrEv.Data.getD 4 0 + 256 * hdrEv.Data.getD 5 0
      ∧ H.TableSize = hdrEv.Data.getD 6 0 + 256 * hdrEv.Data.getD 7 0
      ∧ H.RouterBus = hdrEv.Data.getD 8 0
      ∧ H.RouterDevFunc = hdrEv.Data.getD 9 0
      ∧ H.PciExclusiveIrqs = hdrEv.Data.getD 10 0 + 256 * hdrEv.Data.getD 11 0
      ∧ H.CompatibleRouter = hdrEv.Data.getD 12 0 + 256 * hdrEv.Data.getD 13 0
          + 256 ^ 2 * hdrEv.Data.getD 14 0 + 256 ^ 3 * hdrEv.Data.getD 15 0
      ∧ H.MiniportData = hdrEv.Data.getD 16 0 + 256 * hdrEv.Data.getD 17 0
          + 256 ^ 2 * hdrEv.Data.getD 18 0 + 256 ^ 3 * hdrEv.Data.getD 19 0
      ∧ H.Reserved = [hdrEv.Data.getD 20 0, hdrEv.Data.getD 21 0, hdrEv.Data.getD 22 0,
          hdrEv.Data.getD 23 0, hdrEv.Data.getD 24 0, hdrEv.Data.getD 25 0,
          hdrEv.Data.getD 26 0, hdrEv.Data.getD 27 0, hdrEv.Data.getD 28 0,
          hdrEv.Data.getD 29 0, hdrEv.Data.getD 30 0]
      ∧ H.Checksum = hdrEv.Data.getD 31 0
      ∧ tblEv.Address = A ∧ tblEv.Count = H.TableSize
      ∧ Checksum8 tblEv.Data H.TableSize = 0
      ∧ ((∀ n m a s t i, i < s → i < t →
            (P.MemRead n a s).2 i % 256 = (P.MemRead m a t).2 i % 256) →
          hdrEv.Data = tblEv.Data.take 32
          ∧ H = PIR_TABLE_HEADER.ofBytes (tblEv.Data.take 32)) := by
  obtain ⟨pre, n, _, hH', hh, hc, hlog⟩ := success_log P w o1 o2 o3 A H hS hA hH
  have hl := ofBytes_layout (evAt P (n + 1) A 32).Data
  rw [show PIR_TABLE_HEADER.ofBytes (evAt P (n + 1) A 32).Data = H from hH'.symm] at hl
  obtain ⟨l0, l1, l2, l3, l4, l5, l6, l7, l8, l9⟩ := hl
  refine ⟨pre, _, _, _, hlog, rfl, rfl, by simp [evAt, bufferOf_length], ?_,
    l0, l1, l2, l3, l4, l5, l6, l7, l8, l9, rfl, rfl, hH' ▸ hc.2, ?_⟩
  · intro x hx
    simp only [evAt, bufferOf, List.mem_map, List.mem_range] at hx
    obtain ⟨i, _, rfl⟩ := hx
    exact Nat.mod_lt _ (by decide)
  · intro hstable
    have hsz : 32 < H.TableSize := hH' ▸ hh.2.2.2.2.1
    have e : (evAt P (n + 1) A 32).Data = (evAt P (n + 2) A H.TableSize).Data.take 32 := by
      simp only [evAt, bufferOf]
      rw [← List.map_take, List.take_range, Nat.min_eq_left (by omega)]
      apply List.map_congr_left
      intro i hi
      exact hstable _ _ _ _ _ _ (List.mem_range.1 hi) (by have := List.mem_range.1 hi; omega)
    refine ⟨e, ?_⟩
    rw [← e]
    exact hH'

/-- C8 at a concrete input: the image with the example table at `0xF0000`. -/
theorem C8_header_is_decoded_bytes_witness :
    (FindPirqTable (imagePlatform imageA) World.fresh (some none) (some 0)
        (some zeroHeader)).OutHeaderCopy = some (PIR_TABLE_HEADER.ofBytes (exampleTable.take 32))
    ∧ ∃ pre sigEv hdrEv tblEv,
      (FindPirqTable (imagePlatform imageA) World.fresh (some none) (some 0)
        (some zeroHeader)).world.memReads = pre ++ [sigEv, hdrEv, tblEv]
      ∧ hdrEv.Address = 0xF0000 ∧ hdrEv.Count = 32
      ∧ hdrEv.Data = tblEv.Data.take 32 := by
  obtain ⟨pre, sigEv, hdrEv, tblEv, h1, h2, h3, _, _, _, _, _, _, _, _, _, _, _, _, _, _, _, h4⟩ :=
    C8_header_is_decoded_bytes (imagePlatform imageA) World.fresh (some none) (some 0)
      (some zeroHeader) 0xF0000 (PIR_TABLE_HEADER.ofBytes (exampleTable.take 32))
      run_imageA.1 run_imageA.2.1 run_imageA.2.2
  exact ⟨run_imageA.2.2, pre, sigEv, hdrEv, tblEv, h1, h2, h3,
    (h4 (fun _ _ _ _ _ _ _ _ => rfl)).1⟩

theorem SlotCount_eq (Hdr : PIR_TABLE_HEADER) (h32 : 32 ≤ Hdr.TableSize)
    (h16 : Hdr.TableSize < 2 ^ 16) :
    DumpSlotPage.SlotCount Hdr = (Hdr.TableSize - 32) / 16
      ∧ UefiMain.SlotCount Hdr = (Hdr.TableSize - 32) / 16 := by
  unfold DumpSlotPage.SlotCount UefiMain.SlotCount
  rw [sizeof_header_eq, sizeof_slot_eq]
  have e : (Hdr.TableSize + 2 ^ 64 - 32) % 2 ^ 64 = Hdr.TableSize - 32 := by
    have h3 : Hdr.TableSize + 2 ^ 64 - 32 = (Hdr.TableSize - 32) + 2 ^ 64 := by omega
    rw [h3, Nat.add_mod_right]
    apply Nat.mod_eq_of_lt
    have : (2 : Nat) ^ 16 < 2 ^ 64 := by norm_num
    omega
  rw [e]
  exact ⟨rfl, rfl⟩

/-- Returns of `DumpSlotPage` that do not depend on the platform. -/
theorem DumpSlotPage_early (P : Platform) (w : World) (h T : Nat) (Hdr : PIR_TABLE_HEADER)
    (i : Nat) :
    (Hdr.TableSize < 32 → DumpSlotPage P w (some h) T (some Hdr) i = (EFI_COMPROMISED_DATA, w))
    ∧ (32 ≤ Hdr.TableSize → DumpSlotPage.SlotCount Hdr = 0 →
        DumpSlotPage P w (some h) T (some Hdr) i = (EFI_NOT_FOUND, w))
    ∧ (32 ≤ Hdr.TableSize → DumpSlotPage.SlotCount Hdr ≠ 0 → DumpSlotPage.SlotCount Hdr ≤ i →
        DumpSlotPage P w (some h) T (some Hdr) i = (EFI_INVALID_PARAMETER, w)) := by
  refine ⟨?_, ?_, ?_⟩
  · intro hlt
    simp [DumpSlotPage, sizeof_header_eq, hlt]
  · intro hge h0
    have : ¬ Hdr.TableSize < 32 := by omega
    simp [DumpSlotPage, sizeof_header_eq, this, h0]
  · intro hge h0 hi
    have : ¬ Hdr.TableSize < 32 := by omega
    simp [DumpSlotPage, sizeof_header_eq, this, h0, hi]

/-- C9. For every header with `32 ≤ table_size` (a 16-bit value), the slot count
computed in `DumpSlotPage` and the slot count computed in `UefiMain` are both
`(table_size - 32) / 16`, rounded down; `DumpSlotPage` uses this count to turn
down every index at or above it.  For `table_size = 32` the count is 0 and for
`table_size = 48` it is 1. -/
theorem C9_slot_count_formula (Hdr : PIR_TABLE_HEADER) (h32 : 32 ≤ Hdr.TableSize)
    (h16 : Hdr.TableSize < 2 ^ 16) :
    DumpSlotPage.SlotCount Hdr = (Hdr.TableSize - 32) / 16
    ∧ UefiMain.SlotCount Hdr = (Hdr.TableSize - 32) / 16
    ∧ (∀ P w h T i, (Hdr.TableSize - 32) / 16 ≤ i →
        DumpSlotPage P w (some h) T (some Hdr) i
          = (if (Hdr.TableSize - 32) / 16 = 0 then EFI_NOT_FOUND else EFI_INVALID_PARAMETER, w))
    ∧ (DumpSlotPage.SlotCount emptyTableHeader = 0 ∧ UefiMain.SlotCount emptyTableHeader = 0)
    ∧ (DumpSlotPage.SlotCount oneSlotHeader = 1 ∧ UefiMain.SlotCount oneSlotHeader = 1) := by
  obtain ⟨e1, e2⟩ := SlotCount_eq Hdr h32 h16
  refine ⟨e1, e2, ?_, by decide, by decide⟩
  intro P w h T i hi
  obtain ⟨_, d2, d3⟩ := DumpSlotPage_early P w h T Hdr i
  by_cases h0 : (Hdr.TableSize - 32) / 16 = 0
  · rw [if_pos h0]
    exact d2 h32 (by rw [e1]; exact h0)
  · rw [if_neg h0]
    exact d3 h32 (by rw [e1]; exact h0) (by rw [e1]; exact hi)

/-- C9 at a concrete input: the header of the example table, `table_size = 48`. -/
theorem C9_slot_count_formula_witness :
    32 ≤ oneSlotHeader.TableSize ∧ oneSlotHeader.TableSize < 2 ^ 16
    ∧ DumpSlotPage.SlotCount oneSlotHeader = (48 - 32) / 16
    ∧ UefiMain.SlotCount oneSlotHeader = (48 - 32) / 16 :=
  have h := C9_slot_count_formula oneSlotHeader (by decide) (by decide)
  ⟨by decide, by decide, h.1, h.2.1⟩

/-- C10, counterexample. For a header with `table_size = 16` the slot count does
not come out as 0: `DumpSlotPage` returns `EFI_COMPROMISED_DATA` without
computing a count (with a count of 0, as for `table_size = 32`, it returns
`EFI_NOT_FOUND`), and the expression of `UefiMain` wraps around to
`2 ^ 60 - 1`. -/
theorem C10_slot_count_saturates_counterexample :
    shortHeader.TableSize ≤ 32
    ∧ (DumpSlotPage (imagePlatform imageA) World.fresh (some 1) 0xF0000 (some shortHeader) 0).1
        = EFI_COMPROMISED_DATA
    ∧ (DumpSlotPage (imagePlatform imageA) World.fresh (some 1) 0xF0000
        (some emptyTableHeader) 0).1 = EFI_NOT_FOUND
    ∧ EFI_COMPROMISED_DATA ≠ EFI_NOT_FOUND
    ∧ UefiMain.SlotCount shortHeader = 2 ^ 60 - 1
    ∧ ¬ (UefiMain.SlotCount shortHeader = 0) := by
  refine ⟨by decide, ?_, ?_, by decide, by decide, by decide⟩
  · exact congrArg Prod.fst
      ((DumpSlotPage_early (imagePlatform imageA) World.fresh 1 0xF0000 shortHeader 0).1
        (by decide))
  · exact congrArg Prod.fst
      ((DumpSlotPage_early (imagePlatform imageA) World.fresh 1 0xF0000 emptyTableHeader 0).2.1
        (by decide) (by decide))

/-- C10, amended. For every header with `table_size ≤ 32` no slot is decoded:
when `table_size = 32` both slot counts are 0 and `DumpSlotPage` returns
`EFI_NOT_FOUND`; when `table_size < 32` `DumpSlotPage` computes no slot count
and returns `EFI_COMPROMISED_DATA`; in both cases nothing is read or shown.
Such a header is never the one `FindPirqTable` returns, so `UefiMain` does not
evaluate `table_size - 32` on it. -/
theorem C10_small_table_sizes (Hdr : PIR_TABLE_HEADER) (hle : Hdr.TableSize ≤ 32) :
    (∀ P w h T i, DumpSlotPage P w (some h) T (some Hdr) i
        = (if Hdr.TableSize < 32 then EFI_COMPROMISED_DATA else EFI_NOT_FOUND, w))
    ∧ (Hdr.TableSize = 32 → DumpSlotPage.SlotCount Hdr = 0 ∧ UefiMain.SlotCount Hdr = 0)
    ∧ (∀ P w o1 o2 o3, (FindPirqTable P w o1 o2 o3).Status = EFI_SUCCESS →
        (FindPirqTable P w o1 o2 o3).OutHeaderCopy ≠ some Hdr) := by
  refine ⟨?_, ?_, ?_⟩
  · intro P w h T i
    obtain ⟨d1, d2, _⟩ := DumpSlotPage_early P w h T Hdr i
    by_cases hlt : Hdr.TableSize < 32
    · rw [if_pos hlt]
      exact d1 hlt
    · rw [if_neg hlt]
      have e : Hdr.TableSize = 32 := by omega
      refine d2 (by omega) ?_
      rw [(SlotCount_eq Hdr (by omega) (by rw [e]; norm_num)).1, e]
  · intro e
    obtain ⟨e1, e2⟩ := SlotCount_eq Hdr (by omega) (by rw [e]; norm_num)
    rw [e1, e2, e]
    exact ⟨rfl, rfl⟩
  · intro P w o1 o2 o3 hS hH
    obtain ⟨a, ha⟩ : ∃ a, (FindPirqTable P w o1 o2 o3).OutTableAddr = some a := by
      obtain ⟨h, a1, a2, a3, A1, w1, e1, e2, e3, _, _, _, _, ⟨_, _, _, hr⟩, _⟩ :=
        FindPirqTable_success_inv P w o1 o2 o3 hS
      rw [hr, e2]
      exact ⟨A1, rfl⟩
    obtain ⟨_, n, _, hH', hh, _, _⟩ := success_log P w o1 o2 o3 a Hdr hS ha hH
    have := hh.2.2.2.2.1
    rw [← hH'] at this
    omega

/-- C10 (amended) at a concrete input: the header with `table_size = 32`, and
the scan of the image that holds the example table. -/
theorem C10_small_table_sizes_witness :
    emptyTableHeader.TableSize ≤ 32
    ∧ DumpSlotPage (imagePlatform imageA) World.fresh (some 1) 0xF0000 (some emptyTableHeader) 0
        = (EFI_NOT_FOUND, World.fresh)
    ∧ (DumpSlotPage.SlotCount emptyTableHeader = 0 ∧ UefiMain.SlotCount emptyTableHeader = 0)
    ∧ (FindPirqTable (imagePlatform imageA) World.fresh (some none) (some 0)
        (some zeroHeader)).OutHeaderCopy ≠ some emptyTableHeader :=
  have h := C10_small_table_sizes emptyTableHeader (by decide)
  ⟨by decide, h.1 (imagePlatform imageA) World.fresh 1 0xF0000 0, h.2.1 rfl,
    h.2.2 (imagePlatform imageA) World.fresh (some none) (some 0) (some zeroHeader)
      run_imageA.1⟩

/-! ## Properties of the slot decoder and the navigator -/

theorem PrintIrqBitmap_fold (Bitmap : Nat) (m : List MemReadEvent) (a f : Nat)
    (c : List ConEvent) :
    ∀ (l : List Nat) (c0 : List ConEvent) (fl : Bool),
      l.foldl
        (fun (s : World × Bool) Irq =>
          if Bitmap &&& (1 <<< Irq) ≠ 0 then
            (Print (if s.2 = false then Print s.1 "," [] else s.1) "%u" [Irq], false)
          else s)
        (⟨m, a, f, c ++ c0⟩, fl)
      = (⟨m, a, f, c ++ (l.foldl
            (fun (s : World × Bool) Irq =>
              if Bitmap &&& (1 <<< Irq) ≠ 0 then
                (Print (if s.2 = false then Print s.1 "," [] else s.1) "%u" [Irq], false)
              else s)
            (⟨[], 0, 0, c0⟩, fl)).1.console⟩,
          (l.foldl
            (fun (s : World × Bool) Irq =>
              if Bitmap &&& (1 <<< Irq) ≠ 0 then
                (Print (if s.2 = false then Print s.1 "," [] else s.1) "%u" [Irq], false)
              else s)
            (⟨[], 0, 0, c0⟩, fl)).2) := by
  intro l
  induction l with
  | nil => intro c0 fl; rfl
  | cons x xs ih =>
    intro c0 fl
    simp only [List.foldl_cons]
    by_cases hb : Bitmap &&& (1 <<< x) ≠ 0
    · simp only [if_pos hb]
      cases fl
      · have e1 : Print (Print ⟨m, a, f, c ++ c0⟩ "," []) "%u" [x]
            = ⟨m, a, f, c ++ (c0 ++ [ConEvent.Print "," [], ConEvent.Print "%u" [x]])⟩ := by
          simp [Print]
        have e2 : Print (Print ⟨[], 0, 0, c0⟩ "," []) "%u" [x]
            = ⟨[], 0, 0, c0 ++ [ConEvent.Print "," [], ConEvent.Print "%u" [x]]⟩ := by
          simp [Print]
        simp only [if_true]
        rw [e1, e2]
        exact ih _ _
      · have e1 : Print (⟨m, a, f, c ++ c0⟩ : World) "%u" [x]
            = ⟨m, a, f, c ++ (c0 ++ [ConEvent.Print "%u" [x]])⟩ := by
          simp [Print]
        have e2 : Print (⟨[], 0, 0, c0⟩ : World) "%u" [x]
            = ⟨[], 0, 0, c0 ++ [ConEvent.Print "%u" [x]]⟩ := by
          simp [Print]
        simp only [Bool.true_eq_false, if_false]
        rw [e1, e2]
        exact ih _ _
    · simp only [if_neg hb]
      exact ih _ _

/-- `PrintIrqBitmap` only appends to the console. -/
theorem PrintIrqBitmap_eq (w : World) (Bitmap : Nat) :
    PrintIrqBitmap w Bitmap
      = ⟨w.memReads, w.allocs, w.frees, w.console ++ bitmapEvents Bitmap⟩ := by
  have h := PrintIrqBitmap_fold Bitmap w.memReads w.allocs w.frees w.console (List.range 16)
    [ConEvent.Print "0x%04x (" [Bitmap]] true
  have e1 : Print w "0x%04x (" [Bitmap]
      = ⟨w.memReads, w.allocs, w.frees, w.console ++ [ConEvent.Print "0x%04x (" [Bitmap]]⟩ := rfl
  have e2 : Print World.fresh "0x%04x (" [Bitmap]
      = ⟨[], 0, 0, [ConEvent.Print "0x%04x (" [Bitmap]]⟩ := rfl
  unfold bitmapEvents PrintIrqBitmap
  simp only []
  rw [e1, e2, h]
  simp [Print]

theorem Print_eq (w : World) (Format : String) (Args : List Nat) :
    Print w Format Args
      = ⟨w.memReads, w.allocs, w.frees, w.console ++ [ConEvent.Print Format Args]⟩ := rfl

/-- `DumpSlotPage` once the index has passed the range check: one read of 16
bytes, then either the reader's error status and nothing on the console, or
the slot screen. -/
theorem DumpSlotPage_in_range (P : Platform) (w : World) (h T : Nat) (Hdr : PIR_TABLE_HEADER)
    (i : Nat) (h32 : 32 ≤ Hdr.TableSize) (hi : i < DumpSlotPage.SlotCount Hdr) :
    DumpSlotPage P w (some h) T (some Hdr) i
      = if EFI_ERROR (evAt P w.memReads.length (slotAddr T i) 16).Status = true then
          ((evAt P w.memReads.length (slotAddr T i) 16).Status,
            ⟨w.memReads ++ [evAt P w.memReads.length (slotAddr T i) 16], w.allocs, w.frees,
              w.console⟩)
        else
          (EFI_SUCCESS,
            ⟨w.memReads ++ [evAt P w.memReads.length (slotAddr T i) 16], w.allocs, w.frees,
              w.console ++ slotScreen
                (PIR_SLOT_ENTRY.ofBytes (evAt P w.memReads.length (slotAddr T i) 16).Data) i
                (DumpSlotPage.SlotCount Hdr) T (slotAddr T i)⟩) := by
  have h1 : ¬ Hdr.TableSize < 32 := by omega
  have h2 : DumpSlotPage.SlotCount Hdr ≠ 0 := by omega
  have h3 : ¬ i ≥ DumpSlotPage.SlotCount Hdr := by omega
  unfold DumpSlotPage
  simp only [sizeof_header_eq, sizeof_slot_eq, h1, h2, h3, if_false, reduceCtorEq]
  rw [RbMemRead_some P w h _ 16 (by decide)]
  simp only [slotAddr, evAt]
  split
  · rfl
  · simp only [PrintIrqBitmap_eq, Print_eq, ClearScreen, slotScreen, DumpSlotPage.Dev,
      List.append_assoc,
      List.singleton_append, List.cons_append, List.nil_append]

theorem specSlotCount_eq (Hdr : PIR_TABLE_HEADER) (h32 : 32 ≤ Hdr.TableSize)
    (h16 : Hdr.TableSize < 2 ^ 16) :
    DumpSlotPage.SlotCount Hdr = specSlotCount Hdr
      ∧ UefiMain.SlotCount Hdr = specSlotCount Hdr :=
  SlotCount_eq Hdr h32 h16

/-- `DumpSlotPage` for an index at or above the slot count: nothing is read or
shown, and the status depends on the header. -/
theorem DumpSlotPage_rejects (P : Platform) (w : World) (h T : Nat) (Hdr : PIR_TABLE_HEADER)
    (i : Nat) (h16 : Hdr.TableSize < 2 ^ 16) (hi : specSlotCount Hdr ≤ i) :
    DumpSlotPage P w (some h) T (some Hdr) i
      = (if Hdr.TableSize < 32 then EFI_COMPROMISED_DATA
          else if specSlotCount Hdr = 0 then EFI_NOT_FOUND else EFI_INVALID_PARAMETER, w) := by
  obtain ⟨d1, d2, d3⟩ := DumpSlotPage_early P w h T Hdr i
  by_cases hlt : Hdr.TableSize < 32
  · rw [if_pos hlt]
    exact d1 hlt
  · rw [if_neg hlt]
    have e := (specSlotCount_eq Hdr (by omega) h16).1
    by_cases h0 : specSlotCount Hdr = 0
    · rw [if_pos h0]
      exact d2 (by omega) (by rw [e]; exact h0)
    · rw [if_neg h0]
      exact d3 (by omega) (by rw [e]; exact h0) (by rw [e]; exact hi)

/-- `DumpSlotPage` for an index below the slot count. -/
theorem DumpSlotPage_accepts (P : Platform) (w : World) (h T : Nat) (Hdr : PIR_TABLE_HEADER)
    (i : Nat) (h16 : Hdr.TableSize < 2 ^ 16) (hi : i < specSlotCount Hdr) :
    DumpSlotPage P w (some h) T (some Hdr) i
      = if EFI_ERROR (evAt P w.memReads.length (slotAddr T i) 16).Status = true then
          ((evAt P w.memReads.length (slotAddr T i) 16).Status,
            ⟨w.memReads ++ [evAt P w.memReads.length (slotAddr T i) 16], w.allocs, w.frees,
              w.console⟩)
        else
          (EFI_SUCCESS,
            ⟨w.memReads ++ [evAt P w.memReads.length (slotAddr T i) 16], w.allocs, w.frees,
              w.console ++ slotScreen
                (PIR_SLOT_ENTRY.ofBytes (evAt P w.memReads.length (slotAddr T i) 16).Data) i
                (specSlotCount Hdr) T (slotAddr T i)⟩) := by
  have h32 : 32 ≤ Hdr.TableSize := by
    unfold specSlotCount at hi
    by_contra hc
    have : Hdr.TableSize - 32 = 0 := by omega
    rw [this] at hi
    simp at hi
  have e := (specSlotCount_eq Hdr h32 h16).1
  rw [DumpSlotPage_in_range P w h T Hdr i h32 (by rw [e]; exact hi), e]

theorem COMPROMISED_DATA_ne_SUCCESS : EFI_COMPROMISED_DATA ≠ EFI_SUCCESS := by decide
theorem EFI_ERROR_COMPROMISED_DATA : EFI_ERROR EFI_COMPROMISED_DATA = true := by decide
theorem EFI_ERROR_INVALID_PARAMETER : EFI_ERROR EFI_INVALID_PARAMETER = true := by decide

/-- A status that is an error is not `EFI_SUCCESS`. -/
theorem ne_SUCCESS_of_error (s : EFI_STATUS) (h : EFI_ERROR s = true) : s ≠ EFI_SUCCESS := by
  rintro rfl
  exact absurd h (by decide)

/-- C11. For every header (non-`NULL`, with a 16-bit `table_size`), table
address and index, and a non-`NULL` reader that does not fail, `DumpSlotPage`
returns success if and only if the index is below the slot count
`(table_size - 32) / 16` (0 when `table_size ≤ 32`).  A request with an index at
or above the slot count returns an error status and is never decoded: no memory
is read and nothing is shown. -/
theorem C11_decode_succeeds_iff_in_range (P : Platform) (w : World) (h T : Nat)
    (Hdr : PIR_TABLE_HEADER) (i : Nat) (h16 : Hdr.TableSize < 2 ^ 16)
    (hok : ∀ n a s, EFI_ERROR (P.MemRead n a s).1 = false) :
    ((DumpSlotPage P w (some h) T (some Hdr) i).1 = EFI_SUCCESS ↔ i < specSlotCount Hdr)
    ∧ (specSlotCount Hdr ≤ i →
        EFI_ERROR (DumpSlotPage P w (some h) T (some Hdr) i).1 = true
        ∧ (DumpSlotPage P w (some h) T (some Hdr) i).2 = w) := by
  have hrej : specSlotCount Hdr ≤ i →
      EFI_ERROR (DumpSlotPage P w (some h) T (some Hdr) i).1 = true
      ∧ (DumpSlotPage P w (some h) T (some Hdr) i).2 = w := by
    intro hi
    rw [DumpSlotPage_rejects P w h T Hdr i h16 hi]
    refine ⟨?_, rfl⟩
    simp only []
    split_ifs
    · exact EFI_ERROR_COMPROMISED_DATA
    · exact EFI_ERROR_NOT_FOUND
    · exact EFI_ERROR_INVALID_PARAMETER
  refine ⟨⟨?_, ?_⟩, hrej⟩
  · intro hS
    by_contra hge
    exact ne_SUCCESS_of_error _ (hrej (by omega)).1 hS
  · intro hi
    rw [DumpSlotPage_accepts P w h T Hdr i h16 hi]
    have : EFI_ERROR (evAt P w.memReads.length (slotAddr T i) 16).Status = false := hok _ _ _
    rw [this]
    rfl

/-- C11 at a concrete input: the header of the example table (one slot) on the
platform that serves the example image; index 0 succeeds, index 1 does not. -/
theorem C11_decode_succeeds_iff_in_range_witness :
    (DumpSlotPage (imagePlatform imageA) World.fresh (some 1) 0xF0000 (some oneSlotHeader) 0).1
        = EFI_SUCCESS
    ∧ EFI_ERROR (DumpSlotPage (imagePlatform imageA) World.fresh (some 1) 0xF0000
        (some oneSlotHeader) 1).1 = true
    ∧ (DumpSlotPage (imagePlatform imageA) World.fresh (some 1) 0xF0000
        (some oneSlotHeader) 1).2 = World.fresh :=
  have h0 := C11_decode_succeeds_iff_in_range (imagePlatform imageA) World.fresh 1 0xF0000
    oneSlotHeader 0 (by decide) (fun _ _ _ => rfl)
  have h1 := C11_decode_succeeds_iff_in_range (imagePlatform imageA) World.fresh 1 0xF0000
    oneSlotHeader 1 (by decide) (fun _ _ _ => rfl)
  ⟨h0.1.2 (by decide), (h1.2 (by decide)).1, (h1.2 (by decide)).2⟩

/-- C12, counterexample. Indices at or above the slot count are not all turned
down with one status: the header with `table_size = 32` (no slot) gets
`EFI_NOT_FOUND`, the one-slot header with index 1 gets `EFI_INVALID_PARAMETER`,
and the header with `table_size = 16` gets `EFI_COMPROMISED_DATA`. -/
theorem C12_one_out_of_range_status_counterexample :
    (specSlotCount emptyTableHeader ≤ 0 ∧ specSlotCount oneSlotHeader ≤ 1
      ∧ specSlotCount shortHeader ≤ 0)
    ∧ (DumpSlotPage (imagePlatform imageA) World.fresh (some 1) 0xF0000
        (some emptyTableHeader) 0).1 = EFI_NOT_FOUND
    ∧ (DumpSlotPage (imagePlatform imageA) World.fresh (some 1) 0xF0000
        (some oneSlotHeader) 1).1 = EFI_INVALID_PARAMETER
    ∧ (DumpSlotPage (imagePlatform imageA) World.fresh (some 1) 0xF0000
        (some shortHeader) 0).1 = EFI_COMPROMISED_DATA
    ∧ (DumpSlotPage (imagePlatform imageA) World.fresh (some 1) 0xF0000
        (some emptyTableHeader) 0).1
      ≠ (DumpSlotPage (imagePlatform imageA) World.fresh (some 1) 0xF0000
        (some oneSlotHeader) 1).1 := by
  have e1 := DumpSlotPage_rejects (imagePlatform imageA) World.fresh 1 0xF0000
    emptyTableHeader 0 (by decide) (by decide)
  have e2 := DumpSlotPage_rejects (imagePlatform imageA) World.fresh 1 0xF0000
    oneSlotHeader 1 (by decide) (by decide)
  have e3 := DumpSlotPage_rejects (imagePlatform imageA) World.fresh 1 0xF0000
    shortHeader 0 (by decide) (by decide)
  refine ⟨by decide, ?_, ?_, ?_, ?_⟩
  · rw [e1]; decide
  · rw [e2]; decide
  · rw [e3]; decide
  · rw [e1, e2]; decide

/-- C12, amended. For every header (non-`NULL`, with a 16-bit `table_size`) and
every index at or above the slot count, `DumpSlotPage` fails with an error
status, reading and showing nothing; the status depends on the header:
`EFI_COMPROMISED_DATA` when `table_size < 32`, `EFI_NOT_FOUND` when the slot
count is 0 with `table_size ≥ 32`, and `EFI_INVALID_PARAMETER` when the slot
count is at least 1. -/
theorem C12_out_of_range_statuses (P : Platform) (w : World) (h T : Nat)
    (Hdr : PIR_TABLE_HEADER) (i : Nat) (h16 : Hdr.TableSize < 2 ^ 16)
    (hi : specSlotCount Hdr ≤ i) :
    (DumpSlotPage P w (some h) T (some Hdr) i).2 = w
    ∧ EFI_ERROR (DumpSlotPage P w (some h) T (some Hdr) i).1 = true
    ∧ (Hdr.TableSize < 32 →
        (DumpSlotPage P w (some h) T (some Hdr) i).1 = EFI_COMPROMISED_DATA)
    ∧ (32 ≤ Hdr.TableSize → specSlotCount Hdr = 0 →
        (DumpSlotPage P w (some h) T (some Hdr) i).1 = EFI_NOT_FOUND)
    ∧ (1 ≤ specSlotCount Hdr →
        (DumpSlotPage P w (some h) T (some Hdr) i).1 = EFI_INVALID_PARAMETER) := by
  rw [DumpSlotPage_rejects P w h T Hdr i h16 hi]
  refine ⟨rfl, ?_, ?_, ?_, ?_⟩
  · simp only []
    split_ifs
    · exact EFI_ERROR_COMPROMISED_DATA
    · exact EFI_ERROR_NOT_FOUND
    · exact EFI_ERROR_INVALID_PARAMETER
  · intro hlt
    simp only [if_pos hlt]
  · intro hge h0
    have : ¬ Hdr.TableSize < 32 := by omega
    simp only [if_neg this, if_pos h0]
  · intro h1
    have h0 : ¬ specSlotCount Hdr = 0 := by omega
    have : ¬ Hdr.TableSize < 32 := by
      intro hlt
      apply h0
      unfold specSlotCount
      have : Hdr.TableSize - 32 = 0 := by omega
      rw [this]
    simp only [if_neg this, if_neg h0]

/-- C12 (amended) at a concrete input: the one-slot header and index 1. -/
theorem C12_out_of_range_statuses_witness :
    specSlotCount oneSlotHeader ≤ 1 ∧ 1 ≤ specSlotCount oneSlotHeader
    ∧ DumpSlotPage (imagePlatform imageA) World.fresh (some 1) 0xF0000 (some oneSlotHeader) 1
        = (EFI_INVALID_PARAMETER, World.fresh) :=
  have h := C12_out_of_range_statuses (imagePlatform imageA) World.fresh 1 0xF0000
    oneSlotHeader 1 (by decide) (by decide)
  ⟨by decide, by decide, Prod.ext (h.2.2.2.2 (by decide)) h.1⟩

theorem slotAddr_eq (T i : Nat) (hfit : T + 32 + 16 * i < 2 ^ 64) :
    slotAddr T i = T + 32 + 16 * i := by
  unfold slotAddr
  have e : (i * 16) % 2 ^ 64 = 16 * i := by
    rw [Nat.mod_eq_of_lt (by omega)]
    omega
  rw [e, Nat.mod_eq_of_lt hfit]

theorem specSlotCount_bound (Hdr : PIR_TABLE_HEADER) (i : Nat) (hi : i < specSlotCount Hdr) :
    32 + 16 * i + 16 ≤ Hdr.TableSize := by
  unfold specSlotCount at hi
  omega

/-- C13. For every table address `T`, header (non-`NULL`, with a 16-bit
`table_size`) and index `i` below the slot count, `DumpSlotPage` issues exactly
one memory read, of exactly 16 bytes; its address is `T + 32 + 16 * i` computed
in `UINT64`, which is `T + 32 + 16 * i` itself whenever the table lies inside
the 64-bit address space. -/
theorem C13_one_read_of_sixteen_bytes (P : Platform) (w : World) (h T : Nat)
    (Hdr : PIR_TABLE_HEADER) (i : Nat) (h16 : Hdr.TableSize < 2 ^ 16)
    (hi : i < specSlotCount Hdr) :
    ∃ ev, (DumpSlotPage P w (some h) T (some Hdr) i).2.memReads = w.memReads ++ [ev]
      ∧ ev.Count = 16 ∧ ev.Data.length = 16
      ∧ ev.Address = (T + 32 + 16 * i) % 2 ^ 64
      ∧ (T + Hdr.TableSize ≤ 2 ^ 64 → ev.Address = T + 32 + 16 * i) := by
  have hb := specSlotCount_bound Hdr i hi
  refine ⟨evAt P w.memReads.length (slotAddr T i) 16, ?_, rfl, ?_, ?_, ?_⟩
  · rw [DumpSlotPage_accepts P w h T Hdr i h16 hi]
    split_ifs <;> rfl
  · simp [evAt, bufferOf_length]
  · show slotAddr T i = _
    unfold slotAddr
    have e : (i * 16) % 2 ^ 64 = 16 * i := by
      rw [Nat.mod_eq_of_lt (by omega)]
      omega
    rw [e]
  · intro hfit
    exact slotAddr_eq T i (by omega)

/-- C13 at a concrete input: slot 0 of the example table at `0xF0000`; the read
is at `0xF0020`. -/
theorem C13_one_read_of_sixteen_bytes_witness :
    ∃ ev, (DumpSlotPage (imagePlatform imageA) World.fresh (some 1) 0xF0000
        (some oneSlotHeader) 0).2.memReads = [ev]
      ∧ ev.Count = 16 ∧ ev.Address = 0xF0020 := by
  obtain ⟨ev, h1, h2, _, _, h5⟩ := C13_one_read_of_sixteen_bytes (imagePlatform imageA)
    World.fresh 1 0xF0000 oneSlotHeader 0 (by decide) (by decide)
  exact ⟨ev, h1, h2, h5 (by decide)⟩

/-- Field layout of a slot object: each field as the little-endian value of its
bytes. -/
theorem slot_layout (buf : List Nat) :
    PIR_SLOT_ENTRY.ofBytes buf
      = ⟨buf.getD 0 0, buf.getD 1 0,
         buf.getD 2 0, buf.getD 3 0 + 256 * buf.getD 4 0,
         buf.getD 5 0, buf.getD 6 0 + 256 * buf.getD 7 0,
         buf.getD 8 0, buf.getD 9 0 + 256 * buf.getD 10 0,
         buf.getD 11 0, buf.getD 12 0 + 256 * buf.getD 13 0,
         buf.getD 14 0, buf.getD 15 0⟩ := by
  have o0 : SlotField.PciBusNumber.offset = 0 := by decide
  have o1 : SlotField.PciDeviceNumber.offset = 1 := by decide
  have o2 : SlotField.LinkValueIntA.offset = 2 := by decide
  have o3 : SlotField.IrqBitmapIntA.offset = 3 := by decide
  have o4 : SlotField.LinkValueIntB.offset = 5 := by decide
  have o5 : SlotField.IrqBitmapIntB.offset = 6 := by decide
  have o6 : SlotField.LinkValueIntC.offset = 8 := by decide
  have o7 : SlotField.IrqBitmapIntC.offset = 9 := by decide
  have o8 : SlotField.LinkValueIntD.offset = 11 := by decide
  have o9 : SlotField.IrqBitmapIntD.offset = 12 := by decide
  have o10 : SlotField.SlotNumber.offset = 14 := by decide
  have o11 : SlotField.Reserved.offset = 15 := by decide
  simp only [PIR_SLOT_ENTRY.ofBytes, SlotField.load, SlotField.size, readLE, o0, o1, o2, o3, o4,
    o5, o6, o7, o8, o9, o10, o11, Nat.mul_zero, Nat.add_zero]

/-- A successful `DumpSlotPage`: the index was in range, one read of 16 bytes was
issued and the slot decoded from its bytes was shown. -/
theorem DumpSlotPage_success_inv (P : Platform) (w : World) (h T : Nat) (Hdr : PIR_TABLE_HEADER)
    (i : Nat) (hS : (DumpSlotPage P w (some h) T (some Hdr) i).1 = EFI_SUCCESS) :
    32 ≤ Hdr.TableSize ∧ i < DumpSlotPage.SlotCount Hdr
      ∧ EFI_ERROR (evAt P w.memReads.length (slotAddr T i) 16).Status = false
      ∧ DumpSlotPage P w (some h) T (some Hdr) i
        = (EFI_SUCCESS,
            ⟨w.memReads ++ [evAt P w.memReads.length (slotAddr T i) 16], w.allocs, w.frees,
              w.console ++ slotScreen
                (PIR_SLOT_ENTRY.ofBytes (evAt P w.memReads.length (slotAddr T i) 16).Data) i
                (DumpSlotPage.SlotCount Hdr) T (slotAddr T i)⟩) := by
  obtain ⟨d1, d2, d3⟩ := DumpSlotPage_early P w h T Hdr i
  by_cases h32 : Hdr.TableSize < 32
  · rw [d1 h32] at hS
    exact absurd hS COMPROMISED_DATA_ne_SUCCESS
  by_cases h0 : DumpSlotPage.SlotCount Hdr = 0
  · rw [d2 (by omega) h0] at hS
    exact absurd hS NOT_FOUND_ne_SUCCESS
  by_cases hi : DumpSlotPage.SlotCount Hdr ≤ i
  · rw [d3 (by omega) h0 hi] at hS
    exact absurd hS INVALID_PARAMETER_ne_SUCCESS
  have hr := DumpSlotPage_in_range P w h T Hdr i (by omega) (by omega)
  by_cases he : EFI_ERROR (evAt P w.memReads.length (slotAddr T i) 16).Status = true
  · rw [hr, if_pos he] at hS
    exact absurd hS (ne_SUCCESS_of_error _ he)
  · rw [if_neg he] at hr
    exact ⟨by omega, by omega, by simpa using he, hr⟩

/-- C14. When `DumpSlotPage` succeeds it has read 16 bytes and shows the slot
record unpacked from them by the packed little-endian layout: pci_bus_number =
byte 0, pci_device_number = byte 1, link values of lines A, B, C, D = bytes 2,
5, 8, 11, their IRQ bitmaps = the 16-bit values at bytes 3-4, 6-7, 9-10, 12-13,
slot_number = byte 14, reserved = byte 15.  The declared field widths add up to
16 bytes, the size of the record. -/
theorem C14_slot_layout (P : Platform) (w : World) (h T : Nat) (Hdr : PIR_TABLE_HEADER)
    (i : Nat) (hS : (DumpSlotPage P w (some h) T (some Hdr) i).1 = EFI_SUCCESS) :
    (∃ ev, (DumpSlotPage P w (some h) T (some Hdr) i).2.memReads = w.memReads ++ [ev]
      ∧ ev.Count = 16 ∧ ev.Data.length = 16 ∧ (∀ x ∈ ev.Data, x < 256)
      ∧ (DumpSlotPage P w (some h) T (some Hdr) i).2.console
          = w.console ++ slotScreen
              ⟨ev.Data.getD 0 0, ev.Data.getD 1 0,
               ev.Data.getD 2 0, ev.Data.getD 3 0 + 256 * ev.Data.getD 4 0,
               ev.Data.getD 5 0, ev.Data.getD 6 0 + 256 * ev.Data.getD 7 0,
               ev.Data.getD 8 0, ev.Data.getD 9 0 + 256 * ev.Data.getD 10 0,
               ev.Data.getD 11 0, ev.Data.getD 12 0 + 256 * ev.Data.getD 13 0,
               ev.Data.getD 14 0, ev.Data.getD 15 0⟩
              i (DumpSlotPage.SlotCount Hdr) T ev.Address)
    ∧ (∀ buf, PIR_SLOT_ENTRY.ofBytes buf
        = ⟨buf.getD 0 0, buf.getD 1 0,
           buf.getD 2 0, buf.getD 3 0 + 256 * buf.getD 4 0,
           buf.getD 5 0, buf.getD 6 0 + 256 * buf.getD 7 0,
           buf.getD 8 0, buf.getD 9 0 + 256 * buf.getD 10 0,
           buf.getD 11 0, buf.getD 12 0 + 256 * buf.getD 13 0,
           buf.getD 14 0, buf.getD 15 0⟩)
    ∧ (SlotField.declared.map SlotField.size).sum = 16
    ∧ sizeof_PIR_SLOT_ENTRY = 16 := by
  obtain ⟨_, _, _, hr⟩ := DumpSlotPage_success_inv P w h T Hdr i hS
  refine ⟨⟨evAt P w.memReads.length (slotAddr T i) 16, ?_, rfl, ?_, ?_, ?_⟩, slot_layout,
    by decide, by decide⟩
  · rw [hr]
  · simp [evAt, bufferOf_length]
  · intro x hx
    simp only [evAt, bufferOf, List.mem_map, List.mem_range] at hx
    obtain ⟨k, _, rfl⟩ := hx
    exact Nat.mod_lt _ (by decide)
  · rw [hr, slot_layout]
    rfl

/-- C14 at a concrete input: slot 0 of the example table. -/
theorem C14_slot_layout_witness :
    (DumpSlotPage (imagePlatform imageA) World.fresh (some 1) 0xF0000 (some oneSlotHeader) 0).1
        = EFI_SUCCESS
    ∧ PIR_SLOT_ENTRY.ofBytes (exampleTable.drop 32)
        = ⟨0x00, 0x18, 0x60, 0xDEB8, 0x61, 0xDEB8, 0x62, 0xDEB8, 0x63, 0xDEB8, 0x01, 0x00⟩ :=
  have hS : (DumpSlotPage (imagePlatform imageA) World.fresh (some 1) 0xF0000
      (some oneSlotHeader) 0).1 = EFI_SUCCESS := by decide
  have h := C14_slot_layout (imagePlatform imageA) World.fresh 1 0xF0000 oneSlotHeader 0 hS
  ⟨hS, (h.2.1 (exampleTable.drop 32)).trans (by decide)⟩

set_option maxRecDepth 100000 in
theorem dev_bits : ∀ b, b < 256 → ∀ f, f < 8 →
    (((b &&& 0xF8) ||| f) >>> 3) % 256 = (b >>> 3) % 256 ∧ (b >>> 3) % 256 = b >>> 3
      ∧ b >>> 3 ≤ 31 := by
  decide

/-- C15. When `DumpSlotPage` succeeds, the device number it shows is the
`pci_device_number` byte (byte 1 of the 16 bytes read) shifted right by 3, a
value in 0..31; changing bits [2:0] of that byte does not change it.  For the
one-slot example table (`table_size = 48`, `pci_device_number = 0x18`) index 0
shows device number 3 and index 1 fails without reading or showing anything. -/
theorem C15_device_number (P : Platform) (w : World) (h T : Nat) (Hdr : PIR_TABLE_HEADER)
    (i : Nat) (hS : (DumpSlotPage P w (some h) T (some Hdr) i).1 = EFI_SUCCESS) :
    (∃ ev, (DumpSlotPage P w (some h) T (some Hdr) i).2.memReads = w.memReads ++ [ev]
      ∧ ConEvent.Print "PCI Device Number       = 0x%02x\n" [ev.Data.getD 1 0 >>> 3]
          ∈ (DumpSlotPage P w (some h) T (some Hdr) i).2.console
      ∧ DumpSlotPage.Dev (PIR_SLOT_ENTRY.ofBytes ev.Data) = ev.Data.getD 1 0 >>> 3
      ∧ ev.Data.getD 1 0 >>> 3 ≤ 31)
    ∧ (∀ (Slot : PIR_SLOT_ENTRY) (f : Nat), Slot.PciDeviceNumber < 256 → f < 8 →
        DumpSlotPage.Dev { Slot with PciDeviceNumber := (Slot.PciDeviceNumber &&& 0xF8) ||| f }
          = DumpSlotPage.Dev Slot
        ∧ DumpSlotPage.Dev Slot = Slot.PciDeviceNumber >>> 3
        ∧ DumpSlotPage.Dev Slot ≤ 31)
    ∧ ((DumpSlotPage (imagePlatform imageA) World.fresh (some 1) 0xF0000
          (some oneSlotHeader) 0).1 = EFI_SUCCESS
      ∧ ConEvent.Print "PCI Device Number       = 0x%02x\n" [3]
          ∈ (DumpSlotPage (imagePlatform imageA) World.fresh (some 1) 0xF0000
              (some oneSlotHeader) 0).2.console
      ∧ DumpSlotPage (imagePlatform imageA) World.fresh (some 1) 0xF0000
          (some oneSlotHeader) 1 = (EFI_INVALID_PARAMETER, World.fresh)) := by
  have hdev : ∀ (Slot : PIR_SLOT_ENTRY) (f : Nat), Slot.PciDeviceNumber < 256 → f < 8 →
        DumpSlotPage.Dev { Slot with PciDeviceNumber := (Slot.PciDeviceNumber &&& 0xF8) ||| f }
          = DumpSlotPage.Dev Slot
        ∧ DumpSlotPage.Dev Slot = Slot.PciDeviceNumber >>> 3
        ∧ DumpSlotPage.Dev Slot ≤ 31 := by
    intro Slot f hb hf
    obtain ⟨e1, e2, e3⟩ := dev_bits Slot.PciDeviceNumber hb f hf
    unfold DumpSlotPage.Dev
    exact ⟨e1, e2, by rw [e2]; exact e3⟩
  have hscreen : ∀ (P : Platform) (w : World) (h T : Nat) (Hdr : PIR_TABLE_HEADER) (i : Nat),
      (DumpSlotPage P w (some h) T (some Hdr) i).1 = EFI_SUCCESS →
      ∃ ev, (DumpSlotPage P w (some h) T (some Hdr) i).2.memReads = w.memReads ++ [ev]
        ∧ ConEvent.Print "PCI Device Number       = 0x%02x\n" [ev.Data.getD 1 0 >>> 3]
            ∈ (DumpSlotPage P w (some h) T (some Hdr) i).2.console
        ∧ DumpSlotPage.Dev (PIR_SLOT_ENTRY.ofBytes ev.Data) = ev.Data.getD 1 0 >>> 3
        ∧ ev.Data.getD 1 0 >>> 3 ≤ 31 := by
    intro P w h T Hdr i hS
    obtain ⟨_, _, _, hr⟩ := DumpSlotPage_success_inv P w h T Hdr i hS
    have hb : (evAt P w.memReads.length (slotAddr T i) 16).Data.getD 1 0 < 256 := by
      simp only [evAt]
      rw [bufferOf_getD]
      split_ifs
      · exact Nat.mod_lt _ (by decide)
      · decide
    have hd := hdev (PIR_SLOT_ENTRY.ofBytes (evAt P w.memReads.length (slotAddr T i) 16).Data) 0
      (by rw [slot_layout]; exact hb) (by decide)
    have hpd : (PIR_SLOT_ENTRY.ofBytes (evAt P w.memReads.length (slotAddr T i) 16).Data).PciDeviceNumber
        = (evAt P w.memReads.length (slotAddr T i) 16).Data.getD 1 0 := by
      rw [slot_layout]
    refine ⟨evAt P w.memReads.length (slotAddr T i) 16, by rw [hr], ?_, ?_, ?_⟩
    · rw [hr]
      simp only [List.mem_append]
      right
      rw [← hpd, ← hd.2.1]
      simp [slotScreen]
    · rw [hd.2.1, hpd]
    · rw [← hpd, ← hd.2.1]
      exact hd.2.2
  have hS0 : (DumpSlotPage (imagePlatform imageA) World.fresh (some 1) 0xF0000
      (some oneSlotHeader) 0).1 = EFI_SUCCESS := by decide
  refine ⟨hscreen P w h T Hdr i hS, hdev, hS0, ?_, ?_⟩
  · obtain ⟨ev, h1, h2, _, _⟩ := hscreen (imagePlatform imageA) World.fresh 1 0xF0000
      oneSlotHeader 0 hS0
    have hev : (DumpSlotPage (imagePlatform imageA) World.fresh (some 1) 0xF0000
        (some oneSlotHeader) 0).2.memReads
        = [⟨0xF0020, 16, EFI_SUCCESS, exampleTable.drop 32⟩] := by decide
    rw [hev] at h1
    have : ev = ⟨0xF0020, 16, EFI_SUCCESS, exampleTable.drop 32⟩ := by
      simpa [World.fresh] using h1.symm
    rw [this] at h2
    exact h2
  · rw [DumpSlotPage_rejects (imagePlatform imageA) World.fresh 1 0xF0000 oneSlotHeader 1
      (by decide) (by decide)]
    decide

/-- C15 at a concrete input: slot 0 of the example table on the platform that
serves the example image. -/
theorem C15_device_number_witness :
    (DumpSlotPage (imagePlatform imageA) World.fresh (some 1) 0xF0000 (some oneSlotHeader) 0).1
        = EFI_SUCCESS
    ∧ ∃ ev, (DumpSlotPage (imagePlatform imageA) World.fresh (some 1) 0xF0000
        (some oneSlotHeader) 0).2.memReads = World.fresh.memReads ++ [ev]
      ∧ ev.Data.getD 1 0 >>> 3 ≤ 31 :=
  have hS : (DumpSlotPage (imagePlatform imageA) World.fresh (some 1) 0xF0000
      (some oneSlotHeader) 0).1 = EFI_SUCCESS := by decide
  have h := (C15_device_number (imagePlatform imageA) World.fresh 1 0xF0000 oneSlotHeader 0 hS).1
  ⟨hS, h.choose, h.choose_spec.1, h.choose_spec.2.2.2⟩

set_option maxRecDepth 100000 in
theorem devfunc_bits :
    (∀ d, d < 32 → ∀ f, f < 8 →
      (packDevFunc d f >>> 3) % 256 = d ∧ (packDevFunc d f &&& 0x07) % 256 = f
        ∧ packDevFunc d f < 256)
    ∧ (∀ b, b < 256 → packDevFunc (b >>> 3) (b &&& 7) = b ∧ b >>> 3 < 32 ∧ b &&& 7 < 8) := by
  decide

/-- What `DumpHeaderScreen` shows includes the router device and function
numbers it computed. -/
theorem DumpHeaderScreen_shows (w : World) (T : Nat) (Hdr : PIR_TABLE_HEADER) :
    ConEvent.Print "PCI Interrupt Router\x27s Device Number= 0x%02x\n"
        [DumpHeaderScreen.RouterDev Hdr] ∈ (DumpHeaderScreen w T (some Hdr)).console
    ∧ ConEvent.Print "PCI Interrupt Router\x27s Function Number= 0x%02x\n"
        [DumpHeaderScreen.RouterFunc Hdr] ∈ (DumpHeaderScreen w T (some Hdr)).console := by
  simp [DumpHeaderScreen, Print_eq, ClearScreen, List.range, List.range.loop]

/-- C16. `router_dev_func` round trip: for every device `d` in 0..31 and function
`f` in 0..7, a header whose `router_dev_func` byte is `(d << 3) | f` is shown by
`DumpHeaderScreen` with device number `d` and function number `f`; and every
byte `b` is the packing of its own device and function parts,
`((b >> 3) << 3) | (b & 7) = b`.  Device 5, function 2 packs to `0x2A`, which
unpacks to (5, 2). -/
theorem C16_router_dev_func_round_trip (w : World) (T : Nat) (Hdr : PIR_TABLE_HEADER)
    (d f : Nat) (hd : d ≤ 31) (hf : f ≤ 7) :
    (DumpHeaderScreen.RouterDev { Hdr with RouterDevFunc := packDevFunc d f } = d
      ∧ DumpHeaderScreen.RouterFunc { Hdr with RouterDevFunc := packDevFunc d f } = f)
    ∧ (ConEvent.Print "PCI Interrupt Router\x27s Device Number= 0x%02x\n" [d]
          ∈ (DumpHeaderScreen w T (some { Hdr with RouterDevFunc := packDevFunc d f })).console
      ∧ ConEvent.Print "PCI Interrupt Router\x27s Function Number= 0x%02x\n" [f]
          ∈ (DumpHeaderScreen w T (some { Hdr with RouterDevFunc := packDevFunc d f })).console)
    ∧ (∀ b, b < 256 → ((b >>> 3) <<< 3) ||| (b &&& 7) = b
        ∧ packDevFunc (DumpHeaderScreen.RouterDev { Hdr with RouterDevFunc := b })
            (DumpHeaderScreen.RouterFunc { Hdr with RouterDevFunc := b }) = b)
    ∧ (packDevFunc 5 2 = 0x2A
        ∧ DumpHeaderScreen.RouterDev { Hdr with RouterDevFunc := 0x2A } = 5
        ∧ DumpHeaderScreen.RouterFunc { Hdr with RouterDevFunc := 0x2A } = 2) := by
  obtain ⟨h1, h2⟩ := devfunc_bits
  obtain ⟨e1, e2, _⟩ := h1 d (by omega) f (by omega)
  have hdev : DumpHeaderScreen.RouterDev { Hdr with RouterDevFunc := packDevFunc d f } = d := e1
  have hfun : DumpHeaderScreen.RouterFunc { Hdr with RouterDevFunc := packDevFunc d f } = f :=
    e2
  have hs := DumpHeaderScreen_shows w T { Hdr with RouterDevFunc := packDevFunc d f }
  rw [hdev, hfun] at hs
  have x1 : DumpHeaderScreen.RouterDev { Hdr with RouterDevFunc := 0x2A } = 5 :=
    show (0x2A >>> 3) % 256 = 5 by decide
  have x2 : DumpHeaderScreen.RouterFunc { Hdr with RouterDevFunc := 0x2A } = 2 :=
    show (0x2A &&& 0x07) % 256 = 2 by decide
  refine ⟨⟨hdev, hfun⟩, hs, ?_, by decide, x1, x2⟩
  intro b hb
  obtain ⟨e3, _, _⟩ := h2 b hb
  refine ⟨e3, ?_⟩
  obtain ⟨e4, e5, _⟩ := h1 (b >>> 3) (h2 b hb).2.1 (b &&& 7) (h2 b hb).2.2
  show packDevFunc ((b >>> 3) % 256) ((b &&& 0x07) % 256) = b
  rw [Nat.mod_eq_of_lt (by have := (h2 b hb).2.1; omega),
    Nat.mod_eq_of_lt (by have := (h2 b hb).2.2; omega)]
  exact e3

/-- C16 at a concrete input: device 5, function 2. -/
theorem C16_router_dev_func_round_trip_witness :
    packDevFunc 5 2 = 0x2A
    ∧ DumpHeaderScreen.RouterDev { zeroHeader with RouterDevFunc := packDevFunc 5 2 } = 5
    ∧ DumpHeaderScreen.RouterFunc { zeroHeader with RouterDevFunc := packDevFunc 5 2 } = 2 :=
  have h := C16_router_dev_func_round_trip World.fresh 0xF0000 zeroHeader 5 2 (by decide)
    (by decide)
  ⟨h.2.2.2.1, h.1.1, h.1.2⟩

theorem step_right (P : Platform) (RbIo : Option Nat) (T : Nat) (Hdr : PIR_TABLE_HEADER)
    (c : Nav) (Key : EFI_INPUT_KEY) (sc i : Nat)
    (hst : c.state = NavState.SlotBrowsing sc i) (hK : Key.ScanCode = SCAN_RIGHT) :
    UefiMain.step P RbIo T Hdr c Key
      = ⟨NavState.SlotBrowsing sc (if (i + 1) % 2 ^ 64 < sc then (i + 1) % 2 ^ 64 else i),
          (DumpSlotPage P c.world RbIo T (some Hdr)
            (if (i + 1) % 2 ^ 64 < sc then (i + 1) % 2 ^ 64 else i)).2,
          c.calls ++ [⟨if (i + 1) % 2 ^ 64 < sc then (i + 1) % 2 ^ 64 else i,
            (DumpSlotPage P c.world RbIo T (some Hdr)
              (if (i + 1) % 2 ^ 64 < sc then (i + 1) % 2 ^ 64 else i)).1⟩]⟩ := by
  have e1 : IsEsc (some Key) = false := by
    simp only [IsEsc, hK]
    decide
  have e2 : IsRight (some Key) = true := by
    simp only [IsRight, hK]
    decide
  unfold UefiMain.step
  rw [hst]
  simp only [e1, e2, if_true, Bool.false_eq_true, if_false]

theorem step_left (P : Platform) (RbIo : Option Nat) (T : Nat) (Hdr : PIR_TABLE_HEADER)
    (c : Nav) (Key : EFI_INPUT_KEY) (sc i : Nat)
    (hst : c.state = NavState.SlotBrowsing sc i) (hK : Key.ScanCode = SCAN_LEFT) :
    UefiMain.step P RbIo T Hdr c Key
      = ⟨NavState.SlotBrowsing sc (if i > 0 then i - 1 else i),
          (DumpSlotPage P c.world RbIo T (some Hdr) (if i > 0 then i - 1 else i)).2,
          c.calls ++ [⟨if i > 0 then i - 1 else i,
            (DumpSlotPage P c.world RbIo T (some Hdr) (if i > 0 then i - 1 else i)).1⟩]⟩ := by
  have e1 : IsEsc (some Key) = false := by
    simp only [IsEsc, hK]
    decide
  have e2 : IsRight (some Key) = false := by
    simp only [IsRight, hK]
    decide
  have e3 : IsLeft (some Key) = true := by
    simp only [IsLeft, hK]
    decide
  unfold UefiMain.step
  rw [hst]
  simp only [e1, e2, e3, if_true, Bool.false_eq_true, if_false]

/-- C17. In `SlotBrowsing` with slot count `sc ≥ 1` and index `i < sc`, the Right
arrow leads to `SlotBrowsing` with index `min (i + 1) (sc - 1)`: one more than
before, except at the last slot, where it stays `sc - 1`; the index does not
decrease, so it never wraps to 0, and it stays below `sc`. -/
theorem C17_next_clamps (P : Platform) (RbIo : Option Nat) (T : Nat) (Hdr : PIR_TABLE_HEADER)
    (c : Nav) (Key : EFI_INPUT_KEY) (sc i : Nat)
    (hst : c.state = NavState.SlotBrowsing sc i) (hsc : sc < 2 ^ 64) (hi : i < sc)
    (hK : Key.ScanCode = SCAN_RIGHT) :
    ∃ j, (UefiMain.step P RbIo T Hdr c Key).state = NavState.SlotBrowsing sc j
      ∧ j = min (i + 1) (sc - 1)
      ∧ (i + 1 < sc → j = i + 1) ∧ (i + 1 = sc → j = i)
      ∧ i ≤ j ∧ j < sc := by
  rw [step_right P RbIo T Hdr c Key sc i hst hK]
  have e : (i + 1) % 2 ^ 64 = i + 1 := Nat.mod_eq_of_lt (by omega)
  rw [e]
  refine ⟨_, rfl, ?_, ?_, ?_, ?_, ?_⟩
  · split_ifs <;> omega
  · intro h; rw [if_pos h]
  · intro h; rw [if_neg (by omega)]
  · split_ifs <;> omega
  · split_ifs <;> omega

/-- C17 at a concrete input: two slots; from index 0 the Right arrow leads to
index 1, and from index 1 it stays at index 1. -/
theorem C17_next_clamps_witness :
    (∃ j, (UefiMain.step (imagePlatform imageA) (some 1) 0xF0000 twoSlotHeader
        ⟨NavState.SlotBrowsing 2 0, World.fresh, []⟩ keyRight).state = NavState.SlotBrowsing 2 j
      ∧ j = 1)
    ∧ (∃ j, (UefiMain.step (imagePlatform imageA) (some 1) 0xF0000 twoSlotHeader
        ⟨NavState.SlotBrowsing 2 1, World.fresh, []⟩ keyRight).state = NavState.SlotBrowsing 2 j
      ∧ j = 1) := by
  obtain ⟨j, h1, h2, _⟩ := C17_next_clamps (imagePlatform imageA) (some 1) 0xF0000
    twoSlotHeader ⟨NavState.SlotBrowsing 2 0, World.fresh, []⟩ keyRight 2 0 rfl (by decide)
    (by decide) rfl
  obtain ⟨k, h3, h4, _⟩ := C17_next_clamps (imagePlatform imageA) (some 1) 0xF0000
    twoSlotHeader ⟨NavState.SlotBrowsing 2 1, World.fresh, []⟩ keyRight 2 1 rfl (by decide)
    (by decide) rfl
  exact ⟨⟨j, h1, h2⟩, ⟨k, h3, h4⟩⟩

/-- C18. In `SlotBrowsing` with index `i`, the Left arrow leads to `SlotBrowsing`
with index `max (i - 1) 0`: one less than before, except at index 0, where it
stays 0; the index does not grow, so it never wraps to the last slot. -/
theorem C18_previous_clamps (P : Platform) (RbIo : Option Nat) (T : Nat)
    (Hdr : PIR_TABLE_HEADER) (c : Nav) (Key : EFI_INPUT_KEY) (sc i : Nat)
    (hst : c.state = NavState.SlotBrowsing sc i) (hK : Key.ScanCode = SCAN_LEFT) :
    ∃ j, (UefiMain.step P RbIo T Hdr c Key).state = NavState.SlotBrowsing sc j
      ∧ j = max (i - 1) 0
      ∧ (0 < i → j + 1 = i) ∧ (i = 0 → j = 0)
      ∧ j ≤ i := by
  rw [step_left P RbIo T Hdr c Key sc i hst hK]
  refine ⟨_, rfl, ?_, ?_, ?_, ?_⟩
  · split_ifs <;> omega
  · intro h; rw [if_pos h]; omega
  · intro h; rw [if_neg (by omega)]; exact h
  · split_ifs <;> omega

/-- C18 at a concrete input: two slots; from index 1 the Left arrow leads to
index 0, and from index 0 it stays at index 0. -/
theorem C18_previous_clamps_witness :
    (∃ j, (UefiMain.step (imagePlatform imageA) (some 1) 0xF0000 twoSlotHeader
        ⟨NavState.SlotBrowsing 2 1, World.fresh, []⟩ keyLeft).state = NavState.SlotBrowsing 2 j
      ∧ j + 1 = 1)
    ∧ (∃ j, (UefiMain.step (imagePlatform imageA) (some 1) 0xF0000 twoSlotHeader
        ⟨NavState.SlotBrowsing 2 0, World.fresh, []⟩ keyLeft).state = NavState.SlotBrowsing 2 j
      ∧ j = 0) := by
  obtain ⟨j, h1, _, h2, _⟩ := C18_previous_clamps (imagePlatform imageA) (some 1) 0xF0000
    twoSlotHeader ⟨NavState.SlotBrowsing 2 1, World.fresh, []⟩ keyLeft 2 1 rfl rfl
  obtain ⟨k, h3, _, _, h4, _⟩ := C18_previous_clamps (imagePlatform imageA) (some 1) 0xF0000
    twoSlotHeader ⟨NavState.SlotBrowsing 2 0, World.fresh, []⟩ keyLeft 2 0 rfl rfl
  exact ⟨⟨j, h1, h2 (by decide)⟩, ⟨k, h3, h4 rfl⟩⟩

/-- The index invariant of the navigator, for a configuration. -/
theorem step_index_inv (P : Platform) (RbIo : Option Nat) (T : Nat) (Hdr : PIR_TABLE_HEADER)
    (c : Nav) (Key : EFI_INPUT_KEY)
    (h1 : ∀ sc cur, c.state = NavState.SlotBrowsing sc cur →
      sc = UefiMain.SlotCount Hdr ∧ cur < sc)
    (h2 : ∀ call ∈ c.calls, call.SlotIndex < UefiMain.SlotCount Hdr) :
    (∀ sc cur, (UefiMain.step P RbIo T Hdr c Key).state = NavState.SlotBrowsing sc cur →
      sc = UefiMain.SlotCount Hdr ∧ cur < sc)
    ∧ (∀ call ∈ (UefiMain.step P RbIo T Hdr c Key).calls,
        call.SlotIndex < UefiMain.SlotCount Hdr) := by
  unfold UefiMain.step
  cases hst : c.state with
  | Terminated s =>
    simp only []
    exact ⟨fun sc cur h => h1 sc cur (hst ▸ h), h2⟩
  | HeaderView =>
    simp only []
    exact ⟨fun sc cur h => (by cases h), h2⟩
  | NoSlotNotice =>
    simp only []
    exact ⟨fun sc cur h => (by cases h), h2⟩
  | MainMenu =>
    simp only []
    by_cases a : IsEsc (some Key) = true
    · rw [if_pos a]
      exact ⟨fun sc cur h => (by cases h), h2⟩
    rw [if_neg a]
    by_cases b : Key.UnicodeChar = 0x31
    · rw [if_pos b]
      exact ⟨fun sc cur h => (by cases h), h2⟩
    rw [if_neg b]
    by_cases d : Key.UnicodeChar = 0x32
    swap
    · rw [if_neg d]
      exact ⟨fun sc cur h => h1 sc cur (hst ▸ h), h2⟩
    rw [if_pos d]
    by_cases e : UefiMain.SlotCount Hdr = 0
    · rw [if_pos e]
      exact ⟨fun sc cur h => (by cases h), h2⟩
    rw [if_neg e]
    refine ⟨fun sc cur h => ?_, fun call hc => ?_⟩
    · simp only [NavState.SlotBrowsing.injEq] at h
      obtain ⟨rfl, rfl⟩ := h
      exact ⟨rfl, Nat.pos_of_ne_zero e⟩
    · simp only [List.mem_append, List.mem_singleton] at hc
      rcases hc with hc | rfl
      · exact h2 call hc
      · exact Nat.pos_of_ne_zero e
  | SlotBrowsing sc cur =>
    obtain ⟨hsc, hcur⟩ := h1 sc cur hst
    simp only []
    by_cases a : IsEsc (some Key) = true
    · rw [if_pos a]
      exact ⟨fun sc cur h => (by cases h), h2⟩
    rw [if_neg a]
    by_cases b : IsRight (some Key) = true
    · rw [if_pos b]
      have hlt : (if (cur + 1) % 2 ^ 64 < sc then (cur + 1) % 2 ^ 64 else cur) < sc := by
        split_ifs with g
        · exact g
        · exact hcur
      refine ⟨fun sc' cur' h => ?_, fun call hc => ?_⟩
      · simp only [NavState.SlotBrowsing.injEq] at h
        obtain ⟨rfl, rfl⟩ := h
        exact ⟨hsc, hlt⟩
      · simp only [List.mem_append, List.mem_singleton] at hc
        rcases hc with hc | rfl
        · exact h2 call hc
        · rw [← hsc]; exact hlt
    rw [if_neg b]
    by_cases d : IsLeft (some Key) = true
    · rw [if_pos d]
      have hlt : (if cur > 0 then cur - 1 else cur) < sc := by
        split_ifs <;> omega
      refine ⟨fun sc' cur' h => ?_, fun call hc => ?_⟩
      · simp only [NavState.SlotBrowsing.injEq] at h
        obtain ⟨rfl, rfl⟩ := h
        exact ⟨hsc, hlt⟩
      · simp only [List.mem_append, List.mem_singleton] at hc
        rcases hc with hc | rfl
        · exact h2 call hc
        · rw [← hsc]; exact hlt
    rw [if_neg d]
    exact ⟨fun sc' cur' h => h1 sc' cur' (hst ▸ h), h2⟩

theorem run_index_inv (P : Platform) (RbIo : Option Nat) (T : Nat) (Hdr : PIR_TABLE_HEADER)
    (keys : List EFI_INPUT_KEY) :
    ∀ (c : Nav),
      (∀ sc cur, c.state = NavState.SlotBrowsing sc cur →
        sc = UefiMain.SlotCount Hdr ∧ cur < sc) →
      (∀ call ∈ c.calls, call.SlotIndex < UefiMain.SlotCount Hdr) →
      (∀ sc cur, (UefiMain.run P RbIo T Hdr c keys).state = NavState.SlotBrowsing sc cur →
        sc = UefiMain.SlotCount Hdr ∧ cur < sc)
      ∧ (∀ call ∈ (UefiMain.run P RbIo T Hdr c keys).calls,
          call.SlotIndex < UefiMain.SlotCount Hdr) := by
  induction keys with
  | nil => intro c h1 h2; exact ⟨h1, h2⟩
  | cons k ks ih =>
    intro c h1 h2
    obtain ⟨g1, g2⟩ := step_index_inv P RbIo T Hdr c k h1 h2
    exact ih (UefiMain.step P RbIo T Hdr c k) g1 g2

/-- The statuses `FindPirqTable` can return. -/
theorem FindPirqTable_status_cases (P : Platform) (w : World) (o1 : Option (Option Nat))
    (o2 : Option Nat) (o3 : Option PIR_TABLE_HEADER) :
    (FindPirqTable P w o1 o2 o3).Status = EFI_SUCCESS
      ∨ EFI_ERROR (FindPirqTable P w o1 o2 o3).Status = true := by
  unfold FindPirqTable
  by_cases hn : o1 = none ∨ o2 = none ∨ o3 = none
  · rw [if_pos hn]
    exact Or.inr EFI_ERROR_INVALID_PARAMETER
  rw [if_neg hn]
  simp only []
  by_cases hl : EFI_ERROR P.LocateProtocol.1 = true ∨ P.LocateProtocol.2 = none
  · rw [if_pos hl]
    exact Or.inr EFI_ERROR_NOT_FOUND
  rw [if_neg hl]
  push_neg at hl
  obtain ⟨h, hh⟩ := Option.ne_none_iff_exists'.1 hl.2
  rw [hh]
  rcases loop_status P h o1 o2 o3 _ 0xF0000 w rfl with e | e | e
  · exact Or.inl e
  · rw [e]; exact Or.inr EFI_ERROR_NOT_FOUND
  · rw [e.1]; exact Or.inr EFI_ERROR_OUT_OF_RESOURCES

theorem hdrAt_TableSize_lt (P : Platform) (n A : Nat) : (hdrAt P n A).TableSize < 2 ^ 16 := by
  unfold hdrAt
  rw [ofBytes_TableSize]
  simp only [evAt]
  rw [bufferOf_getD, bufferOf_getD, if_pos (by decide), if_pos (by decide)]
  have h1 : (P.MemRead n A 32).2 6 % 256 < 256 := Nat.mod_lt _ (by decide)
  have h2 : (P.MemRead n A 32).2 7 % 256 < 256 := Nat.mod_lt _ (by decide)
  omega

/-- What a successful `FindPirqTable` leaves in the local variables of
`UefiMain`: a protocol pointer that is not `NULL`, a candidate address, and a
header whose `TableSize` is a multiple of 16 above 32. -/
theorem FindPirqTable_success_outputs (P : Platform) (w : World) (a1 : Option Nat) (a2 : Nat)
    (a3 : PIR_TABLE_HEADER)
    (hS : (FindPirqTable P w (some a1) (some a2) (some a3)).Status = EFI_SUCCESS) :
    ∃ h A H, (FindPirqTable P w (some a1) (some a2) (some a3)).OutRbIo = some (some h)
      ∧ (FindPirqTable P w (some a1) (some a2) (some a3)).OutTableAddr = some A
      ∧ (FindPirqTable P w (some a1) (some a2) (some a3)).OutHeaderCopy = some H
      ∧ IsCandidate A ∧ 32 < H.TableSize ∧ H.TableSize % 16 = 0 ∧ H.TableSize < 2 ^ 16 := by
  obtain ⟨h, b1, b2, b3, A, w1, _, _, _, _, _, hc, _, ⟨c1, _, _, hr⟩, _⟩ :=
    FindPirqTable_success_inv P w (some a1) (some a2) (some a3) hS
  rw [hr]
  exact ⟨h, A, _, rfl, rfl, rfl, hc, c1.2.2.2.2.1, c1.2.2.2.2.2, hdrAt_TableSize_lt _ _ _⟩

/-- `UefiMain` after a successful `FindPirqTable` is the menu loop on the values
it returned; otherwise it has returned with no call of `DumpSlotPage`. -/
theorem UefiMain_cases (P : Platform) (w : World) (Hdr0 : PIR_TABLE_HEADER)
    (keys : List EFI_INPUT_KEY) :
    (∃ h A H, (FindPirqTable P w (some none) (some 0) (some Hdr0)).Status = EFI_SUCCESS
      ∧ (FindPirqTable P w (some none) (some 0) (some Hdr0)).OutTableAddr = some A
      ∧ (FindPirqTable P w (some none) (some 0) (some Hdr0)).OutHeaderCopy = some H
      ∧ IsCandidate A ∧ 32 < H.TableSize ∧ H.TableSize % 16 = 0 ∧ H.TableSize < 2 ^ 16
      ∧ UefiMain P w Hdr0 keys
          = UefiMain.run P (some h) A H
              ⟨NavState.MainMenu,
                ShowMainMenu (FindPirqTable P w (some none) (some 0) (some Hdr0)).world, []⟩
              keys)
    ∨ (EFI_ERROR (FindPirqTable P w (some none) (some 0) (some Hdr0)).Status = true
      ∧ (UefiMain P w Hdr0 keys).state
          = NavState.Terminated (FindPirqTable P w (some none) (some 0) (some Hdr0)).Status
      ∧ (UefiMain P w Hdr0 keys).calls = []) := by
  rcases FindPirqTable_status_cases P w (some none) (some 0) (some Hdr0) with hS | hE
  · left
    obtain ⟨h, A, H, e1, e2, e3, r1, r2, r3, r4⟩ :=
      FindPirqTable_success_outputs P w none 0 Hdr0 hS
    refine ⟨h, A, H, hS, e2, e3, r1, r2, r3, r4, ?_⟩
    unfold UefiMain
    simp only [hS, EFI_ERROR_SUCCESS, Bool.false_eq_true, if_false, e1, e2, e3, Option.getD_some]
  · right
    refine ⟨hE, ?_, ?_⟩
    · unfold UefiMain
      simp only [hE, if_true]
    · unfold UefiMain
      simp only [hE, if_true]

/-- C19. Navigator index invariant.  For the menu loop started in `MainMenu`
with any header and fed any sequence of keys: whenever it is in `SlotBrowsing`
the slot count held there is the one computed from the header and the current
index is below it, and every call of `DumpSlotPage` made so far passed an index
below the slot count `DumpSlotPage` itself computes, so its range check never
fires.  For the whole program: every call of `DumpSlotPage` has an index below
the slot count of the header `FindPirqTable` returned, and with that index
`DumpSlotPage` goes on to read the slot. -/
theorem C19_navigator_index_invariant (P : Platform) (RbIo : Option Nat) (T : Nat)
    (Hdr : PIR_TABLE_HEADER) (w : World) (keys : List EFI_INPUT_KEY) :
    (∀ sc cur,
        (UefiMain.run P RbIo T Hdr ⟨NavState.MainMenu, w, []⟩ keys).state
          = NavState.SlotBrowsing sc cur →
        sc = UefiMain.SlotCount Hdr ∧ cur < sc)
    ∧ (∀ call ∈ (UefiMain.run P RbIo T Hdr ⟨NavState.MainMenu, w, []⟩ keys).calls,
        call.SlotIndex < DumpSlotPage.SlotCount Hdr)
    ∧ (∀ Hdr0 sc cur, (UefiMain P w Hdr0 keys).state = NavState.SlotBrowsing sc cur →
        ∃ H, (FindPirqTable P w (some none) (some 0) (some Hdr0)).OutHeaderCopy = some H
          ∧ sc = specSlotCount H ∧ cur < sc)
    ∧ (∀ Hdr0, ∀ call ∈ (UefiMain P w Hdr0 keys).calls,
        ∃ h A H, (FindPirqTable P w (some none) (some 0) (some Hdr0)).OutTableAddr = some A
          ∧ (FindPirqTable P w (some none) (some 0) (some Hdr0)).OutHeaderCopy = some H
          ∧ call.SlotIndex < specSlotCount H
          ∧ ∀ w1, ∃ ev, (DumpSlotPage P w1 (some h) A (some H) call.SlotIndex).2.memReads
              = w1.memReads ++ [ev] ∧ ev.Count = 16) := by
  have hinv := run_index_inv P RbIo T Hdr keys ⟨NavState.MainMenu, w, []⟩
    (fun sc cur h => by cases h) (fun call hc => by cases hc)
  refine ⟨hinv.1, hinv.2, ?_, ?_⟩
  · intro Hdr0 sc cur hst
    rcases UefiMain_cases P w Hdr0 keys with ⟨h, A, H, _, _, e3, _, r2, _, r4, hu⟩ | ⟨_, ht, _⟩
    · rw [hu] at hst
      obtain ⟨g1, g2⟩ := (run_index_inv P (some h) A H keys _
        (fun sc cur h => by cases h) (fun call hc => by cases hc)).1 sc cur hst
      have e := (specSlotCount_eq H (by omega) r4).2
      exact ⟨H, e3, by rw [g1, e], g2⟩
    · rw [ht] at hst
      cases hst
  · intro Hdr0 call hc
    rcases UefiMain_cases P w Hdr0 keys with ⟨h, A, H, _, e2, e3, _, r2, _, r4, hu⟩ | ⟨_, _, hn⟩
    · rw [hu] at hc
      have g := (run_index_inv P (some h) A H keys _
        (fun sc cur h => by cases h) (fun call hc => by cases hc)).2 call hc
      have e := (specSlotCount_eq H (by omega) r4).2
      rw [e] at g
      refine ⟨h, A, H, e2, e3, g, fun w1 => ?_⟩
      refine ⟨evAt P w1.memReads.length (slotAddr A call.SlotIndex) 16, ?_, rfl⟩
      rw [DumpSlotPage_accepts P w1 h A H call.SlotIndex r4 g]
      split_ifs <;> rfl
    · rw [hn] at hc
      cases hc

/-- C19 at a concrete input: the one-slot example header, keys `2` then Right
arrow; the loop is in `SlotBrowsing` with index 0 and both calls passed index 0. -/
theorem C19_navigator_index_invariant_witness :
    (UefiMain.run (imagePlatform imageA) (some 1) 0xF0000 oneSlotHeader
        ⟨NavState.MainMenu, World.fresh, []⟩ [keyTwo, keyRight]).state
      = NavState.SlotBrowsing 1 0
    ∧ (1 = UefiMain.SlotCount oneSlotHeader ∧ 0 < 1)
    ∧ (⟨0, EFI_SUCCESS⟩ : SlotCall)
        ∈ (UefiMain.run (imagePlatform imageA) (some 1) 0xF0000 oneSlotHeader
            ⟨NavState.MainMenu, World.fresh, []⟩ [keyTwo, keyRight]).calls
    ∧ (⟨0, EFI_SUCCESS⟩ : SlotCall).SlotIndex < DumpSlotPage.SlotCount oneSlotHeader :=
  have h := C19_navigator_index_invariant (imagePlatform imageA) (some 1) 0xF0000
    oneSlotHeader World.fresh [keyTwo, keyRight]
  have hst : (UefiMain.run (imagePlatform imageA) (some 1) 0xF0000 oneSlotHeader
      ⟨NavState.MainMenu, World.fresh, []⟩ [keyTwo, keyRight]).state
      = NavState.SlotBrowsing 1 0 := by decide
  have hc : (⟨0, EFI_SUCCESS⟩ : SlotCall)
      ∈ (UefiMain.run (imagePlatform imageA) (some 1) 0xF0000 oneSlotHeader
          ⟨NavState.MainMenu, World.fresh, []⟩ [keyTwo, keyRight]).calls := by decide
  ⟨hst, h.1 1 0 hst, hc, h.2.1 _ hc⟩

theorem ShowMainMenu_memReads (w : World) : (ShowMainMenu w).memReads = w.memReads := rfl

theorem step_browse (P : Platform) (RbIo : Option Nat) (T : Nat) (Hdr : PIR_TABLE_HEADER)
    (c : Nav) (Key : EFI_INPUT_KEY) (hst : c.state = NavState.MainMenu)
    (hE : Key.ScanCode ≠ SCAN_ESC) (hK : Key.UnicodeChar = 0x32) :
    UefiMain.step P RbIo T Hdr c Key
      = if UefiMain.SlotCount Hdr = 0 then
          ⟨NavState.NoSlotNotice,
            WaitAnyKey.prompt (Print c.world "\nNo slot entry found.\n" []), c.calls⟩
        else
          ⟨NavState.SlotBrowsing (UefiMain.SlotCount Hdr) 0,
            (DumpSlotPage P c.world RbIo T (some Hdr) 0).2,
            c.calls ++ [⟨0, (DumpSlotPage P c.world RbIo T (some Hdr) 0).1⟩]⟩ := by
  have e1 : IsEsc (some Key) = false := by
    simp only [IsEsc]
    exact decide_eq_false hE
  have e2 : ¬ Key.UnicodeChar = 0x31 := by rw [hK]; decide
  unfold UefiMain.step
  rw [hst]
  simp only [e1, Bool.false_eq_true, if_false, if_neg e2, if_pos hK]

theorem step_notice (P : Platform) (RbIo : Option Nat) (T : Nat) (Hdr : PIR_TABLE_HEADER)
    (c : Nav) (Key : EFI_INPUT_KEY) (hst : c.state = NavState.NoSlotNotice) :
    UefiMain.step P RbIo T Hdr c Key
      = ⟨NavState.MainMenu, ShowMainMenu (WaitAnyKey.resume c.world), c.calls⟩ := by
  unfold UefiMain.step
  rw [hst]

/-- C20. From `MainMenu`, the key `2` (not carrying the ESC scan code), for a
header with `32 ≤ table_size < 2 ^ 16`: when the slot count is 0, the notice
that there is no slot entry is shown, no slot is decoded (no call of
`DumpSlotPage`, no memory read), and the key pressed next, whichever it is,
brings back `MainMenu`; otherwise `UefiMain` enters `SlotBrowsing` with current
index exactly 0 and calls `DumpSlotPage` once, for slot 0, which reads the 16
bytes of that slot. -/
theorem C20_browse_slots_from_menu (P : Platform) (h T : Nat) (Hdr : PIR_TABLE_HEADER)
    (c : Nav) (Key : EFI_INPUT_KEY) (hst : c.state = NavState.MainMenu)
    (hE : Key.ScanCode ≠ SCAN_ESC) (hK : Key.UnicodeChar = 0x32)
    (h32 : 32 ≤ Hdr.TableSize) (h16 : Hdr.TableSize < 2 ^ 16) :
    (UefiMain.step P (some h) T Hdr c Key).state
        = (if specSlotCount Hdr = 0 then NavState.NoSlotNotice
            else NavState.SlotBrowsing (specSlotCount Hdr) 0)
    ∧ (UefiMain.step P (some h) T Hdr c Key).calls
        = (if specSlotCount Hdr = 0 then c.calls
            else c.calls ++ [⟨0, (DumpSlotPage P c.world (some h) T (some Hdr) 0).1⟩])
    ∧ (UefiMain.step P (some h) T Hdr c Key).world.memReads
        = (if specSlotCount Hdr = 0 then c.world.memReads
            else c.world.memReads ++ [evAt P c.world.memReads.length (slotAddr T 0) 16])
    ∧ (specSlotCount Hdr = 0 →
        ConEvent.Print "\nNo slot entry found.\n" []
          ∈ (UefiMain.step P (some h) T Hdr c Key).world.console
        ∧ ∀ Key2,
            (UefiMain.step P (some h) T Hdr (UefiMain.step P (some h) T Hdr c Key) Key2).state
              = NavState.MainMenu
            ∧ (UefiMain.step P (some h) T Hdr (UefiMain.step P (some h) T Hdr c Key) Key2).calls
              = c.calls
            ∧ (UefiMain.step P (some h) T Hdr
                (UefiMain.step P (some h) T Hdr c Key) Key2).world.memReads
              = c.world.memReads) := by
  have e := (specSlotCount_eq Hdr h32 h16).2
  have hs := step_browse P (some h) T Hdr c Key hst hE hK
  rw [e] at hs
  by_cases h0 : specSlotCount Hdr = 0
  · rw [if_pos h0] at hs
    simp only [if_pos h0]
    rw [hs]
    refine ⟨rfl, rfl, rfl, fun _ => ⟨?_, fun Key2 => ?_⟩⟩
    · simp [WaitAnyKey.prompt, Print_eq]
    · have hn := step_notice P (some h) T Hdr
        ⟨NavState.NoSlotNotice,
          WaitAnyKey.prompt (Print c.world "\nNo slot entry found.\n" []), c.calls⟩ Key2 rfl
      rw [hn]
      refine ⟨?_, ?_, ?_⟩
      · rfl
      · rfl
      · simp only [ShowMainMenu_memReads, WaitAnyKey.resume, WaitAnyKey.prompt, Print_eq]
  · rw [if_neg h0] at hs
    simp only [if_neg h0]
    rw [hs]
    refine ⟨rfl, rfl, ?_, fun h0' => absurd h0' h0⟩
    simp only []
    rw [DumpSlotPage_accepts P c.world h T Hdr 0 h16 (by omega)]
    split_ifs <;> rfl

/-- C20 at concrete inputs: with the header of `table_size = 32` the key `2`
leads to the notice and then back to `MainMenu` with no call; with the one-slot
header it leads to `SlotBrowsing` with index 0 and one call for slot 0. -/
theorem C20_browse_slots_from_menu_witness :
    ((UefiMain.step (imagePlatform imageA) (some 1) 0xF0000 emptyTableHeader
        ⟨NavState.MainMenu, World.fresh, []⟩ keyTwo).state = NavState.NoSlotNotice
      ∧ (UefiMain.step (imagePlatform imageA) (some 1) 0xF0000 emptyTableHeader
          (UefiMain.step (imagePlatform imageA) (some 1) 0xF0000 emptyTableHeader
            ⟨NavState.MainMenu, World.fresh, []⟩ keyTwo) keyLeft).state = NavState.MainMenu)
    ∧ ((UefiMain.step (imagePlatform imageA) (some 1) 0xF0000 oneSlotHeader
        ⟨NavState.MainMenu, World.fresh, []⟩ keyTwo).state = NavState.SlotBrowsing 1 0
      ∧ (UefiMain.step (imagePlatform imageA) (some 1) 0xF0000 oneSlotHeader
        ⟨NavState.MainMenu, World.fresh, []⟩ keyTwo).world.memReads
          = [evAt (imagePlatform imageA) 0 0xF0020 16]) :=
  have h0 := C20_browse_slots_from_menu (imagePlatform imageA) 1 0xF0000 emptyTableHeader
    ⟨NavState.MainMenu, World.fresh, []⟩ keyTwo rfl (by decide) rfl (by decide) (by decide)
  have h1 := C20_browse_slots_from_menu (imagePlatform imageA) 1 0xF0000 oneSlotHeader
    ⟨NavState.MainMenu, World.fresh, []⟩ keyTwo rfl (by decide) rfl (by decide) (by decide)
  ⟨⟨h0.1.trans (by decide), ((h0.2.2.2 (by decide)).2 keyLeft).1⟩,
    ⟨h1.1.trans (by decide), h1.2.2.1.trans (by decide)⟩⟩

theorem step_of_terminated (P : Platform) (RbIo : Option Nat) (T : Nat) (Hdr : PIR_TABLE_HEADER)
    (c : Nav) (Key : EFI_INPUT_KEY) (s : EFI_STATUS) (hst : c.state = NavState.Terminated s) :
    UefiMain.step P RbIo T Hdr c Key = c := by
  unfold UefiMain.step
  rw [hst]

theorem step_header_view (P : Platform) (RbIo : Option Nat) (T : Nat) (Hdr : PIR_TABLE_HEADER)
    (c : Nav) (Key : EFI_INPUT_KEY) (hst : c.state = NavState.HeaderView) :
    UefiMain.step P RbIo T Hdr c Key
      = ⟨NavState.MainMenu, ShowMainMenu (WaitAnyKey.resume c.world), c.calls⟩ := by
  unfold UefiMain.step
  rw [hst]

theorem step_menu_esc (P : Platform) (RbIo : Option Nat) (T : Nat) (Hdr : PIR_TABLE_HEADER)
    (c : Nav) (Key : EFI_INPUT_KEY) (hst : c.state = NavState.MainMenu)
    (hK : Key.ScanCode = SCAN_ESC) :
    UefiMain.step P RbIo T Hdr c Key
      = ⟨NavState.Terminated EFI_SUCCESS, ClearScreen c.world, c.calls⟩ := by
  have e1 : IsEsc (some Key) = true := by
    simp only [IsEsc]
    exact decide_eq_true hK
  unfold UefiMain.step
  rw [hst]
  simp only [e1, if_true]

theorem step_browse_esc (P : Platform) (RbIo : Option Nat) (T : Nat) (Hdr : PIR_TABLE_HEADER)
    (c : Nav) (Key : EFI_INPUT_KEY) (sc i : Nat) (hst : c.state = NavState.SlotBrowsing sc i)
    (hK : Key.ScanCode = SCAN_ESC) :
    UefiMain.step P RbIo T Hdr c Key = ⟨NavState.MainMenu, ShowMainMenu c.world, c.calls⟩ := by
  have e1 : IsEsc (some Key) = true := by
    simp only [IsEsc]
    exact decide_eq_true hK
  unfold UefiMain.step
  rw [hst]
  simp only [e1, if_true]

theorem step_browse_other (P : Platform) (RbIo : Option Nat) (T : Nat) (Hdr : PIR_TABLE_HEADER)
    (c : Nav) (Key : EFI_INPUT_KEY) (sc i : Nat) (hst : c.state = NavState.SlotBrowsing sc i)
    (h1 : Key.ScanCode ≠ SCAN_ESC) (h2 : Key.ScanCode ≠ SCAN_RIGHT)
    (h3 : Key.ScanCode ≠ SCAN_LEFT) :
    UefiMain.step P RbIo T Hdr c Key = c := by
  have e1 : IsEsc (some Key) = false := by
    simp only [IsEsc]
    exact decide_eq_false h1
  have e2 : IsRight (some Key) = false := by
    simp only [IsRight]
    exact decide_eq_false h2
  have e3 : IsLeft (some Key) = false := by
    simp only [IsLeft]
    exact decide_eq_false h3
  unfold UefiMain.step
  rw [hst]
  simp only [e1, e2, e3, Bool.false_eq_true, if_false]

/-- A step that ends in `Terminated` started there, or is the ESC key in
`MainMenu`. -/
theorem step_terminated_inv (P : Platform) (RbIo : Option Nat) (T : Nat) (Hdr : PIR_TABLE_HEADER)
    (c : Nav) (Key : EFI_INPUT_KEY) (s : EFI_STATUS)
    (h : (UefiMain.step P RbIo T Hdr c Key).state = NavState.Terminated s) :
    c.state = NavState.Terminated s
      ∨ (c.state = NavState.MainMenu ∧ Key.ScanCode = SCAN_ESC ∧ s = EFI_SUCCESS) := by
  unfold UefiMain.step at h
  cases hst : c.state with
  | Terminated s0 =>
    rw [hst] at h
    simp only [] at h
    left
    rw [← h, hst]
  | HeaderView =>
    rw [hst] at h
    cases h
  | NoSlotNotice =>
    rw [hst] at h
    cases h
  | MainMenu =>
    rw [hst] at h
    simp only [] at h
    by_cases a : IsEsc (some Key) = true
    · rw [if_pos a] at h
      simp only [NavState.Terminated.injEq] at h
      right
      refine ⟨rfl, ?_, h.symm⟩
      simpa [IsEsc] using a
    rw [if_neg a] at h
    by_cases b : Key.UnicodeChar = 0x31
    · rw [if_pos b] at h
      cases h
    rw [if_neg b] at h
    by_cases d : Key.UnicodeChar = 0x32
    swap
    · rw [if_neg d] at h
      cases h
    rw [if_pos d] at h
    by_cases e : UefiMain.SlotCount Hdr = 0
    · simp only [if_pos e] at h
      cases h
    · simp only [if_neg e] at h
      cases h
  | SlotBrowsing sc cur =>
    rw [hst] at h
    simp only [] at h
    by_cases a : IsEsc (some Key) = true
    · rw [if_pos a] at h
      cases h
    rw [if_neg a] at h
    by_cases b : IsRight (some Key) = true
    · rw [if_pos b] at h
      cases h
    rw [if_neg b] at h
    by_cases d : IsLeft (some Key) = true
    · rw [if_pos d] at h
      cases h
    rw [if_neg d] at h
    first
      | cases h
      | (rw [hst] at h; cases h)

theorem run_of_terminated (P : Platform) (RbIo : Option Nat) (T : Nat) (Hdr : PIR_TABLE_HEADER)
    (keys : List EFI_INPUT_KEY) :
    ∀ (c : Nav) (s : EFI_STATUS), c.state = NavState.Terminated s →
      UefiMain.run P RbIo T Hdr c keys = c := by
  induction keys with
  | nil => intro c s _; rfl
  | cons k ks ih =>
    intro c s hst
    show UefiMain.run P RbIo T Hdr (UefiMain.step P RbIo T Hdr c k) ks = c
    rw [step_of_terminated P RbIo T Hdr c k s hst]
    exact ih c s hst

theorem run_cons (P : Platform) (RbIo : Option Nat) (T : Nat) (Hdr : PIR_TABLE_HEADER)
    (c : Nav) (k : EFI_INPUT_KEY) (ks : List EFI_INPUT_KEY) :
    UefiMain.run P RbIo T Hdr c (k :: ks)
      = UefiMain.run P RbIo T Hdr (UefiMain.step P RbIo T Hdr c k) ks := rfl

/-- A run that ends in `Terminated` passed through `MainMenu` and received the
ESC key there. -/
theorem run_terminated_inv (P : Platform) (RbIo : Option Nat) (T : Nat) (Hdr : PIR_TABLE_HEADER)
    (keys : List EFI_INPUT_KEY) :
    ∀ (c : Nav) (s : EFI_STATUS), (∀ s0, c.state ≠ NavState.Terminated s0) →
      (UefiMain.run P RbIo T Hdr c keys).state = NavState.Terminated s →
      s = EFI_SUCCESS ∧ ∃ pre k post, keys = pre ++ k :: post
        ∧ (UefiMain.run P RbIo T Hdr c pre).state = NavState.MainMenu
        ∧ k.ScanCode = SCAN_ESC := by
  induction keys with
  | nil =>
    intro c s hc h
    exact absurd h (hc s)
  | cons k ks ih =>
    intro c s hc h
    rw [run_cons] at h
    by_cases ht : ∃ s1, (UefiMain.step P RbIo T Hdr c k).state = NavState.Terminated s1
    · obtain ⟨s1, hs1⟩ := ht
      rw [run_of_terminated P RbIo T Hdr ks _ s1 hs1, hs1] at h
      simp only [NavState.Terminated.injEq] at h
      subst h
      rcases step_terminated_inv P RbIo T Hdr c k s1 hs1 with h0 | ⟨h1, h2, h3⟩
      · exact absurd h0 (hc s1)
      · exact ⟨h3, [], k, ks, rfl, h1, h2⟩
    · push_neg at ht
      obtain ⟨hs, pre, k2, post, e1, e2, e3⟩ := ih _ s ht h
      exact ⟨hs, k :: pre, k2, post, by rw [e1]; rfl, e2, e3⟩

/-- C21. The navigator reaches `Terminated` only by the ESC key received in
`MainMenu`.  One step from a state other than `Terminated` ends in `Terminated`
only if that state is `MainMenu` and the key is ESC, and then the status is
`EFI_SUCCESS`; ESC in `MainMenu` does terminate; ESC in `SlotBrowsing` leads to
`MainMenu`; any key in `HeaderView` leads to `MainMenu`.  A run from `MainMenu`
that ends in `Terminated` was in `MainMenu` when it received an ESC key. -/
theorem C21_terminates_only_from_menu (P : Platform) (RbIo : Option Nat) (T : Nat)
    (Hdr : PIR_TABLE_HEADER) (c : Nav) (Key : EFI_INPUT_KEY) :
    ((∀ s0, c.state ≠ NavState.Terminated s0) → ∀ s,
        (UefiMain.step P RbIo T Hdr c Key).state = NavState.Terminated s →
        c.state = NavState.MainMenu ∧ Key.ScanCode = SCAN_ESC ∧ s = EFI_SUCCESS)
    ∧ (c.state = NavState.MainMenu → Key.ScanCode = SCAN_ESC →
        (UefiMain.step P RbIo T Hdr c Key).state = NavState.Terminated EFI_SUCCESS)
    ∧ (∀ sc i, c.state = NavState.SlotBrowsing sc i →
        (Key.ScanCode = SCAN_ESC → (UefiMain.step P RbIo T Hdr c Key).state = NavState.MainMenu)
        ∧ ∀ s, (UefiMain.step P RbIo T Hdr c Key).state ≠ NavState.Terminated s)
    ∧ (c.state = NavState.HeaderView →
        (UefiMain.step P RbIo T Hdr c Key).state = NavState.MainMenu)
    ∧ (∀ w keys s,
        (UefiMain.run P RbIo T Hdr ⟨NavState.MainMenu, w, []⟩ keys).state
          = NavState.Terminated s →
        s = EFI_SUCCESS ∧ ∃ pre k post, keys = pre ++ k :: post
          ∧ (UefiMain.run P RbIo T Hdr ⟨NavState.MainMenu, w, []⟩ pre).state
              = NavState.MainMenu
          ∧ k.ScanCode = SCAN_ESC) := by
  refine ⟨?_, ?_, ?_, ?_, ?_⟩
  · intro hc s h
    rcases step_terminated_inv P RbIo T Hdr c Key s h with h0 | h1
    · exact absurd h0 (hc s)
    · exact h1
  · intro hst hK
    rw [step_menu_esc P RbIo T Hdr c Key hst hK]
  · intro sc i hst
    refine ⟨fun hK => ?_, fun s h => ?_⟩
    · rw [step_browse_esc P RbIo T Hdr c Key sc i hst hK]
    · rcases step_terminated_inv P RbIo T Hdr c Key s h with h0 | ⟨h1, _, _⟩
      · rw [hst] at h0; cases h0
      · rw [hst] at h1; cases h1
  · intro hst
    rw [step_header_view P RbIo T Hdr c Key hst]
  · intro w keys s h
    exact run_terminated_inv P RbIo T Hdr keys ⟨NavState.MainMenu, w, []⟩ s
      (fun s0 h0 => by cases h0) h

/-- C21 at concrete inputs: ESC in `SlotBrowsing` leads to `MainMenu`, ESC in
`MainMenu` terminates with `EFI_SUCCESS`, and the run over the keys `2`, ESC,
ESC ends in `Terminated`. -/
theorem C21_terminates_only_from_menu_witness :
    (UefiMain.step (imagePlatform imageA) (some 1) 0xF0000 oneSlotHeader
        ⟨NavState.SlotBrowsing 1 0, World.fresh, []⟩ keyEsc).state = NavState.MainMenu
    ∧ (UefiMain.step (imagePlatform imageA) (some 1) 0xF0000 oneSlotHeader
        ⟨NavState.MainMenu, World.fresh, []⟩ keyEsc).state = NavState.Terminated EFI_SUCCESS
    ∧ (UefiMain.step (imagePlatform imageA) (some 1) 0xF0000 oneSlotHeader
        ⟨NavState.HeaderView, World.fresh, []⟩ keyEsc).state = NavState.MainMenu
    ∧ ((UefiMain.run (imagePlatform imageA) (some 1) 0xF0000 oneSlotHeader
        ⟨NavState.MainMenu, World.fresh, []⟩ [keyTwo, keyEsc, keyEsc]).state
          = NavState.Terminated EFI_SUCCESS
      ∧ EFI_SUCCESS = EFI_SUCCESS) :=
  have hrun : (UefiMain.run (imagePlatform imageA) (some 1) 0xF0000 oneSlotHeader
      ⟨NavState.MainMenu, World.fresh, []⟩ [keyTwo, keyEsc, keyEsc]).state
        = NavState.Terminated EFI_SUCCESS := by decide
  ⟨((C21_terminates_only_from_menu (imagePlatform imageA) (some 1) 0xF0000 oneSlotHeader
      ⟨NavState.SlotBrowsing 1 0, World.fresh, []⟩ keyEsc).2.2.1 1 0 rfl).1 rfl,
   (C21_terminates_only_from_menu (imagePlatform imageA) (some 1) 0xF0000 oneSlotHeader
      ⟨NavState.MainMenu, World.fresh, []⟩ keyEsc).2.1 rfl rfl,
   (C21_terminates_only_from_menu (imagePlatform imageA) (some 1) 0xF0000 oneSlotHeader
      ⟨NavState.HeaderView, World.fresh, []⟩ keyEsc).2.2.2.1 rfl,
   hrun,
   ((C21_terminates_only_from_menu (imagePlatform imageA) (some 1) 0xF0000 oneSlotHeader
      ⟨NavState.MainMenu, World.fresh, []⟩ keyEsc).2.2.2.2 World.fresh
      [keyTwo, keyEsc, keyEsc] EFI_SUCCESS hrun).1⟩

/-- `DumpSlotPage` when the slot read fails: the reader's status, one more
entry in the read log, and the console as it was. -/
theorem DumpSlotPage_read_fails (P : Platform) (w : World) (h T : Nat) (Hdr : PIR_TABLE_HEADER)
    (i : Nat) (h32 : 32 ≤ Hdr.TableSize) (hi : i < DumpSlotPage.SlotCount Hdr)
    (hE : EFI_ERROR (P.MemRead w.memReads.length (slotAddr T i) 16).1 = true) :
    DumpSlotPage P w (some h) T (some Hdr) i
      = ((P.MemRead w.memReads.length (slotAddr T i) 16).1,
          ⟨w.memReads ++ [evAt P w.memReads.length (slotAddr T i) 16], w.allocs, w.frees,
            w.console⟩) := by
  have e : (evAt P w.memReads.length (slotAddr T i) 16).Status
      = (P.MemRead w.memReads.length (slotAddr T i) 16).1 := rfl
  rw [DumpSlotPage_in_range P w h T Hdr i h32 hi, e, if_pos hE]

/-- C22. When the 16-byte read of the slot fails, `DumpSlotPage` returns the
status of the reader unchanged, and presents nothing: the console is exactly as
before the call (no screen clear, no line of the record); the only effect is the
one failed read in the read log. -/
theorem C22_read_failure_shows_nothing (P : Platform) (w : World) (h T : Nat)
    (Hdr : PIR_TABLE_HEADER) (i : Nat) (h32 : 32 ≤ Hdr.TableSize)
    (hi : i < DumpSlotPage.SlotCount Hdr)
    (hE : EFI_ERROR (P.MemRead w.memReads.length (slotAddr T i) 16).1 = true) :
    (DumpSlotPage P w (some h) T (some Hdr) i).1
        = (P.MemRead w.memReads.length (slotAddr T i) 16).1
    ∧ (DumpSlotPage P w (some h) T (some Hdr) i).2.console = w.console
    ∧ ConEvent.ClearScreen ∉ (DumpSlotPage P w (some h) T (some Hdr) i).2.console.drop
        w.console.length
    ∧ (DumpSlotPage P w (some h) T (some Hdr) i).2.memReads
        = w.memReads ++ [⟨slotAddr T i, 16, (P.MemRead w.memReads.length (slotAddr T i) 16).1,
            bufferOf (P.MemRead w.memReads.length (slotAddr T i) 16).2 16⟩]
    ∧ (DumpSlotPage P w (some h) T (some Hdr) i).2.allocs = w.allocs
    ∧ (DumpSlotPage P w (some h) T (some Hdr) i).2.frees = w.frees := by
  rw [DumpSlotPage_read_fails P w h T Hdr i h32 hi hE]
  refine ⟨rfl, rfl, ?_, rfl, rfl, rfl⟩
  simp

/-- C22 at a concrete input: on the platform whose 16-byte reads fail with a
device error, decoding slot 0 of the example table returns that error and
leaves the console empty. -/
theorem C22_read_failure_shows_nothing_witness :
    EFI_ERROR (slotFaultPlatform.MemRead 0 (slotAddr 0xF0000 0) 16).1 = true
    ∧ (DumpSlotPage slotFaultPlatform World.fresh (some 1) 0xF0000 (some oneSlotHeader) 0).1
        = ENCODE_ERROR 7
    ∧ (DumpSlotPage slotFaultPlatform World.fresh (some 1) 0xF0000 (some oneSlotHeader)
        0).2.console = [] :=
  have h := C22_read_failure_shows_nothing slotFaultPlatform World.fresh 1 0xF0000
    oneSlotHeader 0 (by decide) (by decide) (by decide)
  ⟨by decide, h.1.trans (by decide), h.2.1.trans (by decide)⟩

/-- An arrow key in `SlotBrowsing` at index `i` of `sc` slots: the index becomes
one more, at most the last, for the Right arrow, and one less, at least 0, for
the Left arrow; `DumpSlotPage` is called once, for that index. -/
theorem step_arrow (P : Platform) (RbIo : Option Nat) (T : Nat) (Hdr : PIR_TABLE_HEADER)
    (c : Nav) (Key : EFI_INPUT_KEY) (sc i : Nat)
    (hst : c.state = NavState.SlotBrowsing sc i) (hsc : sc < 2 ^ 64) (hi : i < sc)
    (hK : Key.ScanCode = SCAN_RIGHT ∨ Key.ScanCode = SCAN_LEFT) :
    UefiMain.step P RbIo T Hdr c Key
      = ⟨NavState.SlotBrowsing sc
            (if Key.ScanCode = SCAN_RIGHT then min (i + 1) (sc - 1) else i - 1),
          (DumpSlotPage P c.world RbIo T (some Hdr)
            (if Key.ScanCode = SCAN_RIGHT then min (i + 1) (sc - 1) else i - 1)).2,
          c.calls ++ [⟨if Key.ScanCode = SCAN_RIGHT then min (i + 1) (sc - 1) else i - 1,
            (DumpSlotPage P c.world RbIo T (some Hdr)
              (if Key.ScanCode = SCAN_RIGHT then min (i + 1) (sc - 1) else i - 1)).1⟩]⟩ := by
  rcases hK with hK | hK
  · rw [step_right P RbIo T Hdr c Key sc i hst hK, if_pos hK]
    have e : (if (i + 1) % 2 ^ 64 < sc then (i + 1) % 2 ^ 64 else i) = min (i + 1) (sc - 1) := by
      rw [Nat.mod_eq_of_lt (by omega)]
      split_ifs <;> omega
    rw [e]
  · have hne : ¬ Key.ScanCode = SCAN_RIGHT := by rw [hK]; decide
    rw [step_left P RbIo T Hdr c Key sc i hst hK, if_neg hne]
    have e : (if i > 0 then i - 1 else i) = i - 1 := by
      split_ifs <;> omega
    rw [e]

theorem arrow_target_lt (Key : EFI_INPUT_KEY) (sc i : Nat) (hi : i < sc) :
    (if Key.ScanCode = SCAN_RIGHT then min (i + 1) (sc - 1) else i - 1) < sc := by
  split_ifs <;> omega

/-- C23. A failed slot read during browsing does not leave `SlotBrowsing`.  In
`SlotBrowsing` at index `i` of `sc` slots, let an arrow key lead to the index
`j` (clamped), and let the 16-byte read of slot `j` fail.  Then the state after
the key is `SlotBrowsing` at `j`, with `j < sc`; the call of `DumpSlotPage` is
made and returns the error, nothing is shown; and the key after that is
accepted as usual: ESC leads to `MainMenu`, the Right arrow to index
`min (j + 1) (sc - 1)`, the Left arrow to index `j - 1`. -/
theorem C23_read_failure_keeps_browsing (P : Platform) (h T : Nat) (Hdr : PIR_TABLE_HEADER)
    (c : Nav) (Key : EFI_INPUT_KEY) (i j : Nat)
    (hst : c.state = NavState.SlotBrowsing (UefiMain.SlotCount Hdr) i)
    (h32 : 32 ≤ Hdr.TableSize) (hi : i < UefiMain.SlotCount Hdr)
    (hK : Key.ScanCode = SCAN_RIGHT ∨ Key.ScanCode = SCAN_LEFT)
    (hj : j = if Key.ScanCode = SCAN_RIGHT then min (i + 1) (UefiMain.SlotCount Hdr - 1)
      else i - 1)
    (hE : EFI_ERROR (P.MemRead c.world.memReads.length (slotAddr T j) 16).1 = true) :
    (UefiMain.step P (some h) T Hdr c Key).state
        = NavState.SlotBrowsing (UefiMain.SlotCount Hdr) j
    ∧ j < UefiMain.SlotCount Hdr
    ∧ (UefiMain.step P (some h) T Hdr c Key).calls
        = c.calls ++ [⟨j, (P.MemRead c.world.memReads.length (slotAddr T j) 16).1⟩]
    ∧ (UefiMain.step P (some h) T Hdr c Key).world.console = c.world.console
    ∧ ∀ Key2 : EFI_INPUT_KEY,
        (Key2.ScanCode = SCAN_ESC →
          (UefiMain.step P (some h) T Hdr (UefiMain.step P (some h) T Hdr c Key) Key2).state
            = NavState.MainMenu)
        ∧ (Key2.ScanCode = SCAN_RIGHT →
          (UefiMain.step P (some h) T Hdr (UefiMain.step P (some h) T Hdr c Key) Key2).state
            = NavState.SlotBrowsing (UefiMain.SlotCount Hdr)
                (min (j + 1) (UefiMain.SlotCount Hdr - 1)))
        ∧ (Key2.ScanCode = SCAN_LEFT →
          (UefiMain.step P (some h) T Hdr (UefiMain.step P (some h) T Hdr c Key) Key2).state
            = NavState.SlotBrowsing (UefiMain.SlotCount Hdr) (j - 1)) := by
  have hsc : UefiMain.SlotCount Hdr < 2 ^ 64 := by
    unfold UefiMain.SlotCount
    have := Nat.mod_lt (Hdr.TableSize + 2 ^ 64 - sizeof_PIR_TABLE_HEADER)
      (show 2 ^ 64 > 0 by decide)
    exact lt_of_le_of_lt (Nat.div_le_self _ _) this
  have hjlt : j < UefiMain.SlotCount Hdr := by
    rw [hj]
    exact arrow_target_lt Key _ i hi
  have hstep := step_arrow P (some h) T Hdr c Key _ i hst hsc hi hK
  rw [← hj] at hstep
  have hd := DumpSlotPage_read_fails P c.world h T Hdr j h32 hjlt hE
  rw [hd] at hstep
  have hst2 : (UefiMain.step P (some h) T Hdr c Key).state
      = NavState.SlotBrowsing (UefiMain.SlotCount Hdr) j := by rw [hstep]
  refine ⟨hst2, hjlt, ?_, ?_, ?_⟩
  · rw [hstep]
  · rw [hstep]
  · intro Key2
    refine ⟨fun k => ?_, fun k => ?_, fun k => ?_⟩
    · rw [step_browse_esc P (some h) T Hdr _ Key2 _ j hst2 k]
    · rw [step_arrow P (some h) T Hdr _ Key2 _ j hst2 hsc hjlt (Or.inl k), if_pos k]
    · have hne : ¬ Key2.ScanCode = SCAN_RIGHT := by rw [k]; decide
      rw [step_arrow P (some h) T Hdr _ Key2 _ j hst2 hsc hjlt (Or.inr k), if_neg hne]

/-- C23 at a concrete input: two slots, every slot read fails; the Right arrow
at index 0 leads to index 1 with the error logged and an empty console, and the
Left arrow after that leads back to index 0. -/
theorem C23_read_failure_keeps_browsing_witness :
    EFI_ERROR (slotFaultPlatform.MemRead 0 (slotAddr 0xF0000 1) 16).1 = true
    ∧ (UefiMain.step slotFaultPlatform (some 1) 0xF0000 twoSlotHeader
        ⟨NavState.SlotBrowsing 2 0, World.fresh, []⟩ keyRight).state
          = NavState.SlotBrowsing 2 1
    ∧ (UefiMain.step slotFaultPlatform (some 1) 0xF0000 twoSlotHeader
        ⟨NavState.SlotBrowsing 2 0, World.fresh, []⟩ keyRight).calls = [⟨1, ENCODE_ERROR 7⟩]
    ∧ (UefiMain.step slotFaultPlatform (some 1) 0xF0000 twoSlotHeader
        (UefiMain.step slotFaultPlatform (some 1) 0xF0000 twoSlotHeader
          ⟨NavState.SlotBrowsing 2 0, World.fresh, []⟩ keyRight) keyLeft).state
          = NavState.SlotBrowsing 2 0 :=
  have h := C23_read_failure_keeps_browsing slotFaultPlatform 1 0xF0000 twoSlotHeader
    ⟨NavState.SlotBrowsing 2 0, World.fresh, []⟩ keyRight 0 1 (by decide) (by decide)
    (by decide) (Or.inl rfl) (by decide) (by decide)
  ⟨by decide, h.1.trans (by decide), h.2.2.1.trans (by decide),
    ((h.2.2.2.2 keyLeft).2.2 rfl).trans (by decide)⟩

/-- C27. In `SlotBrowsing` at index `i` of `sc` slots, for a key other than ESC:
the Right arrow makes exactly one call of `DumpSlotPage`, for the index
`min (i + 1) (sc - 1)`, which is the index of the state after the key; the Left
arrow makes exactly one call, for the index `i - 1` (0 at index 0), which is the
index of the state after the key; in both cases the effects of the step are
those of that one call.  Any other key changes nothing: no call, no read, same
state and index. -/
theorem C27_one_decode_per_arrow (P : Platform) (RbIo : Option Nat) (T : Nat)
    (Hdr : PIR_TABLE_HEADER) (c : Nav) (Key : EFI_INPUT_KEY) (sc i : Nat)
    (hst : c.state = NavState.SlotBrowsing sc i) (hsc : sc < 2 ^ 64) (hi : i < sc)
    (hE : Key.ScanCode ≠ SCAN_ESC) :
    (Key.ScanCode = SCAN_RIGHT →
      (UefiMain.step P RbIo T Hdr c Key).state = NavState.SlotBrowsing sc (min (i + 1) (sc - 1))
      ∧ (UefiMain.step P RbIo T Hdr c Key).calls
          = c.calls ++ [⟨min (i + 1) (sc - 1),
              (DumpSlotPage P c.world RbIo T (some Hdr) (min (i + 1) (sc - 1))).1⟩]
      ∧ (UefiMain.step P RbIo T Hdr c Key).world
          = (DumpSlotPage P c.world RbIo T (some Hdr) (min (i + 1) (sc - 1))).2)
    ∧ (Key.ScanCode = SCAN_LEFT →
      (UefiMain.step P RbIo T Hdr c Key).state = NavState.SlotBrowsing sc (i - 1)
      ∧ (UefiMain.step P RbIo T Hdr c Key).calls
          = c.calls ++ [⟨i - 1, (DumpSlotPage P c.world RbIo T (some Hdr) (i - 1)).1⟩]
      ∧ (UefiMain.step P RbIo T Hdr c Key).world
          = (DumpSlotPage P c.world RbIo T (some Hdr) (i - 1)).2)
    ∧ (Key.ScanCode ≠ SCAN_RIGHT → Key.ScanCode ≠ SCAN_LEFT →
      UefiMain.step P RbIo T Hdr c Key = c
      ∧ (UefiMain.step P RbIo T Hdr c Key).state = NavState.SlotBrowsing sc i
      ∧ (UefiMain.step P RbIo T Hdr c Key).calls = c.calls
      ∧ (UefiMain.step P RbIo T Hdr c Key).world.memReads = c.world.memReads) := by
  refine ⟨fun k => ?_, fun k => ?_, fun k1 k2 => ?_⟩
  · rw [step_arrow P RbIo T Hdr c Key sc i hst hsc hi (Or.inl k), if_pos k]
    exact ⟨rfl, rfl, rfl⟩
  · have hne : ¬ Key.ScanCode = SCAN_RIGHT := by rw [k]; decide
    rw [step_arrow P RbIo T Hdr c Key sc i hst hsc hi (Or.inr k), if_neg hne]
    exact ⟨rfl, rfl, rfl⟩
  · rw [step_browse_other P RbIo T Hdr c Key sc i hst hE k1 k2]
    exact ⟨rfl, hst, rfl, rfl⟩

/-- C27 at concrete inputs: two slots, index 0; the Right arrow logs one call
for slot 1, the Left arrow logs one call for slot 0, and the key `A` changes
nothing. -/
theorem C27_one_decode_per_arrow_witness :
    (UefiMain.step (imagePlatform imageA) (some 1) 0xF0000 twoSlotHeader
        ⟨NavState.SlotBrowsing 2 0, World.fresh, []⟩ keyRight).calls = [⟨1, EFI_SUCCESS⟩]
    ∧ (UefiMain.step (imagePlatform imageA) (some 1) 0xF0000 twoSlotHeader
        ⟨NavState.SlotBrowsing 2 0, World.fresh, []⟩ keyLeft).calls = [⟨0, EFI_SUCCESS⟩]
    ∧ UefiMain.step (imagePlatform imageA) (some 1) 0xF0000 twoSlotHeader
        ⟨NavState.SlotBrowsing 2 0, World.fresh, []⟩ keyOther
          = ⟨NavState.SlotBrowsing 2 0, World.fresh, []⟩ :=
  ⟨((C27_one_decode_per_arrow (imagePlatform imageA) (some 1) 0xF0000 twoSlotHeader
      ⟨NavState.SlotBrowsing 2 0, World.fresh, []⟩ keyRight 2 0 rfl (by decide) (by decide)
      (by decide)).1 rfl).2.1.trans (by decide),
   ((C27_one_decode_per_arrow (imagePlatform imageA) (some 1) 0xF0000 twoSlotHeader
      ⟨NavState.SlotBrowsing 2 0, World.fresh, []⟩ keyLeft 2 0 rfl (by decide) (by decide)
      (by decide)).2.1 rfl).2.1.trans (by decide),
   ((C27_one_decode_per_arrow (imagePlatform imageA) (some 1) 0xF0000 twoSlotHeader
      ⟨NavState.SlotBrowsing 2 0, World.fresh, []⟩ keyOther 2 0 rfl (by decide) (by decide)
      (by decide)).2.2 (by decide) (by decide)).1⟩

/-- With a slot count other than 0, a step ends in `NoSlotNotice` only if it
started there. -/
theorem step_notice_inv (P : Platform) (RbIo : Option Nat) (T : Nat) (Hdr : PIR_TABLE_HEADER)
    (c : Nav) (Key : EFI_INPUT_KEY) (h0 : UefiMain.SlotCount Hdr ≠ 0)
    (hn : c.state ≠ NavState.NoSlotNotice) :
    (UefiMain.step P RbIo T Hdr c Key).state ≠ NavState.NoSlotNotice := by
  intro h
  unfold UefiMain.step at h
  cases hst : c.state with
  | Terminated s0 =>
    rw [hst] at h
    simp only [] at h
    exact hn h
  | HeaderView =>
    rw [hst] at h
    cases h
  | NoSlotNotice => exact hn hst
  | MainMenu =>
    rw [hst] at h
    simp only [] at h
    by_cases a : IsEsc (some Key) = true
    · rw [if_pos a] at h
      cases h
    rw [if_neg a] at h
    by_cases b : Key.UnicodeChar = 0x31
    · rw [if_pos b] at h
      cases h
    rw [if_neg b] at h
    by_cases d : Key.UnicodeChar = 0x32
    swap
    · rw [if_neg d] at h
      cases h
    rw [if_pos d] at h
    simp only [if_neg h0] at h
    cases h
  | SlotBrowsing sc cur =>
    rw [hst] at h
    simp only [] at h
    by_cases a : IsEsc (some Key) = true
    · rw [if_pos a] at h
      cases h
    rw [if_neg a] at h
    by_cases b : IsRight (some Key) = true
    · rw [if_pos b] at h
      cases h
    rw [if_neg b] at h
    by_cases d : IsLeft (some Key) = true
    · rw [if_pos d] at h
      cases h
    rw [if_neg d] at h
    exact hn h

theorem run_notice_inv (P : Platform) (RbIo : Option Nat) (T : Nat) (Hdr : PIR_TABLE_HEADER)
    (h0 : UefiMain.SlotCount Hdr ≠ 0) (keys : List EFI_INPUT_KEY) :
    ∀ (c : Nav), c.state ≠ NavState.NoSlotNotice →
      (UefiMain.run P RbIo T Hdr c keys).state ≠ NavState.NoSlotNotice := by
  induction keys with
  | nil => intro c hn; exact hn
  | cons k ks ih =>
    intro c hn
    rw [run_cons]
    exact ih _ (step_notice_inv P RbIo T Hdr c k h0 hn)

/-- With a header whose `TableSize` is at least 48 and below `2 ^ 16`,
`DumpSlotPage` does not return from its `EFI_COMPROMISED_DATA` or
`EFI_NOT_FOUND` branch, which leave the world as it was. -/
theorem DumpSlotPage_no_early (P : Platform) (w : World) (h T : Nat) (Hdr : PIR_TABLE_HEADER)
    (i : Nat) (h48 : 48 ≤ Hdr.TableSize) (h16 : Hdr.TableSize < 2 ^ 16) :
    DumpSlotPage P w (some h) T (some Hdr) i ≠ (EFI_COMPROMISED_DATA, w)
    ∧ DumpSlotPage P w (some h) T (some Hdr) i ≠ (EFI_NOT_FOUND, w) := by
  have e := (specSlotCount_eq Hdr (by omega) h16).1
  have hpos : specSlotCount Hdr ≠ 0 := by
    unfold specSlotCount
    omega
  by_cases hi : i < DumpSlotPage.SlotCount Hdr
  · have hlen : ∀ s, DumpSlotPage P w (some h) T (some Hdr) i ≠ (s, w) := by
      intro s hEq
      have h2 := congrArg (fun r => r.2.memReads.length) hEq
      rw [DumpSlotPage_in_range P w h T Hdr i (by omega) hi] at h2
      split_ifs at h2 <;> simp at h2
    exact ⟨hlen _, hlen _⟩
  · rw [DumpSlotPage_rejects P w h T Hdr i h16 (by omega), if_neg (by omega), if_neg hpos]
    have n1 : EFI_INVALID_PARAMETER ≠ EFI_COMPROMISED_DATA := by decide
    have n2 : EFI_INVALID_PARAMETER ≠ EFI_NOT_FOUND := by decide
    exact ⟨fun hEq => n1 (congrArg Prod.fst hEq), fun hEq => n2 (congrArg Prod.fst hEq)⟩

/-- C28. After a successful `FindPirqTable`, the header it returned has
`table_size ≥ 48`, hence a slot count of at least 1 (as the specification
counts, and as `UefiMain` and `DumpSlotPage` compute it).  So, whatever keys
follow, `UefiMain` is never in the state that shows the notice of no slot
entry; and in `DumpSlotPage` on that header the guards of the
`EFI_COMPROMISED_DATA` and `EFI_NOT_FOUND` branches are false, so that no call
returns from one of these two branches. -/
theorem C28_accepted_table_has_a_slot (P : Platform) (w : World) (Hdr0 : PIR_TABLE_HEADER)
    (keys : List EFI_INPUT_KEY)
    (hS : (FindPirqTable P w (some none) (some 0) (some Hdr0)).Status = EFI_SUCCESS) :
    ∃ h A H, (FindPirqTable P w (some none) (some 0) (some Hdr0)).OutRbIo = some (some h)
      ∧ (FindPirqTable P w (some none) (some 0) (some Hdr0)).OutTableAddr = some A
      ∧ (FindPirqTable P w (some none) (some 0) (some Hdr0)).OutHeaderCopy = some H
      ∧ 48 ≤ H.TableSize
      ∧ 1 ≤ specSlotCount H
      ∧ UefiMain.SlotCount H = specSlotCount H
      ∧ DumpSlotPage.SlotCount H = specSlotCount H
      ∧ (UefiMain P w Hdr0 keys).state ≠ NavState.NoSlotNotice
      ∧ ¬ H.TableSize < sizeof_PIR_TABLE_HEADER
      ∧ DumpSlotPage.SlotCount H ≠ 0
      ∧ ∀ w1 i, DumpSlotPage P w1 (some h) A (some H) i ≠ (EFI_COMPROMISED_DATA, w1)
          ∧ DumpSlotPage P w1 (some h) A (some H) i ≠ (EFI_NOT_FOUND, w1) := by
  obtain ⟨h, A, H, e1, e2, e3, _, r2, r3, r4⟩ :=
    FindPirqTable_success_outputs P w none 0 Hdr0 hS
  have h48 : 48 ≤ H.TableSize := by omega
  have hsc := specSlotCount_eq H (by omega) r4
  have hpos : 1 ≤ specSlotCount H := by
    unfold specSlotCount
    omega
  refine ⟨h, A, H, e1, e2, e3, h48, hpos, hsc.2, hsc.1, ?_, ?_, ?_, ?_⟩
  · have hrun : UefiMain P w Hdr0 keys
        = UefiMain.run P (some h) A H
            ⟨NavState.MainMenu,
              ShowMainMenu (FindPirqTable P w (some none) (some 0) (some Hdr0)).world, []⟩
            keys := by
      unfold UefiMain
      simp only [hS, EFI_ERROR_SUCCESS, Bool.false_eq_true, if_false, e1, e2, e3,
        Option.getD_some]
    rw [hrun]
    exact run_notice_inv P (some h) A H (by rw [hsc.2]; omega) keys _ (by intro q; cases q)
  · rw [sizeof_header_eq]
    omega
  · rw [hsc.1]
    omega
  · intro w1 i
    exact DumpSlotPage_no_early P w1 h A H i h48 r4

/-- C28 at a concrete input: the example table is found, its header has
`table_size = 48` and one slot, and the keys `2`, Right, ESC, `2` never lead to
the notice of no slot entry. -/
theorem C28_accepted_table_has_a_slot_witness :
    (FindPirqTable (imagePlatform imageA) World.fresh (some none) (some 0)
        (some zeroHeader)).Status = EFI_SUCCESS
    ∧ (UefiMain (imagePlatform imageA) World.fresh zeroHeader
        [keyTwo, keyRight, keyEsc, keyTwo]).state ≠ NavState.NoSlotNotice
    ∧ ∃ H, (FindPirqTable (imagePlatform imageA) World.fresh (some none) (some 0)
        (some zeroHeader)).OutHeaderCopy = some H ∧ 1 ≤ specSlotCount H := by
  have hS : (FindPirqTable (imagePlatform imageA) World.fresh (some none) (some 0)
      (some zeroHeader)).Status = EFI_SUCCESS :=
    run_imageA.1
  obtain ⟨h, A, H, _, _, e3, _, hp, _, _, hn, _⟩ :=
    C28_accepted_table_has_a_slot (imagePlatform imageA) World.fresh zeroHeader
      [keyTwo, keyRight, keyEsc, keyTwo] hS
  exact ⟨hS, hn, H, e3, hp⟩

/-- A scan that does not end in success hands back the contents of the three
output variables as it received them. -/
theorem loop_outputs (P : Platform) (h : Nat) (o1 : Option (Option Nat)) (o2 : Option Nat)
    (o3 : Option PIR_TABLE_HEADER) :
    ∀ (d A0 : Nat) (w : World), 0xFFFF0 + 0x10 - A0 = d →
      (FindPirqTable.loop P (some h) o1 o2 o3 A0 w).Status ≠ EFI_SUCCESS →
      (FindPirqTable.loop P (some h) o1 o2 o3 A0 w).OutRbIo = o1
      ∧ (FindPirqTable.loop P (some h) o1 o2 o3 A0 w).OutTableAddr = o2
      ∧ (FindPirqTable.loop P (some h) o1 o2 o3 A0 w).OutHeaderCopy = o3 := by
  intro d
  induction d using Nat.strong_induction_on with
  | _ d ih =>
    intro A0 w hd hS
    by_cases hA : A0 ≤ 0xFFFF0
    swap
    · rw [loop_exit P _ o1 o2 o3 A0 w hA]
      exact ⟨rfl, rfl, rfl⟩
    rcases body_trichotomy P h o1 o2 o3 A0 w with
      ⟨evs, a, f, hb, _, _⟩ | ⟨hb, _, _⟩ | ⟨hb, _, _, _⟩
    · rw [loop_continue P _ o1 o2 o3 A0 w _ hA hb] at hS ⊢
      exact ih (0xFFFF0 + 0x10 - (A0 + 0x10)) (by omega) (A0 + 0x10) _ rfl hS
    · rw [loop_return P _ o1 o2 o3 A0 w _ hA hb]
      exact ⟨rfl, rfl, rfl⟩
    · rw [loop_return P _ o1 o2 o3 A0 w _ hA hb] at hS
      exact absurd rfl hS

theorem FindPirqTable_failure_outputs (P : Platform) (w : World) (o1 : Option (Option Nat))
    (o2 : Option Nat) (o3 : Option PIR_TABLE_HEADER)
    (hS : (FindPirqTable P w o1 o2 o3).Status ≠ EFI_SUCCESS) :
    (FindPirqTable P w o1 o2 o3).OutRbIo = o1
    ∧ (FindPirqTable P w o1 o2 o3).OutTableAddr = o2
    ∧ (FindPirqTable P w o1 o2 o3).OutHeaderCopy = o3 := by
  unfold FindPirqTable at hS ⊢
  by_cases hn : o1 = none ∨ o2 = none ∨ o3 = none
  · rw [if_pos hn]
    exact ⟨rfl, rfl, rfl⟩
  rw [if_neg hn] at hS ⊢
  simp only [] at hS ⊢
  by_cases hl : EFI_ERROR P.LocateProtocol.1 = true ∨ P.LocateProtocol.2 = none
  · rw [if_pos hl]
    exact ⟨rfl, rfl, rfl⟩
  rw [if_neg hl] at hS ⊢
  push_neg at hl
  obtain ⟨h, hh⟩ := Option.ne_none_iff_exists'.1 hl.2
  rw [hh] at hS ⊢
  exact loop_outputs P h o1 o2 o3 _ 0xF0000 w rfl hS

/-- The scan on the platform whose pool allocations fail. -/
theorem run_noPoolPlatform :
    FindPirqTable noPoolPlatform World.fresh (some none) (some 0) (some zeroHeader)
      = ⟨EFI_OUT_OF_RESOURCES, some none, some 0, some zeroHeader,
          ⟨[evAt noPoolPlatform 0 0xF0000 4, evAt noPoolPlatform 1 0xF0000 32], 1, 0, []⟩⟩ := by
  have hb : FindPirqTable.body noPoolPlatform (some 1) (some none) (some 0) (some zeroHeader)
      0xF0000 World.fresh
      = Step.Return ⟨EFI_OUT_OF_RESOURCES, some none, some 0, some zeroHeader,
          ⟨[evAt noPoolPlatform 0 0xF0000 4, evAt noPoolPlatform 1 0xF0000 32], 1, 0, []⟩⟩ := by
    decide
  obtain ⟨h, hh, he⟩ := FindPirqTable_eq_loop noPoolPlatform World.fresh none 0 zeroHeader
    ⟨by decide, by decide⟩
  have h1 : h = 1 := by
    have : noPoolPlatform.LocateProtocol.2 = some 1 := rfl
    rw [this] at hh
    exact (Option.some.inj hh).symm
  subst h1
  rw [he]
  exact loop_return _ _ _ _ _ _ _ _ (by decide) hb

/-- C30. `FindPirqTable` writes its three outputs only on success.  When the
status is not `EFI_SUCCESS`, the protocol handle, the table address and the
header copy hold what they held before the call.  When the status is
`EFI_SUCCESS`, all three are written, and address and header belong to the same
candidate `A`: the address is `A`, the header is the one decoded from the
32-byte read at `A` that passed the checks, made between the signature read and
the full-table read at `A` that end the read log, and the handle is the located
protocol. -/
theorem C30_outputs_written_only_on_success (P : Platform) (w : World)
    (o1 : Option (Option Nat)) (o2 : Option Nat) (o3 : Option PIR_TABLE_HEADER) :
    ((FindPirqTable P w o1 o2 o3).Status ≠ EFI_SUCCESS →
      (FindPirqTable P w o1 o2 o3).OutRbIo = o1
      ∧ (FindPirqTable P w o1 o2 o3).OutTableAddr = o2
      ∧ (FindPirqTable P w o1 o2 o3).OutHeaderCopy = o3)
    ∧ ((FindPirqTable P w o1 o2 o3).Status = EFI_SUCCESS →
      ∃ h A pre n, P.LocateProtocol.2 = some h ∧ IsCandidate A
        ∧ (FindPirqTable P w o1 o2 o3).OutRbIo = some (some h)
        ∧ (FindPirqTable P w o1 o2 o3).OutTableAddr = some A
        ∧ (FindPirqTable P w o1 o2 o3).OutHeaderCopy = some (hdrAt P (n + 1) A)
        ∧ HeaderStageOK P n A ∧ ChecksumStageOK P n A
        ∧ (FindPirqTable P w o1 o2 o3).world.memReads
            = pre ++ [evAt P n A 4, evAt P (n + 1) A 32,
                evAt P (n + 2) A (hdrAt P (n + 1) A).TableSize]) := by
  refine ⟨FindPirqTable_failure_outputs P w o1 o2 o3, fun hS => ?_⟩
  obtain ⟨h, a1, a2, a3, A, w1, e1, e2, e3, hl, _, hc, _, ⟨c1, _, c3, hr⟩, _⟩ :=
    FindPirqTable_success_inv P w o1 o2 o3 hS
  rw [hr]
  subst e1 e2 e3
  exact ⟨h, A, w1.memReads, w1.memReads.length, hl, hc, rfl, rfl, rfl, c1, c3, rfl⟩

/-- C30 at concrete inputs: when the pool allocation fails the three variables
keep their contents; on the image with the example table the address is
`0xF0000` and the header is that of the example table. -/
theorem C30_outputs_written_only_on_success_witness :
    (FindPirqTable noPoolPlatform World.fresh (some none) (some 0)
        (some zeroHeader)).Status ≠ EFI_SUCCESS
    ∧ ((FindPirqTable noPoolPlatform World.fresh (some none) (some 0)
          (some zeroHeader)).OutRbIo = some none
      ∧ (FindPirqTable noPoolPlatform World.fresh (some none) (some 0)
          (some zeroHeader)).OutTableAddr = some 0
      ∧ (FindPirqTable noPoolPlatform World.fresh (some none) (some 0)
          (some zeroHeader)).OutHeaderCopy = some zeroHeader)
    ∧ (FindPirqTable (imagePlatform imageA) World.fresh (some none) (some 0)
        (some zeroHeader)).Status = EFI_SUCCESS
    ∧ ∃ h A pre n, (imagePlatform imageA).LocateProtocol.2 = some h ∧ IsCandidate A
        ∧ (FindPirqTable (imagePlatform imageA) World.fresh (some none) (some 0)
            (some zeroHeader)).OutRbIo = some (some h)
        ∧ (FindPirqTable (imagePlatform imageA) World.fresh (some none) (some 0)
            (some zeroHeader)).OutTableAddr = some A
        ∧ (FindPirqTable (imagePlatform imageA) World.fresh (some none) (some 0)
            (some zeroHeader)).OutHeaderCopy = some (hdrAt (imagePlatform imageA) (n + 1) A)
        ∧ HeaderStageOK (imagePlatform imageA) n A ∧ ChecksumStageOK (imagePlatform imageA) n A
        ∧ (FindPirqTable (imagePlatform imageA) World.fresh (some none) (some 0)
            (some zeroHeader)).world.memReads
            = pre ++ [evAt (imagePlatform imageA) n A 4, evAt (imagePlatform imageA) (n + 1) A 32,
                evAt (imagePlatform imageA) (n + 2) A
                  (hdrAt (imagePlatform imageA) (n + 1) A).TableSize] :=
  have hne : (FindPirqTable noPoolPlatform World.fresh (some none) (some 0)
      (some zeroHeader)).Status ≠ EFI_SUCCESS := by
    rw [run_noPoolPlatform]
    exact OUT_OF_RESOURCES_ne_SUCCESS
  ⟨hne,
    (C30_outputs_written_only_on_success noPoolPlatform World.fresh (some none) (some 0)
      (some zeroHeader)).1 hne,
    run_imageA.1,
    (C30_outputs_written_only_on_success (imagePlatform imageA) World.fresh (some none) (some 0)
      (some zeroHeader)).2 run_imageA.1⟩

/-- The reads of one pass through the loop body: all at the candidate address,
of 4 bytes, of 32 bytes, or of as many bytes as the `TableSize` of a header read
at that address. -/
theorem body_events (P : Platform) (h : Nat) (o1 : Option (Option Nat)) (o2 : Option Nat)
    (o3 : Option PIR_TABLE_HEADER) (A : Nat) (w : World) :
    ∃ evs, (FindPirqTable.body P (some h) o1 o2 o3 A w).world.memReads = w.memReads ++ evs
      ∧ ∀ ev ∈ evs, ev.Address = A
          ∧ (ev.Count = 4 ∨ ev.Count = 32
              ∨ ∃ n, ev.Count = (hdrAt P n A).TableSize ∧ 32 < ev.Count) := by
  have k4 : ∀ n, (evAt P n A 4).Address = A ∧ ((evAt P n A 4).Count = 4 ∨ (evAt P n A 4).Count = 32
      ∨ ∃ m, (evAt P n A 4).Count = (hdrAt P m A).TableSize ∧ 32 < (evAt P n A 4).Count) :=
    fun n => ⟨rfl, Or.inl rfl⟩
  have k32 : ∀ n, (evAt P n A 32).Address = A
      ∧ ((evAt P n A 32).Count = 4 ∨ (evAt P n A 32).Count = 32
      ∨ ∃ m, (evAt P n A 32).Count = (hdrAt P m A).TableSize ∧ 32 < (evAt P n A 32).Count) :=
    fun n => ⟨rfl, Or.inr (Or.inl rfl)⟩
  by_cases c : HeaderStageOK P w.memReads.length A
  · have hb := body_after_header P h o1 o2 o3 A w c
    have kT : ∀ n, (evAt P n A (hdrAt P (w.memReads.length + 1) A).TableSize).Address = A
        ∧ ((evAt P n A (hdrAt P (w.memReads.length + 1) A).TableSize).Count = 4
        ∨ (evAt P n A (hdrAt P (w.memReads.length + 1) A).TableSize).Count = 32
        ∨ ∃ m, (evAt P n A (hdrAt P (w.memReads.length + 1) A).TableSize).Count
            = (hdrAt P m A).TableSize
          ∧ 32 < (evAt P n A (hdrAt P (w.memReads.length + 1) A).TableSize).Count) :=
      fun n => ⟨rfl, Or.inr (Or.inr ⟨_, rfl, c.2.2.2.2.1⟩)⟩
    by_cases d : P.AllocatePool w.allocs (hdrAt P (w.memReads.length + 1) A).TableSize = false
    · rw [if_pos d] at hb
      rw [hb]
      refine ⟨_, rfl, ?_⟩
      intro ev hev
      simp only [List.mem_cons, List.mem_singleton, List.not_mem_nil, or_false] at hev
      rcases hev with rfl | rfl
      · exact k4 _
      · exact k32 _
    · rw [if_neg d] at hb
      by_cases e : ChecksumStageOK P w.memReads.length A
      · rw [if_pos e] at hb
        rw [hb]
        refine ⟨_, rfl, ?_⟩
        intro ev hev
        simp only [List.mem_cons, List.mem_singleton, List.not_mem_nil, or_false] at hev
        rcases hev with rfl | rfl | rfl
        · exact k4 _
        · exact k32 _
        · exact kT _
      · rw [if_neg e] at hb
        rw [hb]
        refine ⟨_, rfl, ?_⟩
        intro ev hev
        simp only [List.mem_cons, List.mem_singleton, List.not_mem_nil, or_false] at hev
        rcases hev with rfl | rfl | rfl
        · exact k4 _
        · exact k32 _
        · exact kT _
  · by_cases c1 : EFI_ERROR (evAt P w.memReads.length A 4).Status = true
        ∨ readLE (evAt P w.memReads.length A 4).Data 0 4 ≠ PIR_SIGNATURE
    · rw [body_sig_fail P h o1 o2 o3 A w c1]
      refine ⟨_, rfl, ?_⟩
      intro ev hev
      simp only [List.mem_singleton] at hev
      subst hev
      exact k4 _
    · have hb : FindPirqTable.body P (some h) o1 o2 o3 A w =
          Step.Continue ⟨w.memReads ++ [evAt P w.memReads.length A 4,
            evAt P (w.memReads.length + 1) A 32], w.allocs, w.frees, w.console⟩ := by
        refine body_hdr_fail P h o1 o2 o3 A w ?_ ?_ ?_
        · simpa using fun hh => c1 (Or.inl hh)
        · by_contra hh; exact c1 (Or.inr hh)
        · unfold HeaderStageOK at c
          by_contra hh
          push_neg at hh c1
          apply c
          refine ⟨by simpa using c1.1, c1.2, by simpa using hh.1, hh.2.1, hh.2.2.1, hh.2.2.2⟩
      rw [hb]
      refine ⟨_, rfl, ?_⟩
      intro ev hev
      simp only [List.mem_cons, List.mem_singleton, List.not_mem_nil, or_false] at hev
      rcases hev with rfl | rfl
      · exact k4 _
      · exact k32 _

/-- The reads of the scan from candidate `A0` on. -/
theorem loop_events (P : Platform) (h : Nat) (o1 : Option (Option Nat)) (o2 : Option Nat)
    (o3 : Option PIR_TABLE_HEADER) :
    ∀ (d A0 : Nat) (w : World), 0xFFFF0 + 0x10 - A0 = d →
      ∃ evs, (FindPirqTable.loop P (some h) o1 o2 o3 A0 w).world.memReads = w.memReads ++ evs
        ∧ ∀ ev ∈ evs, A0 ≤ ev.Address ∧ ev.Address ≤ 0xFFFF0 ∧ 16 ∣ (ev.Address - A0)
            ∧ (ev.Count = 4 ∨ ev.Count = 32
                ∨ ∃ n, ev.Count = (hdrAt P n ev.Address).TableSize ∧ 32 < ev.Count) := by
  intro d
  induction d using Nat.strong_induction_on with
  | _ d ih =>
    intro A0 w hd
    by_cases hA : A0 ≤ 0xFFFF0
    swap
    · rw [loop_exit P _ o1 o2 o3 A0 w hA]
      exact ⟨[], by simp, fun ev hev => absurd hev (List.not_mem_nil _)⟩
    obtain ⟨evs, he, hall⟩ := body_events P h o1 o2 o3 A0 w
    have hhere : ∀ ev ∈ evs, A0 ≤ ev.Address ∧ ev.Address ≤ 0xFFFF0 ∧ 16 ∣ (ev.Address - A0)
        ∧ (ev.Count = 4 ∨ ev.Count = 32
            ∨ ∃ n, ev.Count = (hdrAt P n ev.Address).TableSize ∧ 32 < ev.Count) := by
      intro ev hev
      obtain ⟨a1, a2⟩ := hall ev hev
      rw [a1]
      exact ⟨le_refl _, hA, ⟨0, by omega⟩, a2⟩
    cases hb : FindPirqTable.body P (some h) o1 o2 o3 A0 w with
    | Return r =>
      rw [loop_return P _ o1 o2 o3 A0 w r hA hb]
      rw [hb] at he
      exact ⟨evs, he, hhere⟩
    | Continue w1 =>
      rw [loop_continue P _ o1 o2 o3 A0 w w1 hA hb]
      rw [hb] at he
      obtain ⟨evs2, he2, hall2⟩ :=
        ih (0xFFFF0 + 0x10 - (A0 + 0x10)) (by omega) (A0 + 0x10) w1 rfl
      refine ⟨evs ++ evs2, ?_, ?_⟩
      · rw [he2]
        have he' : w1.memReads = w.memReads ++ evs := he
        rw [he', List.append_assoc]
      · intro ev hev
        rcases List.mem_append.1 hev with h1 | h2
        · exact hhere ev h1
        · obtain ⟨b1, b2, ⟨k, hk⟩, b4⟩ := hall2 ev h2
          exact ⟨by omega, b2, ⟨k + 1, by omega⟩, b4⟩

/-- C24. The reads `FindPirqTable` adds to the read log all start at a
candidate address `A`, `0xF0000 ≤ A ≤ 0xFFFF0`, and have length 4, 32, or the
`TableSize` of a header read at `A`, which is above 32; the length is at most
65535 in every case.  So every address `a` such a read touches has
`0xF0000 ≤ A ≤ a < A + 65535`. -/
theorem C24_reads_stay_in_range (P : Platform) (w : World) (o1 : Option (Option Nat))
    (o2 : Option Nat) (o3 : Option PIR_TABLE_HEADER) :
    ∃ evs, (FindPirqTable P w o1 o2 o3).world.memReads = w.memReads ++ evs
      ∧ ∀ ev ∈ evs, IsCandidate ev.Address
          ∧ 0xF0000 ≤ ev.Address ∧ ev.Address ≤ 0xFFFF0
          ∧ (ev.Count = 4 ∨ ev.Count = 32
              ∨ ∃ n, ev.Count = (hdrAt P n ev.Address).TableSize ∧ 32 < ev.Count)
          ∧ ev.Count ≤ 65535
          ∧ ∀ a, ev.Address ≤ a → a < ev.Address + ev.Count →
              0xF0000 ≤ a ∧ a < ev.Address + 65535 := by
  have hnone : ∀ s, ∃ evs, (⟨s, o1, o2, o3, w⟩ : FindOut).world.memReads = w.memReads ++ evs
      ∧ ∀ ev ∈ evs, IsCandidate ev.Address
          ∧ 0xF0000 ≤ ev.Address ∧ ev.Address ≤ 0xFFFF0
          ∧ (ev.Count = 4 ∨ ev.Count = 32
              ∨ ∃ n, ev.Count = (hdrAt P n ev.Address).TableSize ∧ 32 < ev.Count)
          ∧ ev.Count ≤ 65535
          ∧ ∀ a, ev.Address ≤ a → a < ev.Address + ev.Count →
              0xF0000 ≤ a ∧ a < ev.Address + 65535 :=
    fun s => ⟨[], by simp, fun ev hev => absurd hev (List.not_mem_nil _)⟩
  unfold FindPirqTable
  by_cases hn : o1 = none ∨ o2 = none ∨ o3 = none
  · rw [if_pos hn]
    exact hnone _
  rw [if_neg hn]
  simp only []
  by_cases hl : EFI_ERROR P.LocateProtocol.1 = true ∨ P.LocateProtocol.2 = none
  · rw [if_pos hl]
    exact hnone _
  rw [if_neg hl]
  push_neg at hl
  obtain ⟨h, hh⟩ := Option.ne_none_iff_exists'.1 hl.2
  rw [hh]
  obtain ⟨evs, he, hall⟩ := loop_events P h o1 o2 o3 _ 0xF0000 w rfl
  refine ⟨evs, he, ?_⟩
  intro ev hev
  obtain ⟨b1, b2, b3, b4⟩ := hall ev hev
  have hc : ev.Count ≤ 65535 := by
    rcases b4 with b | b | ⟨n, b, _⟩
    · omega
    · omega
    · have := hdrAt_TableSize_lt P n ev.Address
      have e : (2 : Nat) ^ 16 = 65536 := by decide
      omega
  refine ⟨(isCandidate_iff ev.Address).2 ⟨b1, b2, b3⟩, b1, b2, b4, hc, ?_⟩
  intro a ha1 ha2
  omega

/-- C25. Slot bytes are covered by the verified checksum.  Let `FindPirqTable`
return success with address `T` and header `H`, and let `i` be below the slot
count of `H`.  Then `T + 32 ≤ T + 32 + 16 * i` and
`T + 32 + 16 * i + 16 ≤ T + H.TableSize`; the last read of `FindPirqTable` is
the read of `H.TableSize` bytes at `T` whose bytes add up to 0; and the one read
`DumpSlotPage` issues for slot `i` is of 16 bytes at `T + 32 + 16 * i`, hence
inside the range of that read. -/
theorem C25_slot_inside_checksummed_table (P : Platform) (w : World)
    (o1 : Option (Option Nat)) (o2 : Option Nat) (o3 : Option PIR_TABLE_HEADER)
    (T : Nat) (H : PIR_TABLE_HEADER) (i : Nat)
    (hS : (FindPirqTable P w o1 o2 o3).Status = EFI_SUCCESS)
    (hT : (FindPirqTable P w o1 o2 o3).OutTableAddr = some T)
    (hH : (FindPirqTable P w o1 o2 o3).OutHeaderCopy = some H)
    (hi : i < specSlotCount H) :
    T + 32 ≤ T + 32 + 16 * i
    ∧ T + 32 + 16 * i + 16 ≤ T + H.TableSize
    ∧ (∃ pre evT, (FindPirqTable P w o1 o2 o3).world.memReads = pre ++ [evT]
        ∧ evT.Address = T ∧ evT.Count = H.TableSize ∧ Checksum8 evT.Data H.TableSize = 0)
    ∧ ∀ w1 h, ∃ ev, (DumpSlotPage P w1 (some h) T (some H) i).2.memReads = w1.memReads ++ [ev]
        ∧ ev.Address = T + 32 + 16 * i ∧ ev.Count = 16
        ∧ T ≤ ev.Address ∧ ev.Address + ev.Count ≤ T + H.TableSize := by
  obtain ⟨pre, n, hc, hHd, _, c3, hlog⟩ := success_log P w o1 o2 o3 T H hS hT hH
  have hb := specSlotCount_bound H i hi
  have h16 : H.TableSize < 2 ^ 16 := by
    rw [hHd]
    exact hdrAt_TableSize_lt _ _ _
  obtain ⟨k, hk, hTk⟩ := hc
  have hfit : T + 32 + 16 * i < 2 ^ 64 := by
    have e : (2 : Nat) ^ 16 = 65536 := by decide
    have e2 : (2 : Nat) ^ 64 = 18446744073709551616 := by decide
    omega
  refine ⟨by omega, by omega, ?_, ?_⟩
  · refine ⟨pre ++ [evAt P n T 4, evAt P (n + 1) T 32], evAt P (n + 2) T H.TableSize, ?_, rfl,
      rfl, ?_⟩
    · rw [hlog]
      simp
    · have := c3.2
      rw [← hHd] at this
      exact this
  · intro w1 h
    refine ⟨evAt P w1.memReads.length (slotAddr T i) 16, ?_, ?_, rfl, ?_, ?_⟩
    · rw [DumpSlotPage_accepts P w1 h T H i h16 hi]
      split_ifs <;> rfl
    · exact slotAddr_eq T i hfit
    · show T ≤ slotAddr T i
      rw [slotAddr_eq T i hfit]
      omega
    · show slotAddr T i + 16 ≤ _
      rw [slotAddr_eq T i hfit]
      omega

/-- C25 at a concrete input: the example table at `0xF0000` has 48 bytes and
one slot; slot 0 occupies `0xF0020 .. 0xF002F`, inside the 48 bytes. -/
theorem C25_slot_inside_checksummed_table_witness :
    (FindPirqTable (imagePlatform imageA) World.fresh (some none) (some 0)
        (some zeroHeader)).Status = EFI_SUCCESS
    ∧ 0 < specSlotCount oneSlotHeader
    ∧ 0xF0000 + 32 + 16 * 0 + 16 ≤ 0xF0000 + oneSlotHeader.TableSize
    ∧ ∃ ev, (DumpSlotPage (imagePlatform imageA) World.fresh (some 1) 0xF0000
          (some oneSlotHeader) 0).2.memReads = World.fresh.memReads ++ [ev]
        ∧ ev.Address = 0xF0000 + 32 + 16 * 0 ∧ ev.Count = 16
        ∧ 0xF0000 ≤ ev.Address ∧ ev.Address + ev.Count ≤ 0xF0000 + oneSlotHeader.TableSize :=
  have h := C25_slot_inside_checksummed_table (imagePlatform imageA) World.fresh (some none)
    (some 0) (some zeroHeader) 0xF0000 oneSlotHeader 0 run_imageA.1 run_imageA.2.1
    run_imageA.2.2 (by decide)
  ⟨run_imageA.1, by decide, h.2.1, h.2.2.2 World.fresh 1⟩

theorem listedIrqs_append (a b : List ConEvent) :
    listedIrqs (a ++ b) = listedIrqs a ++ listedIrqs b := by
  unfold listedIrqs
  exact List.filterMap_append _ _ _

theorem listedIrqs_fold (Bitmap : Nat) :
    ∀ (l : List Nat) (w : World) (fl : Bool),
      listedIrqs (l.foldl
        (fun (s : World × Bool) Irq =>
          if Bitmap &&& (1 <<< Irq) ≠ 0 then
            (Print (if s.2 = false then Print s.1 "," [] else s.1) "%u" [Irq], false)
          else s)
        (w, fl)).1.console
      = listedIrqs w.console ++ l.filter (fun Irq => decide (Bitmap &&& (1 <<< Irq) ≠ 0)) := by
  intro l
  induction l with
  | nil => intro w fl; simp
  | cons x xs ih =>
    intro w fl
    simp only [List.foldl_cons]
    by_cases hb : Bitmap &&& (1 <<< x) ≠ 0
    · simp only [if_pos hb]
      rw [ih, List.filter_cons_of_pos (by simpa using hb)]
      cases fl
      · have e : (Print (Print w "," []) "%u" [x]).console
            = w.console ++ [ConEvent.Print "," [], ConEvent.Print "%u" [x]] := by
          simp [Print]
        simp only [if_true]
        rw [e, listedIrqs_append]
        have e2 : listedIrqs [ConEvent.Print "," [], ConEvent.Print "%u" [x]] = [x] := by
          simp [listedIrqs]
        rw [e2, List.append_assoc]
        rfl
      · have e : (Print w "%u" [x]).console = w.console ++ [ConEvent.Print "%u" [x]] := by
          simp [Print]
        simp only [Bool.true_eq_false, if_false]
        rw [e, listedIrqs_append]
        have e2 : listedIrqs [ConEvent.Print "%u" [x]] = [x] := by
          simp [listedIrqs]
        rw [e2, List.append_assoc]
        rfl
    · simp only [if_neg hb]
      rw [ih, List.filter_cons_of_neg (by simpa using hb)]

/-- The test `Bitmap & (1u << Irq)` of `PrintIrqBitmap` is the test of bit
`Irq` of the bitmap. -/
theorem bit_test_iff (Bitmap Irq : Nat) :
    Bitmap &&& (1 <<< Irq) ≠ 0 ↔ Bitmap.testBit Irq = true := by
  rw [Nat.one_shiftLeft, Nat.and_two_pow]
  cases hb : Bitmap.testBit Irq
  · simp
  · simp

theorem listedIrqs_bitmapEvents (Bitmap : Nat) :
    listedIrqs (bitmapEvents Bitmap) = (List.range 16).filter (fun i => Bitmap.testBit i) := by
  unfold bitmapEvents PrintIrqBitmap
  simp only []
  have e : ∀ w : World, (Print w ")" []).console = w.console ++ [ConEvent.Print ")" []] :=
    fun w => by simp [Print]
  rw [e, listedIrqs_append, listedIrqs_fold]
  have e1 : listedIrqs (Print World.fresh "0x%04x (" [Bitmap]).console = [] := by
    simp [listedIrqs, Print, World.fresh]
  have e2 : listedIrqs [ConEvent.Print ")" []] = [] := by
    simp [listedIrqs]
  rw [e1, e2, List.nil_append, List.append_nil]
  apply List.filter_congr
  intro x _
  by_cases hb : Bitmap.testBit x = true
  · rw [hb]
    exact decide_eq_true ((bit_test_iff Bitmap x).2 hb)
  · have hb2 : Bitmap.testBit x = false := by simpa using hb
    rw [hb2]
    exact decide_eq_false (fun hh => hb ((bit_test_iff Bitmap x).1 hh))

/-- The powers of two of the set bits below `n` add up to the value modulo
`2 ^ n`. -/
theorem sum_set_bits (B : Nat) :
    ∀ n, (((List.range n).filter (fun i => B.testBit i)).map (fun i => 2 ^ i)).sum
      = B % 2 ^ n := by
  intro n
  induction n with
  | zero => simp [Nat.mod_one]
  | succ n ih =>
    rw [List.range_succ, List.filter_append, List.map_append, List.sum_append, ih,
      Nat.mod_pow_succ]
    cases hb : B.testBit n
    · have h0 : B / 2 ^ n % 2 = 0 := by
        rw [Nat.testBit_to_div_mod] at hb
        have hlt : B / 2 ^ n % 2 < 2 := Nat.mod_lt _ (by decide)
        have hne : ¬ B / 2 ^ n % 2 = 1 := by simpa using hb
        omega
      simp [hb, h0]
    · have h1 : B / 2 ^ n % 2 = 1 := by
        rw [Nat.testBit_to_div_mod] at hb
        simpa using hb
      simp [hb, h1]

/-- C26. For every 16-bit bitmap, the IRQ numbers `PrintIrqBitmap` lists (the
arguments of its `"%u"` prints, in order) are the numbers `i` of `0..15` whose
bit `i` is set, in ascending order: a number is listed if and only if it is
below 16 and its bit is set, the list is strictly ascending, so that no number
is listed twice, it is empty for the bitmap 0, and the bitmap is the sum of
`2 ^ i` over the listed numbers. -/
theorem C26_bitmap_lists_set_bits (Bitmap : Nat) (h16 : Bitmap < 2 ^ 16) :
    listedIrqs (bitmapEvents Bitmap) = (List.range 16).filter (fun i => Bitmap.testBit i)
    ∧ (∀ i, i ∈ listedIrqs (bitmapEvents Bitmap) ↔ i < 16 ∧ Bitmap.testBit i = true)
    ∧ (∀ i, i ∈ listedIrqs (bitmapEvents Bitmap) ↔ i < 16 ∧ Bitmap &&& (1 <<< i) ≠ 0)
    ∧ List.Pairwise (fun a b => a < b) (listedIrqs (bitmapEvents Bitmap))
    ∧ (listedIrqs (bitmapEvents Bitmap)).Nodup
    ∧ (Bitmap = 0 → listedIrqs (bitmapEvents Bitmap) = [])
    ∧ ((listedIrqs (bitmapEvents Bitmap)).map (fun i => 2 ^ i)).sum = Bitmap := by
  have hl := listedIrqs_bitmapEvents Bitmap
  have hmem : ∀ i, i ∈ listedIrqs (bitmapEvents Bitmap) ↔ i < 16 ∧ Bitmap.testBit i = true := by
    intro i
    rw [hl, List.mem_filter, List.mem_range]
  have hpw : List.Pairwise (fun a b => a < b) (listedIrqs (bitmapEvents Bitmap)) := by
    rw [hl]
    exact List.Pairwise.sublist (List.filter_sublist _) (List.pairwise_lt_range 16)
  refine ⟨hl, hmem, ?_, hpw, ?_, ?_, ?_⟩
  · intro i
    rw [hmem i, bit_test_iff]
  · exact hpw.imp (fun h => Nat.ne_of_lt h)
  · intro h0
    rw [hl, h0]
    decide
  · rw [hl, sum_set_bits Bitmap 16]
    exact Nat.mod_eq_of_lt h16

/-- C26 at a concrete input: the bitmap `0x0C20` (bits 5, 10 and 11) is listed
as 5, 10, 11, and `2 ^ 5 + 2 ^ 10 + 2 ^ 11 = 0x0C20`. -/
theorem C26_bitmap_lists_set_bits_witness :
    listedIrqs (bitmapEvents 0x0C20) = [5, 10, 11]
    ∧ bitmapEvents 0x0C20
        = [ConEvent.Print "0x%04x (" [0x0C20], ConEvent.Print "%u" [5], ConEvent.Print "," [],
            ConEvent.Print "%u" [10], ConEvent.Print "," [], ConEvent.Print "%u" [11],
            ConEvent.Print ")" []]
    ∧ ((listedIrqs (bitmapEvents 0x0C20)).map (fun i => 2 ^ i)).sum = 0x0C20 :=
  have h := C26_bitmap_lists_set_bits 0x0C20 (by decide)
  ⟨h.1.trans (by decide), by decide, h.2.2.2.2.2.2⟩

theorem sum_set_zero (l : List Nat) :
    ∀ (p v : Nat), p < l.length → (l.set p v).sum = (l.set p 0).sum + v := by
  induction l with
  | nil => intro p v hp; exact absurd hp (Nat.not_lt_zero _)
  | cons x xs ih =>
    intro p v hp
    cases p with
    | zero =>
      simp [List.set]
      omega
    | succ q =>
      simp only [List.set, List.sum_cons]
      rw [ih q v (by simpa using hp)]
      omega

theorem sum_eq_set_zero (l : List Nat) :
    ∀ (p : Nat), p < l.length → l.sum = (l.set p 0).sum + l.getD p 0 := by
  induction l with
  | nil => intro p hp; exact absurd hp (Nat.not_lt_zero _)
  | cons x xs ih =>
    intro p hp
    cases p with
    | zero =>
      simp [List.set]
      omega
    | succ q =>
      simp only [List.set, List.sum_cons, List.getD_cons_succ]
      rw [ih q (by simpa using hp)]
      omega

/-- When all the bytes of a buffer are summed, `Checksum8` is the sum of the
list modulo 256. -/
theorem Checksum8_self (l : List Nat) : Checksum8 l l.length = l.sum % 256 := by
  rw [Checksum8_eq_sum, map_getD_range_self]

/-- Two functions that differ at one index only: their sums over a range that
holds the index differ by the difference at the index. -/
theorem range_sum_update (f g : Nat → Nat) (j : Nat) (hfg : ∀ i, i ≠ j → g i = f i) :
    ∀ n, j < n →
      ((List.range n).map g).sum + f j = ((List.range n).map f).sum + g j := by
  have hbelow : ∀ n, n ≤ j → ((List.range n).map g).sum = ((List.range n).map f).sum := by
    intro n
    induction n with
    | zero => intro _; rfl
    | succ n ih =>
      intro hn
      rw [List.range_succ, List.map_append, List.map_append, List.sum_append, List.sum_append,
        ih (by omega)]
      simp only [List.map_cons, List.map_nil, List.sum_cons, List.sum_nil]
      rw [hfg n (by omega)]
  intro n
  induction n with
  | zero => intro hj; exact absurd hj (Nat.not_lt_zero _)
  | succ n ih =>
    intro hj
    rw [List.range_succ, List.map_append, List.map_append, List.sum_append, List.sum_append]
    simp only [List.map_cons, List.map_nil, List.sum_cons, List.sum_nil]
    by_cases hn : j = n
    · subst hn
      rw [hbelow j (le_refl _)]
      omega
    · have := ih (by omega)
      rw [hfg n (fun h => hn h.symm)]
      omega

theorem imageOf_set_ne (base : Nat) (l : List Nat) (p v a : Nat) (ha : a ≠ base + p) :
    byteAt (imageOf base (l.set p v)) a = byteAt (imageOf base l) a := by
  unfold byteAt imageOf
  by_cases hb : base ≤ a
  · rw [if_pos hb, if_pos hb]
    have hne : p ≠ a - base := by omega
    have e : (l.set p v).getD (a - base) 0 = l.getD (a - base) 0 := by
      simp only [List.getD_eq_getElem?_getD]
      rw [List.getElem?_set_ne hne]
    rw [e]
  · rw [if_neg hb, if_neg hb]

/-- A change of one byte of a valid table, outside the two bytes of its
`table_size`, leaves a table that is not valid. -/
theorem valid_single_byte_change (mem mem1 : Nat → Nat) (A q : Nat)
    (hq1 : A ≤ q) (hq2 : q < A + tableSizeAt mem A) (hq6 : q ≠ A + 6) (hq7 : q ≠ A + 7)
    (hsame : ∀ a, a ≠ q → byteAt mem1 a = byteAt mem a)
    (hdiff : byteAt mem1 q ≠ byteAt mem q) (hv : ValidTableAt mem A) :
    ¬ ValidTableAt mem1 A := by
  intro hv1
  have hsz : tableSizeAt mem1 A = tableSizeAt mem A := by
    unfold tableSizeAt
    rw [hsame _ (fun h => hq6 h.symm), hsame _ (fun h => hq7 h.symm)]
  have c := hv.2.2.2
  have c1 := hv1.2.2.2
  unfold ChecksumAt at c c1
  rw [hsz] at c1
  have hup := range_sum_update (fun i => byteAt mem (A + i)) (fun i => byteAt mem1 (A + i))
    (q - A) (fun i hi => hsame _ (by omega)) (tableSizeAt mem A) (by omega)
  simp only [] at hup
  have e : A + (q - A) = q := by omega
  rw [e] at hup
  have b1 : byteAt mem q < 256 := Nat.mod_lt _ (by decide)
  have b2 : byteAt mem1 q < 256 := Nat.mod_lt _ (by decide)
  omega

theorem Checksum8_set (buf : List Nat) (p v : Nat) (hp : p < buf.length) :
    Checksum8 (buf.set p v) buf.length = ((buf.set p 0).sum + v) % 256 := by
  have e : Checksum8 (buf.set p v) buf.length
      = Checksum8 (buf.set p v) (buf.set p v).length := by
    rw [List.length_set]
  rw [e, Checksum8_self, sum_set_zero buf p v hp]

/-- A successful call on a platform that serves a memory image returns the
address of a valid table of the image. -/
theorem success_valid (P : Platform) (mem : Nat → Nat) (w : World) (o1 : Option (Option Nat))
    (o2 : Option Nat) (o3 : Option PIR_TABLE_HEADER) (A : Nat) (hR : ReadsImage P mem)
    (hS : (FindPirqTable P w o1 o2 o3).Status = EFI_SUCCESS)
    (hA : (FindPirqTable P w o1 o2 o3).OutTableAddr = some A) :
    ValidTableAt mem A := by
  obtain ⟨h, a1, a2, a3, A1, w1, e1, e2, e3, _, _, _, _, ⟨c1, _, c3, hr⟩, _⟩ :=
    FindPirqTable_success_inv P w o1 o2 o3 hS
  rw [hr] at hA
  subst e1 e2 e3
  simp only [Option.map_some', Option.some.injEq] at hA
  subst hA
  exact ((stage_iff P mem (fun _ _ => false) hR.withFaults _ _).1 ⟨c1, c3⟩).1

/-- C29, counterexample. A change of one byte of a table whose bytes add up to
0 does not always make `FindPirqTable` reject it.  The 64 bytes of `wideTable`
add up to 0 and form a valid table at `0xF0000`.  With byte 6, the low byte of
`table_size`, changed from `0x40` to `0x30`, `Checksum8` of the 64 bytes is not
0; but `FindPirqTable` now sums the first 48 bytes only, which add up to 0, and
returns success with the address of the changed table. -/
theorem C29_size_byte_change_counterexample :
    Checksum8 wideTable wideTable.length = 0
    ∧ ValidTableAt (imageOf 0xF0000 wideTable) 0xF0000
    ∧ wideTable.getD 6 0 = 0x40
    ∧ cutTable = wideTable.set 6 0x30
    ∧ Checksum8 cutTable cutTable.length ≠ 0
    ∧ (FindPirqTable (imagePlatform (imageOf 0xF0000 cutTable)) World.fresh (some none) (some 0)
        (some zeroHeader)).Status = EFI_SUCCESS
    ∧ (FindPirqTable (imagePlatform (imageOf 0xF0000 cutTable)) World.fresh (some none) (some 0)
        (some zeroHeader)).OutTableAddr = some 0xF0000 := by
  have hrun := run_image_first (imageOf 0xF0000 cutTable) (by decide)
  exact ⟨by decide, by decide, by decide, rfl, by decide, hrun.1, hrun.2.1⟩

/-- C29, amended. For a non-empty buffer and a position `p` in it, there is
exactly one byte value `v` for which `Checksum8` of the buffer with byte `p`
replaced by `v` is 0.  Changing one byte of a buffer whose `Checksum8` is 0 to a
different byte value makes `Checksum8` of the same number of bytes non-zero.
When the changed byte lies in a valid table at `A` of a memory image and is not
one of the two bytes of `table_size` (offsets 6 and 7), the changed image has no
valid table at `A`, and `FindPirqTable` reading the changed image does not
return success with the address `A`. -/
theorem C29_checksum_byte_unique (buf : List Nat) (p : Nat) (hp : p < buf.length) :
    (∃! v, v < 256 ∧ Checksum8 (buf.set p v) buf.length = 0)
    ∧ (∀ v, v < 256 → buf.getD p 0 < 256 → v ≠ buf.getD p 0 →
        Checksum8 buf buf.length = 0 → Checksum8 (buf.set p v) buf.length ≠ 0)
    ∧ (∀ (mem mem1 : Nat → Nat) (A q : Nat), A ≤ q → q < A + tableSizeAt mem A →
        q ≠ A + 6 → q ≠ A + 7 → (∀ a, a ≠ q → byteAt mem1 a = byteAt mem a) →
        byteAt mem1 q ≠ byteAt mem q → ValidTableAt mem A →
        ¬ ValidTableAt mem1 A
        ∧ ∀ (P : Platform) (w : World) (o1 : Option (Option Nat)) (o2 : Option Nat)
            (o3 : Option PIR_TABLE_HEADER), ReadsImage P mem1 →
            ¬ ((FindPirqTable P w o1 o2 o3).Status = EFI_SUCCESS
                ∧ (FindPirqTable P w o1 o2 o3).OutTableAddr = some A)) := by
  refine ⟨?_, ?_, ?_⟩
  · refine ⟨(256 - (buf.set p 0).sum % 256) % 256, ⟨Nat.mod_lt _ (by decide), ?_⟩, ?_⟩
    · rw [Checksum8_set buf p _ hp]
      omega
    · rintro v ⟨hv, hz⟩
      rw [Checksum8_set buf p v hp] at hz
      omega
  · intro v hv hold hne hz
    rw [Checksum8_self, sum_eq_set_zero buf p hp] at hz
    rw [Checksum8_set buf p v hp]
    omega
  · intro mem mem1 A q hq1 hq2 hq6 hq7 hsame hdiff hv
    have hnv := valid_single_byte_change mem mem1 A q hq1 hq2 hq6 hq7 hsame hdiff hv
    refine ⟨hnv, ?_⟩
    rintro P w o1 o2 o3 hR ⟨hS, hA⟩
    exact hnv (success_valid P mem1 w o1 o2 o3 A hR hS hA)

/-- C29 at a concrete input: the example table and its checksum byte (byte
31).  With the byte changed from `0x3E` to `0x3F` the bytes no longer add up to
0, and `FindPirqTable` on the image of the changed table does not return success
with the address `0xF0000`. -/
theorem C29_checksum_byte_unique_witness :
    31 < exampleTable.length
    ∧ Checksum8 exampleTable exampleTable.length = 0
    ∧ Checksum8 (exampleTable.set 31 0x3F) exampleTable.length ≠ 0
    ∧ ¬ ValidTableAt (imageOf 0xF0000 (exampleTable.set 31 0x3F)) 0xF0000
    ∧ ¬ ((FindPirqTable (imagePlatform (imageOf 0xF0000 (exampleTable.set 31 0x3F))) World.fresh
            (some none) (some 0) (some zeroHeader)).Status = EFI_SUCCESS
        ∧ (FindPirqTable (imagePlatform (imageOf 0xF0000 (exampleTable.set 31 0x3F))) World.fresh
            (some none) (some 0) (some zeroHeader)).OutTableAddr = some 0xF0000) :=
  have h := C29_checksum_byte_unique exampleTable 31 (by decide)
  have h3 := h.2.2 (imageOf 0xF0000 exampleTable) (imageOf 0xF0000 (exampleTable.set 31 0x3F))
    0xF0000 (0xF0000 + 31) (by decide) (by decide) (by decide) (by decide)
    (fun a ha => imageOf_set_ne 0xF0000 exampleTable 31 0x3F a ha) (by decide) (by decide)
  ⟨by decide, by decide, h.2.1 0x3F (by decide) (by decide) (by decide) (by decide), h3.1,
    h3.2 _ World.fresh (some none) (some 0) (some zeroHeader) (imagePlatform_reads _)⟩

end PirqDump
